import Mathlib

/-!
# ESP32 door access: recognition gate, liveness analysis and activity log

A shallow embedding of `src/ESP32_Door_Access/src/main.cpp`.

* The global variables of the sketch become the fields of `State`.
* `handleRecognition`, `checkLiveness`, `resetLivenessTracking`, `unlockDoor`,
  `trimSDLogFile` and `logActivity` become functions on `State`.
* What the sketch reads from its environment during one call (the clock, the
  camera, the detector, the recogniser, the SD card driver) is the argument
  `CycleInput`.
* `int` counters are `Nat`/`Int` without wrap-around (the counters of the sketch
  stay far below 2^31); `unsigned long` clock values are `Nat` and their
  differences are taken modulo 2^32 (`millisDiff`).
* `float` similarities are finite binary32 values, represented by their exact
  rational value.
-/

namespace DoorAccess

/-! ## Configuration (`#define`s and local constants) -/

/-- Constant `MAX_RAM_LOGS`. -/
def MAX_RAM_LOGS : Nat := 5
/-- Constant `MAX_SD_LOGS`. -/
def MAX_SD_LOGS : Nat := 50
/-- Constant `RECOGNITION_THRESHOLD 0.92f`: the binary32 value nearest to 0.92, which is
`15435039 / 2^24`. The sketch compares two `float`s, so the comparison is exact
on this value. -/
def RECOGNITION_THRESHOLD : Rat := 15435039 / 16777216
/-- Constant `RECOGNITION_CONFIRM_COUNT`. -/
def RECOGNITION_CONFIRM_COUNT : Nat := 3
/-- Constant `SAME_USER_COOLDOWN` (milliseconds). -/
def SAME_USER_COOLDOWN : Nat := 5000
/-- Constant `DOOR_UNLOCK_DURATION` (milliseconds). -/
def DOOR_UNLOCK_DURATION : Nat := 3000
/-- Constant `LIVENESS_CHECK_COUNT`. -/
def LIVENESS_CHECK_COUNT : Nat := 4
/-- Constant `LIVENESS_MAX_MICRO_MOVEMENT`. -/
def LIVENESS_MAX_MICRO_MOVEMENT : Int := 20
/-- Constant `LIVENESS_PHOTO_THRESHOLD`. -/
def LIVENESS_PHOTO_THRESHOLD : Int := 30
/-- Constant `LIVENESS_CONSISTENCY_REQUIRED`. -/
def LIVENESS_CONSISTENCY_REQUIRED : Int := 2
/-- Constant `RECOGNITION_INTERVAL`, local constant of `handleRecognition`. -/
def RECOGNITION_INTERVAL : Nat := 1000
/-- Constant `STATUS_PRINT_INTERVAL`, local constant of `handleRecognition`. -/
def STATUS_PRINT_INTERVAL : Nat := 10000
/-- Constant `LIVE_FEED_TIMEOUT`, local constant of `handleRecognition`. -/
def LIVE_FEED_TIMEOUT : Nat := 5000

/-- Number of values of a 32-bit `unsigned long`. -/
def U32 : Nat := 4294967296

/-- The C expression `a - b` on two `unsigned long` clock values. -/
def millisDiff (a b : Nat) : Nat := (a % U32 + U32 - b % U32) % U32

/-! ## Data model -/

/-- Source type `struct FacePosition`. -/
structure FacePosition where
  cx : Int
  cy : Int
  width : Int
  height : Int
  valid : Bool
deriving DecidableEq, Repr

/-- A zero-initialised `FacePosition` (C++ static storage). -/
def FacePosition.zero : FacePosition := ⟨0, 0, 0, 0, false⟩

/-- Source type `struct ActivityLog`. -/
structure ActivityLog where
  username : String
  action : String
  success : Bool
  confidence : Rat
  timestamp : Nat
deriving DecidableEq, Repr

/-- A zero-initialised `ActivityLog`. -/
def ActivityLog.zero : ActivityLog := ⟨"", "", false, 0, 0⟩

/-- Calls that `handleRecognition` makes to the actuator and to the log. The
list of these calls is kept in `State.calls`; it is bookkeeping of the model and
influences nothing. -/
inductive Call where
  | unlockDoor (userName : String)
  | logActivity (userName action : String) (success : Bool) (confidence : Rat)
deriving DecidableEq, Repr

/-- The global variables of the activity log, and the log file on the card. -/
structure LogStore where
  ramLogBuffer : List ActivityLog
  ramLogIndex : Nat
  ramLogCount : Nat
  sdCardReady : Bool
  /-- Content of `/access_logs.csv` on the card; `none` when the file is absent. -/
  sdLogFile : Option (List Char)
deriving DecidableEq, Repr

/-- The global variables of the sketch that the recognition path reads or
writes. -/
structure State where
  /-- The activity log. -/
  log : LogStore
  -- anti-false-positive tracking
  lastConfirmedUser : String
  consecutiveMatches : Nat
  lastAccessTime : Nat
  lastAccessUser : String
  -- liveness tracking
  faceHistory : List FacePosition
  faceHistoryIndex : Nat
  faceHistoryCount : Nat
  -- door
  isDoorUnlocked : Bool
  doorUnlockTime : Nat
  doorRelayPin : Bool
  statusLedPin : Bool
  -- live feed and the static locals of `handleRecognition`
  liveFeedActive : Bool
  liveFeedLastRequest : Nat
  lastRecognitionAttempt : Nat
  lastStatusPrint : Nat
  -- `systemStatus`
  lastRecognizedUser : String
  lastConfidence : Rat
  lastActivity : Nat
  totalUsers : Nat
  /-- Bookkeeping: the calls made so far, oldest first. -/
  calls : List Call
deriving DecidableEq, Repr

/-- The state after static initialisation of the globals. -/
def State.initial : State where
  log := ⟨List.replicate MAX_RAM_LOGS ActivityLog.zero, 0, 0, false, none⟩
  lastConfirmedUser := ""
  consecutiveMatches := 0
  lastAccessTime := 0
  lastAccessUser := ""
  faceHistory := List.replicate LIVENESS_CHECK_COUNT FacePosition.zero
  faceHistoryIndex := 0
  faceHistoryCount := 0
  isDoorUnlocked := false
  doorUnlockTime := 0
  doorRelayPin := false
  statusLedPin := false
  liveFeedActive := false
  liveFeedLastRequest := 0
  lastRecognitionAttempt := 0
  lastStatusPrint := 0
  lastRecognizedUser := ""
  lastConfidence := 0
  lastActivity := 0
  totalUsers := 0
  calls := []

/-! ## Liveness analysis (`checkLiveness`, `resetLivenessTracking`) -/

/-- Function `resetLivenessTracking`: cursor and count to zero, `valid = false` in the
slots `0 .. LIVENESS_CHECK_COUNT - 1`. -/
def resetLivenessTracking (s : State) : State :=
  { s with
    faceHistoryIndex := 0
    faceHistoryCount := 0
    faceHistory := (List.range LIVENESS_CHECK_COUNT).foldl
      (fun h i => h.modify (fun p => { p with valid := false }) i) s.faceHistory }

/-- The running values of the first loop of `checkLiveness`. `posChanges` and
`sizeChanges` hold the entries `0 .. validComparisons - 1` of the two local
arrays, in order. -/
structure PairScan where
  posChanges : List Int
  sizeChanges : List Int
  microMovementCount : Int
  largeMovementCount : Int
  zeroMovementCount : Int
deriving DecidableEq, Repr

/-- Local `validComparisons`: the number of entries written to `posChanges`. -/
def PairScan.validComparisons (a : PairScan) : Int := a.posChanges.length

/-- Local `posChange` of the first loop for the slots `p1 = faceHistory[i]`,
`p2 = faceHistory[i + 1]`. -/
def posChange (p1 p2 : FacePosition) : Int :=
  (Int.natAbs (p2.cx - p1.cx) : Int) + (Int.natAbs (p2.cy - p1.cy) : Int)

/-- Local `sizeChange` of the first loop. -/
def sizeChange (p1 p2 : FacePosition) : Int :=
  (Int.natAbs (p2.width - p1.width) : Int) + (Int.natAbs (p2.height - p1.height) : Int)

/-- One iteration `i` of the first loop of `checkLiveness`. -/
def scanPair (h : List FacePosition) (a : PairScan) (i : Nat) : PairScan :=
  let p1 := h.getD i FacePosition.zero
  let p2 := h.getD (i + 1) FacePosition.zero
  if !p1.valid || !p2.valid then a
  else
    let pc := posChange p1 p2
    let sc := sizeChange p1 p2
    let a := { a with posChanges := a.posChanges ++ [pc], sizeChanges := a.sizeChanges ++ [sc] }
    if pc = 0 ∧ sc = 0 then { a with zeroMovementCount := a.zeroMovementCount + 1 }
    else if pc ≤ LIVENESS_MAX_MICRO_MOVEMENT then
      { a with microMovementCount := a.microMovementCount + 1 }
    else if pc > LIVENESS_PHOTO_THRESHOLD then
      { a with largeMovementCount := a.largeMovementCount + 1 }
    else a

/-- The first loop of `checkLiveness`, `i = 0 .. LIVENESS_CHECK_COUNT - 2`. -/
def scanPairs (h : List FacePosition) : PairScan :=
  (List.range (LIVENESS_CHECK_COUNT - 1)).foldl (scanPair h) ⟨[], [], 0, 0, 0⟩

/-- The running values of the second loop of `checkLiveness`. -/
structure PosStats where
  totalPosChange : Int
  totalSizeChange : Int
  maxPosChange : Int
  minPosChange : Int
deriving DecidableEq, Repr

/-- One iteration of the second loop, on `posChanges[i]` and `sizeChanges[i]`. -/
def statStep (t : PosStats) (ps : Int × Int) : PosStats :=
  let t := { t with totalPosChange := t.totalPosChange + ps.1,
                    totalSizeChange := t.totalSizeChange + ps.2 }
  let t := if ps.1 > t.maxPosChange then { t with maxPosChange := ps.1 } else t
  if ps.1 < t.minPosChange then { t with minPosChange := ps.1 } else t

/-- The second loop of `checkLiveness`. -/
def posStats (a : PairScan) : PosStats :=
  (a.posChanges.zip a.sizeChanges).foldl statStep ⟨0, 0, 0, 999⟩

/-- The `return` statement by which `checkLiveness` leaves, named after the
message printed just before it. -/
inductive Liveness where
  /-- Message `[LIVENESS] Need %d frames, have %d`. -/
  | insufficientHistory
  /-- Message `Liveness: No valid comparisons`. -/
  | noValidComparisons
  /-- CHECK 1, `Face completely static`. -/
  | staticFace
  /-- CHECK 2, `Large erratic movements detected`. -/
  | erraticMovement
  /-- CHECK 3, `Uniform large movement`. -/
  | uniformLargeMovement
  /-- CHECK 4, `Size too stable with position change`. -/
  | flatSurface
  /-- CHECK 5, `Insufficient natural micro-movements`. -/
  | insufficientMicroMovement
  /-- Message `LIVENESS PASSED`. -/
  | passed
deriving DecidableEq, Repr

/-- The body of `checkLiveness`, returning which `return` is taken. -/
def livenessVerdict (s : State) : Liveness :=
  if s.faceHistoryCount < LIVENESS_CHECK_COUNT then .insufficientHistory
  else
    let a := scanPairs s.faceHistory
    let validComparisons := a.validComparisons
    if validComparisons = 0 then .noValidComparisons
    else
      let t := posStats a
      let avgPosChange := t.totalPosChange.tdiv validComparisons
      let avgSizeChange := t.totalSizeChange.tdiv validComparisons
      let posChangeVariance := t.maxPosChange - t.minPosChange
      if a.zeroMovementCount ≥ validComparisons - 1 then .staticFace
      else if a.largeMovementCount ≥ 2 then .erraticMovement
      else if avgPosChange > LIVENESS_PHOTO_THRESHOLD ∧ posChangeVariance < 5 then
        .uniformLargeMovement
      else if avgSizeChange = 0 ∧ avgPosChange > 10 then .flatSurface
      else if a.microMovementCount < LIVENESS_CONSISTENCY_REQUIRED then
        .insufficientMicroMovement
      else .passed

/-- Function `checkLiveness`: `true` exactly on the last `return`. -/
def checkLiveness (s : State) : Bool :=
  livenessVerdict s = Liveness.passed

/-! ## Door actuator (`unlockDoor`) -/

/-- Function `unlockDoor` called when `millis()` reads `now`: relay high, door marked
unlocked, status LED left high after three blinks. -/
def unlockDoor (now : Nat) (userName : String) (s : State) : State :=
  { s with
    doorRelayPin := true
    isDoorUnlocked := true
    doorUnlockTime := now
    statusLedPin := true
    calls := s.calls ++ [Call.unlockDoor userName] }

/-! ## Activity log (`trimSDLogFile`, `logActivity`) -/

/-- What the SD card driver answers during one call of `logActivity`. -/
structure SdIo where
  /-- Whether `SD_MMC.open(SD_LOG_FILE, FILE_APPEND)` yields an open file. -/
  appendOpens : Bool
  /-- Whether `SD_MMC.open(SD_LOG_FILE, FILE_READ)` yields an open file. -/
  readOpens : Bool
  /-- Whether `SD_MMC.open(SD_LOG_FILE, FILE_WRITE)` yields an open file. -/
  writeOpens : Bool
deriving DecidableEq, Repr

/-- The header line written by `setup` and by the clear handler. -/
def logHeader : List Char := "timestamp,username,action,success,confidence".data

/-- Method `Print::println(text)`: the text followed by CR LF. -/
def println (text : List Char) : List Char := text ++ ['\r', '\n']

/-- The character class of C `isspace`, used by `String::trim`. -/
def isSpace (c : Char) : Bool :=
  c = ' ' || c = '\t' || c = '\n' || c = '\x0b' || c = '\x0c' || c = '\r'

/-- Method `String::trim`: white space removed at both ends. -/
def trim (l : List Char) : List Char :=
  ((l.dropWhile isSpace).reverse.dropWhile isSpace).reverse

/-- The pieces of a text between its line feeds: what successive calls of
`readStringUntil` deliver, the last one up to the end of the file. -/
def splitLines : List Char → List (List Char)
  | [] => [[]]
  | c :: cs =>
    if c = '\n' then [] :: splitLines cs
    else
      match splitLines cs with
      | [] => [[c]]
      | l :: ls => (c :: l) :: ls

/-- The non-empty trimmed lines that the reading loop of `trimSDLogFile` (and of
the log query) collects from the text after the header. -/
def readEntries (body : List (List Char)) : List (List Char) :=
  (body.map trim).filter (fun l => l.length > 0)

/-- Function `trimSDLogFile`: when the file holds more than `MAX_SD_LOGS` entries it is
rewritten with its header and the last `MAX_SD_LOGS` entries. -/
def trimSDLogFile (io : SdIo) (s : LogStore) : LogStore :=
  if !s.sdCardReady then s
  else
    match s.sdLogFile with
    | none => s
    | some text =>
      if !io.readOpens then s
      else
        let pieces := splitLines text
        let header := pieces.headD []
        let lines := readEntries pieces.tail
        if lines.length ≤ MAX_SD_LOGS then s
        else
          let startIdx := lines.length - MAX_SD_LOGS
          if io.writeOpens then
            let kept := (lines.drop startIdx).map println
            { s with sdLogFile := some (println header ++ kept.flatten) }
          else s

/-- Decimal digits of `n`, at least two of them (`%02d`). -/
def twoDigits (n : Nat) : List Char :=
  if n < 10 then '0' :: (toString n).data else (toString n).data

/-- The integer nearest to a non-negative rational, ties to even. -/
def roundHalfEven (q : Rat) : Nat :=
  let f := (Rat.floor q).toNat
  let r := q - f
  if r < 1 / 2 then f else if 1 / 2 < r then f + 1 else if f % 2 = 0 then f else f + 1

/-- The conversion `%.2f` of `printf`. -/
def formatFixed2 (q : Rat) : List Char :=
  let n := roundHalfEven (|q| * 100)
  (if q < 0 then ['-'] else []) ++ (toString (n / 100)).data ++ ['.'] ++ twoDigits (n % 100)

/-- The line `"%lu,%s,%s,%d,%.2f\n"` that `logActivity` prints to the file. -/
def csvLine (timestamp : Nat) (userName action : String) (success : Bool)
    (confidence : Rat) : List Char :=
  (toString timestamp).data ++ [','] ++ userName.data ++ [','] ++ action.data ++ [',']
    ++ (if success then ['1'] else ['0']) ++ [','] ++ formatFixed2 confidence ++ ['\n']

/-- The part of `logActivity` under the label `store_in_ram`. -/
def storeInRam (timestamp : Nat) (userName action : String) (success : Bool)
    (confidence : Rat) (s : LogStore) : LogStore :=
  { s with
    ramLogBuffer := s.ramLogBuffer.set s.ramLogIndex
      ⟨userName, action, success, confidence, timestamp⟩
    ramLogIndex := (s.ramLogIndex + 1) % MAX_RAM_LOGS
    ramLogCount := if s.ramLogCount < MAX_RAM_LOGS then s.ramLogCount + 1 else s.ramLogCount }

/-- Function `logActivity`, called when `millis()` reads `timestamp`: its effect on the
activity log. -/
def logActivity (io : SdIo) (timestamp : Nat) (userName action : String) (success : Bool)
    (confidence : Rat) (s : LogStore) : LogStore :=
  if s.sdCardReady then
    if io.appendOpens then
      let line := csvLine timestamp userName action success confidence
      let s := { s with sdLogFile := some (s.sdLogFile.getD [] ++ line) }
      trimSDLogFile io s
    else storeInRam timestamp userName action success confidence s
  else storeInRam timestamp userName action success confidence s

/-- A call of `logActivity` from `handleRecognition`: the log is updated and the
call is noted. -/
def State.logActivity (io : SdIo) (timestamp : Nat) (userName action : String)
    (success : Bool) (confidence : Rat) (s : State) : State :=
  { s with
    log := DoorAccess.logActivity io timestamp userName action success confidence s.log
    calls := s.calls ++ [Call.logActivity userName action success confidence] }

/-! ## The recognition cycle (`handleRecognition`) -/

/-- What one call of `handleRecognition` reads from its environment. -/
structure CycleInput where
  /-- The value of `millis()` during the call. The reads inside
  `handleRecognition` and at the entry of `unlockDoor` are not separated by any
  `delay` and are taken to return the same value. -/
  now : Nat
  /-- The value of `millis()` read by `logActivity` (after the blinking of
  `unlockDoor` when the call follows it). -/
  logTime : Nat
  /-- Value of `camera.capture().isOk()`. -/
  captureOk : Bool
  /-- Value of `recognition.detect().isOk()`. -/
  detectOk : Bool
  /-- Value of `detection.first.cx`. -/
  cx : Int
  /-- Value of `detection.first.cy`. -/
  cy : Int
  /-- Value of `detection.first.width`. -/
  width : Int
  /-- Value of `detection.first.height`. -/
  height : Int
  /-- Value of `recognition.recognize().isOk()`. -/
  recognizeOk : Bool
  /-- Value of `recognition.match.name`. -/
  matchName : String
  /-- Value of `recognition.match.similarity`. -/
  similarity : Rat
  /-- Answers of the SD card driver to `logActivity`. -/
  sd : SdIo
deriving DecidableEq, Repr

/-- The `return` by which `handleRecognition` leaves. -/
inductive Outcome where
  /-- Line 1221: live feed active. -/
  | liveFeed
  /-- Line 1226: less than `RECOGNITION_INTERVAL` since the last attempt. -/
  | tooSoon
  /-- Line 1242: no frame. -/
  | noFrame
  /-- Line 1250: no face detected. -/
  | noFace
  /-- Line 1275: no users enrolled. -/
  | noUsers
  /-- Line 1291: recognised name empty, "empty" or "unknown". -/
  | nameUnknown
  /-- Line 1303: similarity below `RECOGNITION_THRESHOLD`. -/
  | lowConfidence
  /-- Line 1328: fewer than `RECOGNITION_CONFIRM_COUNT` consecutive matches. -/
  | awaitingConfirmation
  /-- Line 1339: `checkLiveness` returned `false`. -/
  | livenessFailed
  /-- Line 1347: same user within `SAME_USER_COOLDOWN`. -/
  | cooldown
  /-- Line 1375: access granted. -/
  | accessGranted
  /-- Line 1384: face not recognised. -/
  | notRecognized
deriving DecidableEq, Repr

/-- Lines 1211-1237: live-feed time-out, rate limiting, and the updates of the two
static locals. The right summand when the call returns early. -/
def pollGate (inp : CycleInput) (s : State) : State ⊕ (State × Outcome) :=
  let s :=
    if s.liveFeedActive ∧ millisDiff inp.now s.liveFeedLastRequest > LIVE_FEED_TIMEOUT then
      { s with liveFeedActive := false }
    else s
  if s.liveFeedActive then .inr (s, .liveFeed)
  else if millisDiff inp.now s.lastRecognitionAttempt < RECOGNITION_INTERVAL then
    .inr (s, .tooSoon)
  else
    let s := { s with lastRecognitionAttempt := inp.now }
    if millisDiff inp.now s.lastStatusPrint > STATUS_PRINT_INTERVAL then
      .inl { s with lastStatusPrint := inp.now }
    else .inl s

/-- Lines 1253-1265: the detected face is stored in the history. -/
def recordFace (currentPos : FacePosition) (s : State) : State :=
  { s with
    faceHistory := s.faceHistory.set s.faceHistoryIndex currentPos
    faceHistoryIndex := (s.faceHistoryIndex + 1) % LIVENESS_CHECK_COUNT
    faceHistoryCount :=
      if s.faceHistoryCount < LIVENESS_CHECK_COUNT then s.faceHistoryCount + 1
      else s.faceHistoryCount }

/-- Lines 1306-1320: the consecutive-match counter. -/
def countMatch (recognizedName : String) (currentPos : FacePosition) (s : State) : State :=
  if recognizedName = s.lastConfirmedUser then
    { s with consecutiveMatches := s.consecutiveMatches + 1 }
  else
    let s := { s with consecutiveMatches := 1, lastConfirmedUser := recognizedName }
    let s := resetLivenessTracking s
    { s with
      faceHistory := s.faceHistory.set 0 currentPos
      faceHistoryCount := 1
      faceHistoryIndex := 1 }

/-- Lines 1288-1290, 1299-1301, 1369-1371 and 1380-1382: liveness window and
consecutive-match counter back to their idle values. -/
def resetGate (s : State) : State :=
  { resetLivenessTracking s with consecutiveMatches := 0, lastConfirmedUser := "" }

/-- Lines 1325-1375 of `handleRecognition`: the confirmation count, the liveness
check, the cool-down and the grant, after the match was counted by `countMatch`. -/
def decideAccess (inp : CycleInput) (s : State) : State × Outcome :=
  let recognizedName := inp.matchName
  let confidence := inp.similarity
  if s.consecutiveMatches < RECOGNITION_CONFIRM_COUNT then (s, .awaitingConfirmation)
  else if !checkLiveness s then
    (s.logActivity inp.sd inp.logTime recognizedName "DENIED_LIVENESS_FAIL" false
      confidence, .livenessFailed)
  else if recognizedName = s.lastAccessUser
      ∧ millisDiff inp.now s.lastAccessTime < SAME_USER_COOLDOWN then
    (s, .cooldown)
  else
    let s := { s with
      lastRecognizedUser := recognizedName
      lastConfidence := confidence
      lastActivity := inp.now
      lastAccessUser := recognizedName
      lastAccessTime := inp.now }
    let s := resetGate s
    let s := unlockDoor inp.now recognizedName s
    (s.logActivity inp.sd inp.logTime recognizedName "ACCESS_GRANTED" true confidence,
      .accessGranted)

/-- Lines 1278-1385 of `handleRecognition`: recognition and the three rejections,
after the face was stored by `recordFace`. -/
def recognizeFace (inp : CycleInput) (currentPos : FacePosition) (s : State) :
    State × Outcome :=
  if inp.recognizeOk then
    let recognizedName := inp.matchName
    let confidence := inp.similarity
    if recognizedName.length = 0 ∨ recognizedName = "empty" ∨ recognizedName = "unknown" then
      (resetGate s, .nameUnknown)
    else if confidence < RECOGNITION_THRESHOLD then
      ((resetGate s).logActivity inp.sd inp.logTime recognizedName "DENIED_LOW_CONFIDENCE"
        false confidence, .lowConfidence)
    else decideAccess inp (countMatch recognizedName currentPos s)
  else
    ((resetGate s).logActivity inp.sd inp.logTime "Unknown" "DENIED_NOT_ENROLLED" false 0,
      .notRecognized)

/-- Function `handleRecognition`: the state after the call and the `return` taken. -/
def handleRecognition (inp : CycleInput) (s : State) : State × Outcome :=
  match pollGate inp s with
  | .inr early => early
  | .inl s =>
    if !inp.captureOk then (s, .noFrame)
    else if !inp.detectOk then (resetLivenessTracking s, .noFace)
    else
      let currentPos : FacePosition := ⟨inp.cx, inp.cy, inp.width, inp.height, true⟩
      let s := recordFace currentPos s
      if s.totalUsers = 0 then (s, .noUsers)
      else recognizeFace inp currentPos s

/-- Successive calls of `handleRecognition`, one per input, the first input first. -/
def runCycles : List CycleInput → State → State
  | [], s => s
  | inp :: rest, s => runCycles rest (handleRecognition inp s).1

/-! ## HTTP handlers (`/api/door/unlock`, `/api/logs`, `/api/logs/clear`) -/

/-- The handler of `POST /api/door/unlock`, run when `millis()` reads `now`: it
calls `unlockDoor("Manual")` and answers. -/
def apiDoorUnlock (now : Nat) (s : State) : State :=
  unlockDoor now "Manual" s

/-- One object of the JSON array that `GET /api/logs` answers with, field by
field as text. -/
structure LogJson where
  username : List Char
  status : List Char
  success : Bool
  confidence : List Char
  timestamp : List Char
deriving DecidableEq, Repr

/-- Method `String::indexOf(ch, fromIndex)`: the position of the first `ch` at or
after `fromIndex`, or -1. -/
def indexOf (l : List Char) (ch : Char) (fromIndex : Nat) : Int :=
  if fromIndex ≥ l.length then -1
  else
    let k := (l.drop fromIndex).indexOf ch
    if k < l.length - fromIndex then ((fromIndex + k : Nat) : Int) else -1

/-- Method `String::substring(left, right)`: the characters from the smaller to
the larger of the two positions (exclusive), cut at the end of the string. -/
def substring (l : List Char) (left right : Nat) : List Char :=
  (l.take (max left right)).drop (min left right)

/-- The CSV parse of one line in the handler of `GET /api/logs` (lines 651-678);
`none` when the line is skipped. -/
def parseLine (line : List Char) : Option LogJson :=
  let p1 := indexOf line ',' 0
  let p2 := indexOf line ',' (p1 + 1).toNat
  let p3 := indexOf line ',' (p2 + 1).toNat
  let p4 := indexOf line ',' (p3 + 1).toNat
  if p1 > 0 ∧ p2 > 0 ∧ p3 > 0 ∧ p4 > 0 then
    some
      { timestamp := substring line 0 p1.toNat
        username := substring line (p1 + 1).toNat p2.toNat
        status := substring line (p2 + 1).toNat p3.toNat
        success := substring line (p3 + 1).toNat p4.toNat = ['1']
        confidence := line.drop (p4 + 1).toNat }
  else none

/-- A value of C type `int` after an arithmetic step on the target: the result
modulo 2^32, taken in the range from -2^31 to 2^31 - 1. -/
def wrapInt32 (x : Int) : Int := (x + 2147483648) % 4294967296 - 2147483648

/-- The output loop of the durable path, `for (i = size - 1; i >= start; i--)`,
when `n` indices `n - 1, ..., 0` are still ahead. -/
def sdOutputLoop (lines : List (List Char)) (start : Int) : Nat → List LogJson
  | 0 => []
  | i + 1 =>
    if (i : Int) ≥ start then (parseLine (lines.getD i [])).toList ++ sdOutputLoop lines start i
    else []

/-- The durable path of `GET /api/logs` on the text of the log file: the header
is skipped, at most 500 non-empty trimmed lines are read, and the lines from the
last one down to `start` are parsed and answered. -/
def sdQuery (text : List Char) (limit : Int) : List LogJson :=
  let lines := (readEntries (splitLines text).tail).take 500
  let start := max 0 (wrapInt32 ((lines.length : Int) - limit))
  sdOutputLoop lines start lines.length

/-- The slot `idx` that the in-memory path reads in iteration `i` (lines
684-685). -/
def ramSlot (ramLogIndex i : Nat) : Nat :=
  let idx := ((ramLogIndex : Int) - 1 - i + MAX_RAM_LOGS).tmod MAX_RAM_LOGS
  (if idx < 0 then idx + MAX_RAM_LOGS else idx).toNat

/-- The position of the highest set bit of a number (zero for the numbers 0 and
1), found by halving at most `fuel` times. -/
def highBit : Nat → Nat → Nat
  | 0, _ => 0
  | fuel + 1, n => if 2 ≤ n then highBit fuel (n / 2) + 1 else 0

/-- The value of C type `double` nearest to a rational number, ties to the even
significand (53 significant bits): the result of one arithmetic step on
`double`s. Numbers beyond the range of the normal `double`s do not occur in what
follows. -/
def toDouble (q : Rat) : Rat :=
  if q = 0 then 0
  else
    let a := |q|
    let e0 : Int := (highBit 2048 a.num.natAbs : Int) - (highBit 2048 a.den : Int) - 52
    let scaled (e : Int) : Rat :=
      if 0 ≤ e then a / ((2 ^ e.toNat : Nat) : Rat) else a * ((2 ^ (-e).toNat : Nat) : Rat)
    let e := if scaled e0 < 4503599627370496 then e0 - 1 else e0
    let m : Rat := ((roundHalfEven (scaled e) : Nat) : Rat)
    let v := if 0 ≤ e then m * ((2 ^ e.toNat : Nat) : Rat) else m / ((2 ^ (-e).toNat : Nat) : Rat)
    if q < 0 then -v else v

/-- The loop `while (number >= 10.0 * tenpow) { tenpow *= 10.0; digitcount++; }`
of `dtostrf`, cut after `fuel` rounds; it yields `tenpow` and `digitcount`. -/
def dtostrfScale : Nat → Rat → Rat → Nat → Rat × Nat
  | 0, _, tenpow, digitcount => (tenpow, digitcount)
  | fuel + 1, number, tenpow, digitcount =>
    if number ≥ toDouble (10 * tenpow) then
      dtostrfScale fuel number (toDouble (tenpow * 10)) (digitcount + 1)
    else (tenpow, digitcount)

/-- The loop `while (digitcount-- > 0)` of `dtostrf`, which prints one digit per
round and the decimal point when `prec` digits are left. -/
def dtostrfDigits (prec : Nat) : Nat → Rat → List Char
  | 0, _ => []
  | digitcount + 1, number =>
    let digit := min 9 (Rat.floor number).toNat
    (Nat.digitChar digit :: (if digitcount = prec ∧ prec > 0 then ['.'] else [])) ++
      dtostrfDigits prec digitcount (toDouble (toDouble (number - digit) * 10))

/-- Function `dtostrf(number, width, prec, s)` of the Arduino core for the ESP32
(`stdlib_noniso.c`) on a finite number: `rounding = 1 / (2 * 10^prec)` is added,
the number is scaled below 10, and the digits are cut off one by one
(`digit = (int8_t)number; number -= digit; number *= 10.0`), each step in
`double` arithmetic. A `float` is below 10^39, so 40 rounds of the first loop are
enough. -/
def dtostrf (number : Rat) (width : Int) (prec : Nat) : List Char :=
  let negative : Bool := decide (number < 0)
  let fillme : Int := if prec > 0 then width - (prec + 1) else width
  let fillme : Int := if negative then fillme - 1 else fillme
  let number := |number|
  let rounding := toDouble (1 / (List.range prec).foldl (fun r _ => toDouble (r * 10)) 2)
  let number := toDouble (number + rounding)
  let scale := dtostrfScale 40 number 1 1
  let number := toDouble (number / scale.1)
  let fillme := fillme - scale.2
  List.replicate fillme.toNat ' ' ++ (if negative then ['-'] else []) ++
    dtostrfDigits prec (scale.2 + prec) number

/-- Constructor `String(float value, unsigned int decimalPlaces)` of the Arduino
core: `dtostrf(value, decimalPlaces + 2, decimalPlaces, buf)`, the `float` passed
as the `double` of the same value. -/
def stringOfFloat (value : Rat) (decimalPlaces : Nat) : List Char :=
  dtostrf value (decimalPlaces + 2) decimalPlaces

/-- The JSON object that the in-memory path builds from a buffered record (lines
690-695); the similarity is printed by `String(confidence, 2)`. -/
def ActivityLog.toJson (r : ActivityLog) : LogJson :=
  { username := r.username.data
    status := r.action.data
    success := r.success
    confidence := stringOfFloat r.confidence 2
    timestamp := (toString r.timestamp).data }

/-- The in-memory path of `GET /api/logs`:
`for (i = 0; i < ramLogCount && i < limit; i++)`. -/
def ramQuery (limit : Int) (s : LogStore) : List LogJson :=
  ((List.range s.ramLogCount).takeWhile (fun (i : Nat) => decide ((i : Int) < limit))).map
    (fun i => (s.ramLogBuffer.getD (ramSlot s.ramLogIndex i) ActivityLog.zero).toJson)

/-- The handler of `GET /api/logs` with the parameter `limit`: the objects of the
answer, in order. `io.readOpens` says whether the log file opens for reading. -/
def apiLogs (io : SdIo) (limit : Int) (s : LogStore) : List LogJson :=
  if s.sdCardReady = true ∧ s.sdLogFile.isSome = true then
    match s.sdLogFile with
    | some text => if io.readOpens then sdQuery text limit else []
    | none => []
  else ramQuery limit s

/-- What the SD card driver answers during the handler of `POST /api/logs/clear`. -/
structure ClearIo where
  /-- Whether `SD_MMC.remove(SD_LOG_FILE)` removes the file. -/
  removeOk : Bool
  /-- Whether `SD_MMC.open(SD_LOG_FILE, FILE_WRITE)` yields an open file. -/
  writeOpens : Bool
deriving DecidableEq, Repr

/-- The handler of `POST /api/logs/clear`. -/
def apiLogsClear (io : ClearIo) (s : LogStore) : LogStore :=
  let s := { s with ramLogIndex := 0, ramLogCount := 0 }
  if s.sdCardReady then
    let s := if io.removeOk then { s with sdLogFile := none } else s
    if io.writeOpens then { s with sdLogFile := some (println logHeader) } else s
  else s

/-- Successive calls of `logActivity`, one per record, the first record first,
each with the same answers of the SD card driver. -/
def logAll (io : SdIo) (records : List ActivityLog) (s : LogStore) : LogStore :=
  records.foldl
    (fun acc r => logActivity io r.timestamp r.username r.action r.success r.confidence acc) s

/-! ## Vocabulary of the statements -/

/-- The adjacent pairs of a window, in slot order. -/
def adjacentPairs (h : List FacePosition) : List (FacePosition × FacePosition) :=
  h.zip h.tail

/-- Number of adjacent pairs of the window without any movement: position change
0 and size change 0. -/
def zeroPairCount (h : List FacePosition) : Nat :=
  (adjacentPairs h).countP (fun p => posChange p.1 p.2 = 0 ∧ sizeChange p.1 p.2 = 0)

/-- Every slot of the window is marked invalid. -/
def AllInvalid (h : List FacePosition) : Prop := ∀ p ∈ h, p.valid = false

instance (h : List FacePosition) : Decidable (AllInvalid h) :=
  inferInstanceAs (Decidable (∀ p ∈ h, p.valid = false))

/-- The call is a polling cycle: it gets past the live-feed check (line 1219) and
the rate limit (line 1224). -/
def PollDue (inp : CycleInput) (s : State) : Prop :=
  (s.liveFeedActive = false ∨ millisDiff inp.now s.liveFeedLastRequest > LIVE_FEED_TIMEOUT) ∧
    ¬ millisDiff inp.now s.lastRecognitionAttempt < RECOGNITION_INTERVAL

instance (inp : CycleInput) (s : State) : Decidable (PollDue inp s) :=
  inferInstanceAs (Decidable (_ ∧ _))

/-- The name passes the guard of line 1285: it is not empty, not "empty" and not
"unknown". -/
def UsableName (n : String) : Prop :=
  ¬ (n.length = 0 ∨ n = "empty" ∨ n = "unknown")

instance (n : String) : Decidable (UsableName n) :=
  inferInstanceAs (Decidable (¬ _))

/-- The face stored by lines 1254-1259. -/
def CycleInput.currentPos (inp : CycleInput) : FacePosition :=
  ⟨inp.cx, inp.cy, inp.width, inp.height, true⟩

/-- The state behind the gate of a polling cycle; `p` is the value left in
`lastStatusPrint`. -/
def State.polled (s : State) (now p : Nat) : State :=
  { s with liveFeedActive := false, lastRecognitionAttempt := now, lastStatusPrint := p }

/-- The state in which a polling cycle compares the count with
`RECOGNITION_CONFIRM_COUNT`: behind the gate, with the face stored and the match
counted. -/
def State.counted (s : State) (inp : CycleInput) (p : Nat) : State :=
  countMatch inp.matchName inp.currentPos (recordFace inp.currentPos (s.polled inp.now p))

/-- The cool-down test of line 1343. -/
def CooldownActive (inp : CycleInput) (s : State) : Prop :=
  inp.matchName = s.lastAccessUser ∧ millisDiff inp.now s.lastAccessTime < SAME_USER_COOLDOWN

instance (inp : CycleInput) (s : State) : Decidable (CooldownActive inp s) :=
  inferInstanceAs (Decidable (_ ∧ _))

/-- The state after lines 1360-1375 (the grant). -/
def State.granted (s : State) (inp : CycleInput) : State :=
  (unlockDoor inp.now inp.matchName
    (resetGate { s with
      lastRecognizedUser := inp.matchName
      lastConfidence := inp.similarity
      lastActivity := inp.now
      lastAccessUser := inp.matchName
      lastAccessTime := inp.now })).logActivity inp.sd inp.logTime inp.matchName
    "ACCESS_GRANTED" true inp.similarity

/-- The outcome is one of the four returns behind the counting of the match. -/
def Outcome.countsMatch : Outcome → Bool
  | .awaitingConfirmation | .livenessFailed | .cooldown | .accessGranted => true
  | _ => false

/-! ## Example inputs and states -/

/-- First of four cycles that see "alice" (similarity 0.95) move naturally, one
second apart. -/
def alice1 : CycleInput :=
  { now := 1000, logTime := 1000, captureOk := true, detectOk := true,
    cx := 100, cy := 100, width := 50, height := 50,
    recognizeOk := true, matchName := "alice", similarity := 95 / 100,
    sd := ⟨true, true, true⟩ }

/-- Second cycle on "alice". -/
def alice2 : CycleInput := { alice1 with now := 2000, logTime := 2000, cx := 103, width := 51 }

/-- Third cycle on "alice". -/
def alice3 : CycleInput := { alice1 with now := 3000, logTime := 3000, cx := 105, cy := 101 }

/-- Fourth cycle on "alice"; the log is written after the blinking of `unlockDoor`. -/
def alice4 : CycleInput :=
  { alice1 with now := 4000, logTime := 4600, cx := 107, cy := 103, width := 52 }

/-- A frame without a face at clock value 3000. -/
def noFaceInput : CycleInput :=
  { alice1 with now := 3000, logTime := 3000, detectOk := false, recognizeOk := false,
                matchName := "", similarity := 0 }

/-- A face reported as "bob" with similarity 0.97 at clock value 3000. -/
def bobInput : CycleInput :=
  { alice1 with now := 3000, logTime := 3000, cx := 80, cy := 90, matchName := "bob",
                similarity := 97 / 100 }

/-- A face for which the recogniser answers with the name "unknown". -/
def unknownInput : CycleInput :=
  { alice1 with now := 3000, logTime := 3000, matchName := "unknown", similarity := 40 / 100 }

/-- One user enrolled, nothing seen yet. -/
def idleState : State := { State.initial with totalUsers := 1 }

/-- In the middle of a streak: the state after `alice1` and `alice2`. -/
def midStreakState : State :=
  { idleState with
    lastConfirmedUser := "alice"
    consecutiveMatches := 2
    lastRecognitionAttempt := 2000
    faceHistory := [⟨100, 100, 50, 50, true⟩, ⟨103, 100, 51, 50, true⟩,
      ⟨0, 0, 0, 0, false⟩, ⟨0, 0, 0, 0, false⟩]
    faceHistoryIndex := 2
    faceHistoryCount := 2 }

/-- The state after `alice1`, `alice2` and `alice3`: three matches counted, three
samples in the window. -/
def readyState : State := (handleRecognition alice3 midStreakState).1

/-- As `readyState`, with a grant for "alice" on record at clock value 1500. -/
def cooledState : State := { readyState with lastAccessUser := "alice", lastAccessTime := 1500 }

/-- The cycle `alice4` moved to clock value 6501. -/
def alice4Late : CycleInput := { alice4 with now := 6501, logTime := 7101 }

/-- A state whose window counts three samples, all of them moving naturally. -/
def threeSampleState : State :=
  { State.initial with
    faceHistory := [⟨100, 100, 50, 50, true⟩, ⟨103, 100, 51, 50, true⟩,
      ⟨105, 101, 50, 50, true⟩, ⟨0, 0, 0, 0, false⟩]
    faceHistoryIndex := 3
    faceHistoryCount := 3 }

/-- A full window of four identical samples at position (0,0) with constant size. -/
def staticState : State :=
  { State.initial with
    faceHistory := List.replicate 4 ⟨0, 0, 60, 60, true⟩
    faceHistoryIndex := 0
    faceHistoryCount := 4 }

/-! ## Vocabulary and examples for the log and the window -/

/-- A full window of four valid samples of constant size, each 40 pixels to the
right of the one before. -/
def slidingState : State :=
  { State.initial with
    faceHistory := [⟨0, 50, 60, 60, true⟩, ⟨40, 50, 60, 60, true⟩, ⟨80, 50, 60, 60, true⟩,
      ⟨120, 50, 60, 60, true⟩]
    faceHistoryIndex := 0
    faceHistoryCount := 4 }

/-- The header line of a log file text: what the first `readStringUntil` of
`trimSDLogFile` delivers. -/
def sdHeader (text : List Char) : List Char := (splitLines text).headD []

/-- The entries of a log file text: the non-empty trimmed lines after the header,
in file order, as the reading loops of `trimSDLogFile` and of the log query
collect them. -/
def sdEntries (text : List Char) : List (List Char) := readEntries (splitLines text).tail

/-- Durable storage is available to the log query: the card is ready and the log
file exists (line 631). -/
def SdAvailable (s : LogStore) : Prop := s.sdCardReady = true ∧ s.sdLogFile.isSome = true

instance (s : LogStore) : Decidable (SdAvailable s) :=
  inferInstanceAs (Decidable (_ ∧ _))

/-- A store without a ready card, its file on the card holding one record. -/
def unmountedStore : LogStore :=
  { ramLogBuffer := List.replicate 5 ActivityLog.zero
    ramLogIndex := 0
    ramLogCount := 0
    sdCardReady := false
    sdLogFile := some (println logHeader ++ "1000,alice,ACCESS_GRANTED,1,0.95\n".data) }

/-- A store with a ready card whose log file holds only the header. -/
def headerOnlyStore : LogStore :=
  { ramLogBuffer := List.replicate 5 ActivityLog.zero
    ramLogIndex := 0
    ramLogCount := 0
    sdCardReady := true
    sdLogFile := some (println logHeader) }

/-- The SD card driver answering every call with success. -/
def sdOk : SdIo := ⟨true, true, true⟩

/-- The SD card driver refusing to open the log file for appending. -/
def sdAppendFails : SdIo := ⟨false, true, true⟩

/-- The `i`-th of a series of example records. -/
def sampleRecord (i : Nat) : ActivityLog :=
  ⟨"user" ++ toString i, "ACCESS_GRANTED", true, 95 / 100, 1000 * i⟩

/-- Successive recordings of face samples by `recordFace`, the first sample
first. -/
def recordAll (samples : List FacePosition) (s : State) : State :=
  samples.foldl (fun acc x => recordFace x acc) s

/-- The samples that the window counts, in the order of recording, oldest first:
the `faceHistoryCount` slots that end just before the cursor. -/
def windowSamples (s : State) : List FacePosition :=
  (List.range s.faceHistoryCount).map (fun i =>
    s.faceHistory.getD
      ((s.faceHistoryIndex + LIVENESS_CHECK_COUNT - s.faceHistoryCount + i) % LIVENESS_CHECK_COUNT)
      FacePosition.zero)

/-- Six samples on a line, numbered by their `cx`. -/
def sixSamples : List FacePosition :=
  [⟨1, 0, 50, 50, true⟩, ⟨2, 0, 50, 50, true⟩, ⟨3, 0, 50, 50, true⟩, ⟨4, 0, 50, 50, true⟩,
    ⟨5, 0, 50, 50, true⟩, ⟨6, 0, 50, 50, true⟩]

/-- The CSV line of a record without its line feed. -/
def ActivityLog.csv (r : ActivityLog) : List Char :=
  (csvLine r.timestamp r.username r.action r.success r.confidence).dropLast

/-- Neither the user name nor the action of the record contains a line feed. -/
def ActivityLog.OneLine (r : ActivityLog) : Prop :=
  '\n' ∉ r.username.data ∧ '\n' ∉ r.action.data

instance (r : ActivityLog) : Decidable r.OneLine :=
  inferInstanceAs (Decidable (_ ∧ _))

/-- The text of a file made of a header and of lines, each ended by a line feed. -/
def fileText (hdr : List Char) (stored : List (List Char)) : List Char :=
  hdr ++ '\n' :: (stored.map (fun l => l ++ ['\n'])).flatten

/-- A line that `String::trim` leaves alone: no line feed inside, no white space
at its first and at its last place. -/
def CleanLine (l : List Char) : Prop :=
  '\n' ∉ l ∧ (∃ c, l.head? = some c ∧ isSpace c = false) ∧
    (∃ z, l.getLast? = some z ∧ isSpace z = false)

/-- The text is a header line `hdr` followed by lines that `String::trim` turns
into the clean entries `ents`. -/
def FileRep (text hdr : List Char) (ents : List (List Char)) : Prop :=
  '\n' ∉ hdr ∧ (∀ e ∈ ents, CleanLine e) ∧
    ∃ stored, text = fileText hdr stored ∧ (∀ l ∈ stored, '\n' ∉ l) ∧ stored.map trim = ents

/-- A character that is no line feed, no white space and no comma. -/
def PlainChar (c : Char) : Prop := c ≠ '\n' ∧ isSpace c = false ∧ c ≠ ','

instance (c : Char) : Decidable (PlainChar c) :=
  inferInstanceAs (Decidable (_ ∧ _))


/-- A store with a ready card whose log file holds the header and one record. -/
def oneRecordStore : LogStore :=
  { headerOnlyStore with
    sdLogFile := some (println logHeader ++ "1000,alice,ACCESS_GRANTED,1,0.95\n".data) }

/-- The card driver of the clear handler answering every call with success. -/
def clearOk : ClearIo := ⟨true, true⟩

/-- The JSON object that the durable path answers for the CSV line of a record
whose user name and action hold no comma: the fields as `logActivity` printed
them, the similarity in the form `%.2f`. -/
def ActivityLog.csvJson (r : ActivityLog) : LogJson :=
  { username := r.username.data
    status := r.action.data
    success := r.success
    confidence := formatFixed2 r.confidence
    timestamp := (toString r.timestamp).data }

/-- The record `r` has gone into the activity log: `before` is the log at the
call, `after` the log behind it, `io` the answers of the card driver. With the
card ready and the file open for appending, the log file is the former text (no
text when there was no file) followed by the CSV line of the record, cut by
`trimSDLogFile`, and the in-memory buffer is as before; for a record on one line
the file that did not exist holds that line alone, and the entries of a file that
was a header followed by entries are former entries, the oldest ones possibly
dropped, followed by the line of the record. Otherwise the record is in the slot
under the cursor of the in-memory buffer, the cursor has moved on by one slot
around the ring, the count has grown by one up to `MAX_RAM_LOGS`, and the file is
as before. -/
def RecordStored (io : SdIo) (r : ActivityLog) (before after : LogStore) : Prop :=
  after.sdCardReady = before.sdCardReady ∧
  (before.sdCardReady = true → io.appendOpens = true →
    after.sdLogFile =
      (trimSDLogFile io { before with sdLogFile := some (before.sdLogFile.getD [] ++
        csvLine r.timestamp r.username r.action r.success r.confidence) }).sdLogFile ∧
    (r.OneLine → before.sdLogFile = none →
      after.sdLogFile = some (csvLine r.timestamp r.username r.action r.success r.confidence)) ∧
    (∀ text hdr ents, r.OneLine → before.sdLogFile = some text → FileRep text hdr ents →
      ∃ text2 k, after.sdLogFile = some text2 ∧ sdEntries text2 = ents.drop k ++ [r.csv]) ∧
    after.ramLogBuffer = before.ramLogBuffer ∧
    after.ramLogIndex = before.ramLogIndex ∧
    after.ramLogCount = before.ramLogCount) ∧
  (¬ (before.sdCardReady = true ∧ io.appendOpens = true) →
    after.sdLogFile = before.sdLogFile ∧
    after.ramLogBuffer = before.ramLogBuffer.set before.ramLogIndex r ∧
    after.ramLogIndex = (before.ramLogIndex + 1) % MAX_RAM_LOGS ∧
    after.ramLogCount =
      if before.ramLogCount < MAX_RAM_LOGS then before.ramLogCount + 1 else before.ramLogCount)

/-- A store with a ready card and no log file: what the clear handler leaves when
the file is removed and cannot be created again. -/
def noFileStore : LogStore := { headerOnlyStore with sdLogFile := none }

/-- The state `readyState` with a ready card whose log file holds only the
header. -/
def readyCardState : State := { readyState with log := headerOnlyStore }

/-- A face reported under the name "unknown" with similarity 0.95 at clock value
3000. -/
def unknownHighInput : CycleInput :=
  { alice1 with now := 3000, logTime := 3000, matchName := "unknown", similarity := 95 / 100 }

/-- The face of `alice1` matched as "alice" with similarity 0.40, below the
threshold, at clock value 3000. -/
def lowConfidenceInput : CycleInput :=
  { alice1 with now := 3000, logTime := 3000, similarity := 40 / 100 }

/-- A full window of constant size with one step of 1200 between two steps of 5. -/
def oneFarStepState : State :=
  { State.initial with
    faceHistory := [⟨0, 0, 60, 60, true⟩, ⟨5, 0, 60, 60, true⟩, ⟨1205, 0, 60, 60, true⟩,
      ⟨1210, 0, 60, 60, true⟩]
    faceHistoryIndex := 0
    faceHistoryCount := 4 }

/-! ## Vocabulary and examples for the liveness checks and the reachable states -/

/-- A full window: four samples counted, four slots, every slot valid. -/
def FullWindow (s : State) : Prop :=
  s.faceHistoryCount = LIVENESS_CHECK_COUNT ∧ s.faceHistory.length = LIVENESS_CHECK_COUNT ∧
    ∀ p ∈ s.faceHistory, p.valid = true

instance (s : State) : Decidable (FullWindow s) :=
  inferInstanceAs (Decidable (_ ∧ _))

/-- The values that the five checks of `checkLiveness` read, as its two loops
leave them (lines 1401-1467). -/
structure Aggregates where
  validComparisons : Int
  zeroMovementCount : Int
  microMovementCount : Int
  largeMovementCount : Int
  avgPosChange : Int
  avgSizeChange : Int
  posChangeVariance : Int
deriving DecidableEq, Repr

/-- The locals of `checkLiveness` behind its two loops, on the slots `h`. -/
def aggregates (h : List FacePosition) : Aggregates :=
  let a := scanPairs h
  let t := posStats a
  { validComparisons := a.validComparisons
    zeroMovementCount := a.zeroMovementCount
    microMovementCount := a.microMovementCount
    largeMovementCount := a.largeMovementCount
    avgPosChange := t.totalPosChange.tdiv a.validComparisons
    avgSizeChange := t.totalSizeChange.tdiv a.validComparisons
    posChangeVariance := t.maxPosChange - t.minPosChange }

/-- The five rejection rules in the words of the specification, in their order:
the condition of each rule on the aggregates, and its reason. -/
def specRules (g : Aggregates) : List (Bool × Liveness) :=
  [(decide (g.zeroMovementCount ≥ g.validComparisons - 1), Liveness.staticFace),
    (decide (g.largeMovementCount ≥ 2), Liveness.erraticMovement),
    (decide (g.avgPosChange > LIVENESS_PHOTO_THRESHOLD ∧ g.posChangeVariance < 5),
      Liveness.uniformLargeMovement),
    (decide (g.avgSizeChange = 0 ∧ g.avgPosChange > 10), Liveness.flatSurface),
    (decide (g.microMovementCount < LIVENESS_CONSISTENCY_REQUIRED),
      Liveness.insufficientMicroMovement)]

/-- The verdict in the words of the specification: the reason of the first rule
whose condition holds, and a pass when none holds. -/
def specVerdict (g : Aggregates) : Liveness :=
  match (specRules g).find? (fun r => r.1) with
  | some r => r.2
  | none => Liveness.passed

/-- The classes of an adjacent pair. -/
inductive PairClass where
  | zero
  | micro
  | large
  | unclassified
deriving DecidableEq, Repr

/-- The class that the first loop of `checkLiveness` gives a pair with position
change `pc` and size change `sc` (the `if` chain of lines 1427-1441). -/
def classify (pc sc : Int) : PairClass :=
  if pc = 0 ∧ sc = 0 then PairClass.zero
  else if pc ≤ LIVENESS_MAX_MICRO_MOVEMENT then PairClass.micro
  else if pc > LIVENESS_PHOTO_THRESHOLD then PairClass.large
  else PairClass.unclassified

/-- The class of a pair in the words of the specification: zero when nothing
changed, micro for `0 < pc ≤ 20`, large for `pc > 30`, unclassified otherwise. -/
def specClass (pc sc : Int) : PairClass :=
  if pc = 0 ∧ sc = 0 then PairClass.zero
  else if 0 < pc ∧ pc ≤ LIVENESS_MAX_MICRO_MOVEMENT then PairClass.micro
  else if pc > LIVENESS_PHOTO_THRESHOLD then PairClass.large
  else PairClass.unclassified

/-- The class that the first loop gives an adjacent pair of slots. -/
def pairClass (p : FacePosition × FacePosition) : PairClass :=
  classify (posChange p.1 p.2) (sizeChange p.1 p.2)

/-- Number of adjacent pairs of the window that the first loop puts in class `k`. -/
def classCount (k : PairClass) (h : List FacePosition) : Nat :=
  (adjacentPairs h).countP (fun p => pairClass p = k)

/-- The position changes of the adjacent pairs of the window, in slot order. -/
def posDeltas (h : List FacePosition) : List Int :=
  (adjacentPairs h).map (fun p => posChange p.1 p.2)

/-- The size changes of the adjacent pairs of the window, in slot order. -/
def sizeDeltas (h : List FacePosition) : List Int :=
  (adjacentPairs h).map (fun p => sizeChange p.1 p.2)

/-- The largest element of a list of integers (0 for the empty list). -/
def listMax (l : List Int) : Int := l.foldl max (l.headD 0)

/-- The smallest element of a list of integers (0 for the empty list). -/
def listMin (l : List Int) : Int := l.foldl min (l.headD 0)

/-- The position variance in the words of the specification: largest minus
smallest position change of the adjacent pairs. -/
def specPosVariance (h : List FacePosition) : Int :=
  listMax (posDeltas h) - listMin (posDeltas h)

/-- The result of `checkLiveness` on the counted samples put in the order of their
recording, oldest first, in the slots 0, 1, 2, 3. -/
def chronologicalLiveness (s : State) : Bool :=
  checkLiveness { s with faceHistory := windowSamples s }

/-- An event that writes the liveness window: a call of `handleRecognition` with
what it reads, or a call of `resetLivenessTracking` from another handler (line
565). -/
inductive WindowEvent where
  | cycle (inp : CycleInput)
  | reset
deriving DecidableEq, Repr

/-- The state after one event. -/
def WindowEvent.apply : WindowEvent → State → State
  | .cycle inp, s => (handleRecognition inp s).1
  | .reset, s => resetLivenessTracking s

/-- The state after a sequence of events, the first event first. -/
def runEvents (events : List WindowEvent) (s : State) : State :=
  events.foldl (fun acc e => e.apply acc) s

/-- The statement on the liveness window: at most four samples counted, the cursor
below four, and slot `i` valid exactly for `i` below the count. -/
def WindowShape (s : State) : Prop :=
  s.faceHistory.length = LIVENESS_CHECK_COUNT ∧
  s.faceHistoryCount ≤ LIVENESS_CHECK_COUNT ∧
  s.faceHistoryIndex < LIVENESS_CHECK_COUNT ∧
  ∀ i, i < LIVENESS_CHECK_COUNT →
    ((s.faceHistory.getD i FacePosition.zero).valid = true ↔ i < s.faceHistoryCount)

instance (s : State) : Decidable (WindowShape s) :=
  inferInstanceAs (Decidable (_ ∧ _))

/-- The text of a field of the CSV line holds no comma and no line feed. -/
def FieldText (x : String) : Prop := ',' ∉ x.data ∧ '\n' ∉ x.data

instance (x : String) : Decidable (FieldText x) :=
  inferInstanceAs (Decidable (_ ∧ _))

/-- A full window whose face centre stays put while its width alternates between
50 and 52. -/
def breathingState : State :=
  { State.initial with
    faceHistory := [⟨100, 100, 50, 50, true⟩, ⟨100, 100, 52, 50, true⟩,
      ⟨100, 100, 50, 50, true⟩, ⟨100, 100, 52, 50, true⟩]
    faceHistoryIndex := 0
    faceHistoryCount := 4 }

/-- A full window of constant size whose face centre moves 1200 to the right
from slot to slot. -/
def farStepState : State :=
  { State.initial with
    faceHistory := [⟨0, 0, 60, 60, true⟩, ⟨1200, 0, 60, 60, true⟩, ⟨2400, 0, 60, 60, true⟩,
      ⟨3600, 0, 60, 60, true⟩]
    faceHistoryIndex := 0
    faceHistoryCount := 4 }

/-- A full window whose face centre moves 15 to the right from slot to slot while
the width goes 50, 51, 51, 50. -/
def nearlyFlatState : State :=
  { State.initial with
    faceHistory := [⟨100, 100, 50, 50, true⟩, ⟨115, 100, 51, 50, true⟩,
      ⟨130, 100, 51, 50, true⟩, ⟨145, 100, 50, 50, true⟩]
    faceHistoryIndex := 0
    faceHistoryCount := 4 }

/-- A full window of a naturally moving face: the samples of `alice1` to
`alice4`. -/
def naturalState : State :=
  { State.initial with
    faceHistory := [⟨100, 100, 50, 50, true⟩, ⟨103, 100, 51, 50, true⟩,
      ⟨105, 101, 50, 50, true⟩, ⟨107, 103, 52, 50, true⟩]
    faceHistoryIndex := 0
    faceHistoryCount := 4 }

/-- Five samples of constant size: the first far to the right, then three steps
of 8 to the right and a step of 20 back to the left. -/
def wrapSamples : List FacePosition :=
  [⟨200, 100, 50, 50, true⟩, ⟨100, 100, 50, 50, true⟩, ⟨108, 100, 50, 50, true⟩,
    ⟨116, 100, 50, 50, true⟩, ⟨96, 100, 50, 50, true⟩]

/-- Four cycles, one second apart, that see "alice" at the places of the first
four of `wrapSamples`. -/
def wrapCycles : List CycleInput :=
  [{ alice1 with cx := 200 },
    { alice1 with now := 2000, logTime := 2000, cx := 100 },
    { alice1 with now := 3000, logTime := 3000, cx := 108 },
    { alice1 with now := 4000, logTime := 4000, cx := 116 }]

/-- The cycle after `wrapCycles`, which sees "alice" at the place of the last of
`wrapSamples`. -/
def wrapLast : CycleInput := { alice1 with now := 5000, logTime := 5600, cx := 96 }

/-- The statement `WindowShape` together with what makes it inductive: while
fewer than four samples are counted, the cursor equals the count. -/
def WindowInv (s : State) : Prop :=
  WindowShape s ∧
    (s.faceHistoryCount < LIVENESS_CHECK_COUNT → s.faceHistoryIndex = s.faceHistoryCount)

/-- The liveness window of one state equals that of another: slots, cursor and
count. -/
def SameWindow (t s : State) : Prop :=
  t.faceHistory = s.faceHistory ∧ t.faceHistoryIndex = s.faceHistoryIndex ∧
    t.faceHistoryCount = s.faceHistoryCount

instance (t s : State) : Decidable (SameWindow t s) :=
  inferInstanceAs (Decidable (_ ∧ _))

/-! ## Lemmas -/

theorem length_eq_four {α : Type} {l : List α} (h : l.length = 4) :
    ∃ a b c d, l = [a, b, c, d] := by
  match l, h with
  | [a, b, c, d], _ => exact ⟨a, b, c, d, rfl⟩

/-- One iteration of the first loop on two valid slots, field by field. -/
theorem scanPair_valid (h : List FacePosition) (a : PairScan) (i : Nat)
    (h1 : (h.getD i FacePosition.zero).valid = true)
    (h2 : (h.getD (i + 1) FacePosition.zero).valid = true) :
    scanPair h a i =
      let pc := posChange (h.getD i FacePosition.zero) (h.getD (i + 1) FacePosition.zero)
      let sc := sizeChange (h.getD i FacePosition.zero) (h.getD (i + 1) FacePosition.zero)
      { posChanges := a.posChanges ++ [pc]
        sizeChanges := a.sizeChanges ++ [sc]
        microMovementCount := a.microMovementCount +
          (if ¬ (pc = 0 ∧ sc = 0) ∧ pc ≤ LIVENESS_MAX_MICRO_MOVEMENT then 1 else 0)
        largeMovementCount := a.largeMovementCount +
          (if ¬ (pc = 0 ∧ sc = 0) ∧ ¬ pc ≤ LIVENESS_MAX_MICRO_MOVEMENT
              ∧ pc > LIVENESS_PHOTO_THRESHOLD then 1 else 0)
        zeroMovementCount := a.zeroMovementCount + (if pc = 0 ∧ sc = 0 then 1 else 0) } := by
  unfold scanPair
  generalize h.getD i FacePosition.zero = p1 at h1 ⊢
  generalize h.getD (i + 1) FacePosition.zero = p2 at h2 ⊢
  simp only [h1, h2, Bool.not_true, Bool.or_self, Bool.false_eq_true, if_false]
  generalize posChange p1 p2 = pc
  generalize sizeChange p1 p2 = sc
  by_cases hz : pc = 0 ∧ sc = 0
  · simp [hz]
  · by_cases hm : pc ≤ LIVENESS_MAX_MICRO_MOVEMENT
    · simp [hz, hm]
    · by_cases hl : pc > LIVENESS_PHOTO_THRESHOLD
      · simp [hz, hm, hl]
      · simp [hz, hm, hl]

/-- The first loop on a window of four valid slots. -/
theorem scanPairs_four (a b c d : FacePosition) (ha : a.valid = true) (hb : b.valid = true)
    (hc : c.valid = true) (hd : d.valid = true) :
    (scanPairs [a, b, c, d]).posChanges = [posChange a b, posChange b c, posChange c d] ∧
    (scanPairs [a, b, c, d]).sizeChanges = [sizeChange a b, sizeChange b c, sizeChange c d] ∧
    (scanPairs [a, b, c, d]).zeroMovementCount =
      (if posChange a b = 0 ∧ sizeChange a b = 0 then 1 else 0)
      + (if posChange b c = 0 ∧ sizeChange b c = 0 then 1 else 0)
      + (if posChange c d = 0 ∧ sizeChange c d = 0 then 1 else 0) := by
  have e : scanPairs [a, b, c, d] =
      scanPair [a, b, c, d] (scanPair [a, b, c, d] (scanPair [a, b, c, d] ⟨[], [], 0, 0, 0⟩ 0) 1) 2 :=
    rfl
  rw [e, scanPair_valid _ _ 2 (by simpa using hc) (by simpa using hd),
    scanPair_valid _ _ 1 (by simpa using hb) (by simpa using hc),
    scanPair_valid _ _ 0 (by simpa using ha) (by simpa using hb)]
  simp

theorem millisDiff_add (t e : Nat) (ht : t < U32) (he : e < U32) :
    millisDiff ((t + e) % U32) t = e := by
  unfold millisDiff U32 at *
  omega

theorem pollGate_of_due {inp : CycleInput} {s : State} (h : PollDue inp s) :
    ∃ p, pollGate inp s =
      Sum.inl { s with liveFeedActive := false, lastRecognitionAttempt := inp.now,
                       lastStatusPrint := p } := by
  obtain ⟨h1, h2⟩ := h
  obtain ⟨log, lcu, cm, lat, lau, fh, fhi, fhc, du, dut, drp, slp, lfa, lfr, lra, lsp, lru, lc,
    la, tu, calls⟩ := s
  cases lfa <;> dsimp only [pollGate] at * <;> split_ifs <;>
    first | exact ⟨_, rfl⟩ | (exfalso; simp_all)

theorem pollGate_early {inp : CycleInput} {s : State} {r : State × Outcome}
    (h : pollGate inp s = Sum.inr r) :
    (r.2 = Outcome.liveFeed ∨ r.2 = Outcome.tooSoon) ∧
      (r.1 = s ∨ r.1 = { s with liveFeedActive := false }) := by
  obtain ⟨log, lcu, cm, lat, lau, fh, fhi, fhc, du, dut, drp, slp, lfa, lfr, lra, lsp, lru, lc,
    la, tu, calls⟩ := s
  cases lfa <;> dsimp only [pollGate] at h <;> split_ifs at h <;>
    simp only [Sum.inr.injEq, reduceCtorEq] at h <;> subst h <;> simp

theorem pollGate_inl_due {inp : CycleInput} {s s1 : State} (h : pollGate inp s = Sum.inl s1) :
    PollDue inp s := by
  obtain ⟨log, lcu, cm, lat, lau, fh, fhi, fhc, du, dut, drp, slp, lfa, lfr, lra, lsp, lru, lc,
    la, tu, calls⟩ := s
  cases lfa <;> dsimp only [pollGate, PollDue] at * <;> split_ifs at h <;> simp_all

theorem handleRecognition_early {inp : CycleInput} {s : State} {r : State × Outcome}
    (h : pollGate inp s = Sum.inr r) : handleRecognition inp s = r := by
  simp [handleRecognition, h]

theorem handleRecognition_of_due {inp : CycleInput} {s : State} (h : PollDue inp s) :
    ∃ p, handleRecognition inp s =
      if inp.captureOk = false then (s.polled inp.now p, Outcome.noFrame)
      else if inp.detectOk = false then (resetLivenessTracking (s.polled inp.now p), Outcome.noFace)
      else if s.totalUsers = 0 then
        (recordFace inp.currentPos (s.polled inp.now p), Outcome.noUsers)
      else recognizeFace inp inp.currentPos (recordFace inp.currentPos (s.polled inp.now p)) := by
  obtain ⟨p, hp⟩ := pollGate_of_due h
  refine ⟨p, ?_⟩
  simp only [handleRecognition, hp]
  cases inp.captureOk <;> cases inp.detectOk <;>
    simp [State.polled, recordFace, CycleInput.currentPos]

theorem not_due_outcome {inp : CycleInput} {s : State} (h : ¬ PollDue inp s) :
    ((handleRecognition inp s).2 = Outcome.liveFeed ∨
      (handleRecognition inp s).2 = Outcome.tooSoon) ∧
    ((handleRecognition inp s).1 = s ∨
      (handleRecognition inp s).1 = { s with liveFeedActive := false }) := by
  cases hg : pollGate inp s with
  | inl s1 => exact absurd (pollGate_inl_due hg) h
  | inr r => rw [handleRecognition_early hg]; exact pollGate_early hg

theorem resetLivenessTracking_faceHistory {s : State} {a b c d : FacePosition}
    (h : s.faceHistory = [a, b, c, d]) :
    (resetLivenessTracking s).faceHistory =
      [{ a with valid := false }, { b with valid := false }, { c with valid := false },
        { d with valid := false }] := by
  simp [resetLivenessTracking, h, LIVENESS_CHECK_COUNT, List.range, List.range.loop, List.modify]

theorem resetLivenessTracking_allInvalid {s : State}
    (h : s.faceHistory.length = LIVENESS_CHECK_COUNT) :
    AllInvalid (resetLivenessTracking s).faceHistory ∧
      (resetLivenessTracking s).faceHistory.length = LIVENESS_CHECK_COUNT := by
  obtain ⟨a, b, c, d, hh⟩ := length_eq_four h
  rw [resetLivenessTracking_faceHistory hh]
  simp [AllInvalid, LIVENESS_CHECK_COUNT]

theorem handleRecognition_accepted {inp : CycleInput} {s : State} (hdue : PollDue inp s)
    (hcap : inp.captureOk = true) (hdet : inp.detectOk = true) (husers : s.totalUsers ≠ 0)
    (hrec : inp.recognizeOk = true) (hname : UsableName inp.matchName)
    (hconf : RECOGNITION_THRESHOLD ≤ inp.similarity) :
    ∃ p, handleRecognition inp s = decideAccess inp (s.counted inp p) := by
  obtain ⟨p, hp⟩ := handleRecognition_of_due hdue
  refine ⟨p, ?_⟩
  rw [hp]
  simp only [hcap, hdet, husers, Bool.true_eq_false, if_false]
  unfold recognizeFace
  unfold UsableName at hname
  rw [if_pos hrec]
  simp only [hname, if_false, not_lt.mpr hconf]
  rfl

theorem counted_same {inp : CycleInput} {s : State} (p : Nat)
    (h : inp.matchName = s.lastConfirmedUser) :
    s.counted inp p =
      { recordFace inp.currentPos (s.polled inp.now p) with
        consecutiveMatches := s.consecutiveMatches + 1 } := by
  simp [State.counted, countMatch, recordFace, State.polled, h]

theorem counted_other {inp : CycleInput} {s : State} (p : Nat)
    (h : inp.matchName ≠ s.lastConfirmedUser) :
    (s.counted inp p).consecutiveMatches = 1 ∧
    (s.counted inp p).lastConfirmedUser = inp.matchName ∧
    (s.counted inp p).faceHistoryCount = 1 ∧
    (s.counted inp p).faceHistoryIndex = 1 ∧
    (s.counted inp p).faceHistory =
      (resetLivenessTracking (recordFace inp.currentPos s)).faceHistory.set 0 inp.currentPos ∧
    (s.counted inp p).calls = s.calls ∧ (s.counted inp p).log = s.log := by
  simp [State.counted, countMatch, recordFace, State.polled, h, resetLivenessTracking]

theorem counted_same_fields {inp : CycleInput} {s : State} (p : Nat)
    (h : inp.matchName = s.lastConfirmedUser) :
    (s.counted inp p).calls = s.calls ∧ (s.counted inp p).log = s.log ∧
    (s.counted inp p).lastConfirmedUser = s.lastConfirmedUser ∧
    (s.counted inp p).consecutiveMatches = s.consecutiveMatches + 1 ∧
    (s.counted inp p).faceHistory = (recordFace inp.currentPos s).faceHistory ∧
    (s.counted inp p).faceHistoryIndex = (recordFace inp.currentPos s).faceHistoryIndex ∧
    (s.counted inp p).faceHistoryCount = (recordFace inp.currentPos s).faceHistoryCount ∧
    (s.counted inp p).lastAccessUser = s.lastAccessUser ∧
    (s.counted inp p).lastAccessTime = s.lastAccessTime ∧
    (s.counted inp p).isDoorUnlocked = s.isDoorUnlocked ∧
    (s.counted inp p).doorUnlockTime = s.doorUnlockTime ∧
    (s.counted inp p).doorRelayPin = s.doorRelayPin ∧
    (s.counted inp p).totalUsers = s.totalUsers := by
  rw [counted_same p h]
  simp [recordFace, State.polled]

theorem decideAccess_awaiting {inp : CycleInput} {s : State}
    (h : s.consecutiveMatches < RECOGNITION_CONFIRM_COUNT) :
    decideAccess inp s = (s, Outcome.awaitingConfirmation) := by
  unfold decideAccess; rw [if_pos h]

theorem decideAccess_livenessFailed {inp : CycleInput} {s : State}
    (h : ¬ s.consecutiveMatches < RECOGNITION_CONFIRM_COUNT) (hl : checkLiveness s = false) :
    decideAccess inp s =
      (s.logActivity inp.sd inp.logTime inp.matchName "DENIED_LIVENESS_FAIL" false
        inp.similarity, Outcome.livenessFailed) := by
  unfold decideAccess; rw [if_neg h, if_pos (by simp [hl])]

theorem decideAccess_cooldown {inp : CycleInput} {s : State}
    (h : ¬ s.consecutiveMatches < RECOGNITION_CONFIRM_COUNT) (hl : checkLiveness s = true)
    (hc : CooldownActive inp s) :
    decideAccess inp s = (s, Outcome.cooldown) := by
  unfold CooldownActive at hc
  unfold decideAccess; rw [if_neg h, if_neg (by simp [hl]), if_pos hc]

theorem decideAccess_granted {inp : CycleInput} {s : State}
    (h : ¬ s.consecutiveMatches < RECOGNITION_CONFIRM_COUNT) (hl : checkLiveness s = true)
    (hc : ¬ CooldownActive inp s) :
    decideAccess inp s = (s.granted inp, Outcome.accessGranted) := by
  unfold CooldownActive at hc
  unfold decideAccess; rw [if_neg h, if_neg (by simp [hl]), if_neg hc]; rfl

/-- The four ways through `decideAccess`. -/
theorem decideAccess_cases (inp : CycleInput) (s : State) :
    (s.consecutiveMatches < RECOGNITION_CONFIRM_COUNT ∧
      decideAccess inp s = (s, Outcome.awaitingConfirmation)) ∨
    (¬ s.consecutiveMatches < RECOGNITION_CONFIRM_COUNT ∧ checkLiveness s = false ∧
      decideAccess inp s =
        (s.logActivity inp.sd inp.logTime inp.matchName "DENIED_LIVENESS_FAIL" false
          inp.similarity, Outcome.livenessFailed)) ∨
    (¬ s.consecutiveMatches < RECOGNITION_CONFIRM_COUNT ∧ checkLiveness s = true ∧
      CooldownActive inp s ∧ decideAccess inp s = (s, Outcome.cooldown)) ∨
    (¬ s.consecutiveMatches < RECOGNITION_CONFIRM_COUNT ∧ checkLiveness s = true ∧
      ¬ CooldownActive inp s ∧ decideAccess inp s = (s.granted inp, Outcome.accessGranted)) := by
  by_cases h : s.consecutiveMatches < RECOGNITION_CONFIRM_COUNT
  · exact Or.inl ⟨h, decideAccess_awaiting h⟩
  · cases hl : checkLiveness s
    · exact Or.inr (Or.inl ⟨h, rfl, decideAccess_livenessFailed h hl⟩)
    · by_cases hc : CooldownActive inp s
      · exact Or.inr (Or.inr (Or.inl ⟨h, rfl, hc, decideAccess_cooldown h hl hc⟩))
      · exact Or.inr (Or.inr (Or.inr ⟨h, rfl, hc, decideAccess_granted h hl hc⟩))

/-- A cycle that leaves by one of the returns behind the counting of the match was
a polling cycle with a frame, a face, an enrolled user and an accepted identity. -/
theorem accepted_of_outcome {inp : CycleInput} {s : State}
    (h : (handleRecognition inp s).2.countsMatch = true) :
    PollDue inp s ∧ inp.captureOk = true ∧ inp.detectOk = true ∧ s.totalUsers ≠ 0 ∧
    inp.recognizeOk = true ∧ UsableName inp.matchName ∧
    RECOGNITION_THRESHOLD ≤ inp.similarity := by
  by_cases hdue : PollDue inp s
  · obtain ⟨p, hp⟩ := handleRecognition_of_due hdue
    rw [hp] at h
    cases hcap : inp.captureOk
    · simp [hcap, Outcome.countsMatch] at h
    cases hdet : inp.detectOk
    · simp [hcap, hdet, Outcome.countsMatch] at h
    by_cases husers : s.totalUsers = 0
    · simp [hcap, hdet, husers, Outcome.countsMatch] at h
    simp only [hcap, hdet, husers, Bool.true_eq_false, if_false] at h
    unfold recognizeFace at h
    cases hrec : inp.recognizeOk
    · simp [hrec, Outcome.countsMatch] at h
    by_cases hname : UsableName inp.matchName
    · by_cases hconf : inp.similarity < RECOGNITION_THRESHOLD
      · unfold UsableName at hname
        simp [hrec, hname, hconf, Outcome.countsMatch] at h
      · exact ⟨hdue, rfl, rfl, husers, rfl, hname, not_lt.mp hconf⟩
    · unfold UsableName at hname
      rw [not_not] at hname
      simp [hrec, hname, Outcome.countsMatch] at h
  · rcases (not_due_outcome hdue).1 with e | e <;> simp [e, Outcome.countsMatch] at h

/-- A cycle whose counted match reaches `RECOGNITION_CONFIRM_COUNT` was made on the
candidate identity. -/
theorem confirmed_same_identity {inp : CycleInput} {s : State} (p : Nat)
    (h : ¬ (s.counted inp p).consecutiveMatches < RECOGNITION_CONFIRM_COUNT) :
    inp.matchName = s.lastConfirmedUser := by
  by_contra hne
  exact h (by rw [(counted_other p hne).1]; decide)

/-- What a cycle that ends in the grant has gone through. -/
theorem granted_inv {inp : CycleInput} {s : State}
    (h : (handleRecognition inp s).2 = Outcome.accessGranted) :
    ∃ p, handleRecognition inp s = ((s.counted inp p).granted inp, Outcome.accessGranted) ∧
      inp.matchName = s.lastConfirmedUser ∧
      ¬ (s.counted inp p).consecutiveMatches < RECOGNITION_CONFIRM_COUNT ∧
      checkLiveness (s.counted inp p) = true ∧ ¬ CooldownActive inp (s.counted inp p) := by
  obtain ⟨hdue, hcap, hdet, husers, hrec, hname, hconf⟩ :=
    accepted_of_outcome (by rw [h]; rfl)
  obtain ⟨p, hp⟩ := handleRecognition_accepted hdue hcap hdet husers hrec hname hconf
  rw [hp] at h
  rcases decideAccess_cases inp (s.counted inp p) with ⟨_, e⟩ | ⟨_, _, e⟩ | ⟨_, _, _, e⟩ |
    ⟨h1, h2, h3, e⟩
  · rw [e] at h; cases h
  · rw [e] at h; cases h
  · rw [e] at h; cases h
  · exact ⟨p, by rw [hp, e], confirmed_same_identity p h1, h1, h2, h3⟩

/-- What a cycle that ends in the liveness denial has gone through. -/
theorem livenessFailed_inv {inp : CycleInput} {s : State}
    (h : (handleRecognition inp s).2 = Outcome.livenessFailed) :
    ∃ p, handleRecognition inp s =
        ((s.counted inp p).logActivity inp.sd inp.logTime inp.matchName "DENIED_LIVENESS_FAIL"
          false inp.similarity, Outcome.livenessFailed) ∧
      inp.matchName = s.lastConfirmedUser ∧
      ¬ (s.counted inp p).consecutiveMatches < RECOGNITION_CONFIRM_COUNT ∧
      checkLiveness (s.counted inp p) = false := by
  obtain ⟨hdue, hcap, hdet, husers, hrec, hname, hconf⟩ :=
    accepted_of_outcome (by rw [h]; rfl)
  obtain ⟨p, hp⟩ := handleRecognition_accepted hdue hcap hdet husers hrec hname hconf
  rw [hp] at h
  rcases decideAccess_cases inp (s.counted inp p) with ⟨_, e⟩ | ⟨h1, h2, e⟩ | ⟨_, _, _, e⟩ |
    ⟨_, _, _, e⟩
  · rw [e] at h; cases h
  · exact ⟨p, by rw [hp, e], confirmed_same_identity p h1, h1, h2⟩
  · rw [e] at h; cases h
  · rw [e] at h; cases h

/-- What a cycle that gets behind the liveness check has gone through. -/
theorem live_inv {inp : CycleInput} {s : State}
    (h : (handleRecognition inp s).2 = Outcome.cooldown ∨
      (handleRecognition inp s).2 = Outcome.accessGranted) :
    ∃ p, handleRecognition inp s = decideAccess inp (s.counted inp p) ∧
      inp.matchName = s.lastConfirmedUser ∧
      ¬ (s.counted inp p).consecutiveMatches < RECOGNITION_CONFIRM_COUNT ∧
      checkLiveness (s.counted inp p) = true := by
  obtain ⟨hdue, hcap, hdet, husers, hrec, hname, hconf⟩ :=
    @accepted_of_outcome inp s (by rcases h with h | h <;> rw [h] <;> rfl)
  obtain ⟨p, hp⟩ := handleRecognition_accepted hdue hcap hdet husers hrec hname hconf
  rw [hp] at h
  rcases decideAccess_cases inp (s.counted inp p) with ⟨_, e⟩ | ⟨_, _, e⟩ | ⟨h1, h2, _, e⟩ |
    ⟨h1, h2, _, e⟩
  · rw [e] at h; rcases h with h | h <;> cases h
  · rw [e] at h; rcases h with h | h <;> cases h
  · exact ⟨p, hp, confirmed_same_identity p h1, h1, h2⟩
  · exact ⟨p, hp, confirmed_same_identity p h1, h1, h2⟩

/-- A cycle that reports a recognised identity at or above the threshold, started
with a count that cannot reach `RECOGNITION_CONFIRM_COUNT` in one step, makes no
call and raises the count by one at most. -/
theorem quiet_cycle (inp : CycleInput) (s : State) (hrec : inp.recognizeOk = true)
    (hconf : RECOGNITION_THRESHOLD ≤ inp.similarity)
    (hc : s.consecutiveMatches + 1 < RECOGNITION_CONFIRM_COUNT) :
    (handleRecognition inp s).1.consecutiveMatches ≤ s.consecutiveMatches + 1 ∧
    (handleRecognition inp s).1.calls = s.calls ∧
    (handleRecognition inp s).1.log = s.log ∧
    (handleRecognition inp s).1.isDoorUnlocked = s.isDoorUnlocked ∧
    (handleRecognition inp s).1.doorUnlockTime = s.doorUnlockTime ∧
    (handleRecognition inp s).1.doorRelayPin = s.doorRelayPin := by
  by_cases hdue : PollDue inp s
  · obtain ⟨p, hp⟩ := handleRecognition_of_due hdue
    cases hcap : inp.captureOk
    · rw [hp]; simp [hcap, State.polled]
    cases hdet : inp.detectOk
    · rw [hp]; simp [hcap, hdet, State.polled, resetLivenessTracking]
    by_cases husers : s.totalUsers = 0
    · rw [hp]; simp [hcap, hdet, husers, State.polled, recordFace]
    by_cases hname : UsableName inp.matchName
    · obtain ⟨q, hq⟩ := handleRecognition_accepted hdue hcap hdet husers hrec hname hconf
      have hle : (s.counted inp q).consecutiveMatches ≤ s.consecutiveMatches + 1 ∧
          (s.counted inp q).calls = s.calls ∧ (s.counted inp q).log = s.log ∧
          (s.counted inp q).isDoorUnlocked = s.isDoorUnlocked ∧
          (s.counted inp q).doorUnlockTime = s.doorUnlockTime ∧
          (s.counted inp q).doorRelayPin = s.doorRelayPin := by
        by_cases hsame : inp.matchName = s.lastConfirmedUser
        · obtain ⟨h1, h2, -, h4, -, -, -, -, -, h10, h11, h12, -⟩ := counted_same_fields q hsame
          exact ⟨le_of_eq h4, h1, h2, h10, h11, h12⟩
        · obtain ⟨h1, -, -, -, -, h6, h7⟩ := counted_other q hsame
          refine ⟨by rw [h1]; omega, h6, h7, ?_, ?_, ?_⟩ <;>
            simp [State.counted, countMatch, hsame, recordFace, State.polled,
              resetLivenessTracking]
      rw [hq, decideAccess_awaiting (lt_of_le_of_lt hle.1 hc)]
      exact hle
    · rw [hp]
      unfold UsableName at hname
      rw [not_not] at hname
      simp only [hcap, hdet, husers, Bool.true_eq_false, if_false]
      unfold recognizeFace
      rw [if_pos hrec]
      simp only [hname, if_true]
      simp [resetGate, resetLivenessTracking, recordFace, State.polled]
  · rcases (not_due_outcome hdue).2 with e | e <;> rw [e] <;> simp

/-! ### Lemmas on the log store, the log file and the window -/

/-- The counts of the first loop on a window of four valid slots. -/
theorem scanPairs_four_counts (a b c d : FacePosition) (ha : a.valid = true)
    (hb : b.valid = true) (hc : c.valid = true) (hd : d.valid = true) :
    (scanPairs [a, b, c, d]).microMovementCount =
      (if ¬ (posChange a b = 0 ∧ sizeChange a b = 0) ∧ posChange a b ≤ LIVENESS_MAX_MICRO_MOVEMENT
        then 1 else 0)
      + (if ¬ (posChange b c = 0 ∧ sizeChange b c = 0) ∧ posChange b c ≤ LIVENESS_MAX_MICRO_MOVEMENT
        then 1 else 0)
      + (if ¬ (posChange c d = 0 ∧ sizeChange c d = 0) ∧ posChange c d ≤ LIVENESS_MAX_MICRO_MOVEMENT
        then 1 else 0) ∧
    (scanPairs [a, b, c, d]).largeMovementCount =
      (if ¬ (posChange a b = 0 ∧ sizeChange a b = 0) ∧ ¬ posChange a b ≤ LIVENESS_MAX_MICRO_MOVEMENT
          ∧ posChange a b > LIVENESS_PHOTO_THRESHOLD then 1 else 0)
      + (if ¬ (posChange b c = 0 ∧ sizeChange b c = 0) ∧ ¬ posChange b c ≤ LIVENESS_MAX_MICRO_MOVEMENT
          ∧ posChange b c > LIVENESS_PHOTO_THRESHOLD then 1 else 0)
      + (if ¬ (posChange c d = 0 ∧ sizeChange c d = 0) ∧ ¬ posChange c d ≤ LIVENESS_MAX_MICRO_MOVEMENT
          ∧ posChange c d > LIVENESS_PHOTO_THRESHOLD then 1 else 0) := by
  have e : scanPairs [a, b, c, d] =
      scanPair [a, b, c, d] (scanPair [a, b, c, d] (scanPair [a, b, c, d] ⟨[], [], 0, 0, 0⟩ 0) 1) 2 :=
    rfl
  rw [e, scanPair_valid _ _ 2 (by simpa using hc) (by simpa using hd),
    scanPair_valid _ _ 1 (by simpa using hb) (by simpa using hc),
    scanPair_valid _ _ 0 (by simpa using ha) (by simpa using hb)]
  simp

theorem trimSDLogFile_ram (io : SdIo) (s : LogStore) :
    (trimSDLogFile io s).ramLogBuffer = s.ramLogBuffer ∧
    (trimSDLogFile io s).ramLogIndex = s.ramLogIndex ∧
    (trimSDLogFile io s).ramLogCount = s.ramLogCount ∧
    (trimSDLogFile io s).sdCardReady = s.sdCardReady := by
  obtain ⟨buf, idx, cnt, ready, file⟩ := s
  cases file with
  | none => unfold trimSDLogFile; split_ifs <;> exact ⟨rfl, rfl, rfl, rfl⟩
  | some text =>
    unfold trimSDLogFile
    dsimp only
    split_ifs <;> exact ⟨rfl, rfl, rfl, rfl⟩

theorem logActivity_sdCardReady (io : SdIo) (ts : Nat) (u a : String) (ok : Bool) (c : Rat)
    (s : LogStore) : (logActivity io ts u a ok c s).sdCardReady = s.sdCardReady := by
  unfold logActivity
  split_ifs
  · rw [(trimSDLogFile_ram io _).2.2.2]
  · rfl
  · rfl

theorem recordAll_snoc (xs : List FacePosition) (x : FacePosition) (s : State) :
    recordAll (xs ++ [x]) s = recordFace x (recordAll xs s) := by
  simp [recordAll, List.foldl_append]

/-- After `n` recordings from a reset window: the cursor is `n mod 4`, the count is
`min n 4`, and each of the last four samples sits in the slot of its number
modulo 4. -/
theorem recordAll_invariant (xs : List FacePosition) (s : State)
    (hlen : s.faceHistory.length = LIVENESS_CHECK_COUNT) (hidx : s.faceHistoryIndex = 0)
    (hcnt : s.faceHistoryCount = 0) :
    (recordAll xs s).faceHistory.length = LIVENESS_CHECK_COUNT ∧
    (recordAll xs s).faceHistoryIndex = xs.length % LIVENESS_CHECK_COUNT ∧
    (recordAll xs s).faceHistoryCount = min xs.length LIVENESS_CHECK_COUNT ∧
    ∀ j, j < xs.length → xs.length < j + 5 →
      (recordAll xs s).faceHistory[j % LIVENESS_CHECK_COUNT]? = xs[j]? := by
  induction xs using List.reverseRecOn with
  | nil =>
    refine ⟨hlen, by simp [recordAll, hidx], by simp [recordAll, hcnt], ?_⟩
    intro j hj; simp at hj
  | append_singleton xs x ih =>
    obtain ⟨h1, h2, h3, h4⟩ := ih
    rw [recordAll_snoc]
    unfold LIVENESS_CHECK_COUNT at *
    refine ⟨by simp [recordFace, h1], ?_, ?_, ?_⟩
    · simp only [recordFace, h2, List.length_append, List.length_singleton, LIVENESS_CHECK_COUNT]
      omega
    · simp only [recordFace, h3, List.length_append, List.length_singleton, LIVENESS_CHECK_COUNT]
      split_ifs <;> omega
    · intro j hj hj5
      simp only [List.length_append, List.length_singleton] at hj hj5
      show ((recordAll xs s).faceHistory.set (recordAll xs s).faceHistoryIndex x)[j % 4]? = _
      rw [h2]
      by_cases hjn : j = xs.length
      · subst hjn
        rw [List.getElem?_set_self (by rw [h1]; omega), List.getElem?_concat_length]
      · have hlt : j < xs.length := by omega
        rw [List.getElem?_set_ne (by omega), h4 j hlt (by omega),
          List.getElem?_append_left hlt]

theorem windowSamples_recordAll (xs : List FacePosition) (s : State)
    (hlen : s.faceHistory.length = LIVENESS_CHECK_COUNT) (hidx : s.faceHistoryIndex = 0)
    (hcnt : s.faceHistoryCount = 0) :
    windowSamples (recordAll xs s) = xs.drop (xs.length - LIVENESS_CHECK_COUNT) := by
  obtain ⟨h1, h2, h3, h4⟩ := recordAll_invariant xs s hlen hidx hcnt
  unfold LIVENESS_CHECK_COUNT at *
  apply List.ext_getElem?
  intro k
  unfold windowSamples
  rw [h2, h3, List.getElem?_map, List.getElem?_drop]
  simp only [LIVENESS_CHECK_COUNT]
  by_cases hk : k < min xs.length 4
  · rw [List.getElem?_range hk]
    simp only [Option.map_some', List.getD_eq_getElem?_getD]
    have e : (xs.length % 4 + 4 - min xs.length 4 + k) % 4 = (xs.length - 4 + k) % 4 := by
      omega
    rw [e, h4 (xs.length - 4 + k) (by omega) (by omega)]
    rw [List.getElem?_eq_getElem (by omega)]
    rfl
  · rw [List.getElem?_eq_none (by rw [List.length_range]; omega),
      List.getElem?_eq_none (by omega)]
    rfl

/-- One more recording on a full window, slot by slot. -/
theorem recordFace_full (x : FacePosition) (t : State)
    (hlen : t.faceHistory.length = LIVENESS_CHECK_COUNT)
    (hfull : t.faceHistoryCount = LIVENESS_CHECK_COUNT)
    (hcur : t.faceHistoryIndex < LIVENESS_CHECK_COUNT) :
    (windowSamples t).head? = t.faceHistory[t.faceHistoryIndex]? ∧
    (recordFace x t).faceHistory[t.faceHistoryIndex]? = some x ∧
    (∀ i, i ≠ t.faceHistoryIndex → (recordFace x t).faceHistory[i]? = t.faceHistory[i]?) ∧
    (recordFace x t).faceHistoryCount = LIVENESS_CHECK_COUNT ∧
    windowSamples (recordFace x t) = (windowSamples t).tail ++ [x] := by
  obtain ⟨a, b, c, d, hh⟩ := length_eq_four hlen
  unfold LIVENESS_CHECK_COUNT at *
  refine ⟨?_, ?_, ?_, ?_, ?_⟩
  · have h : t.faceHistoryIndex = 0 ∨ t.faceHistoryIndex = 1 ∨ t.faceHistoryIndex = 2 ∨
        t.faceHistoryIndex = 3 := by omega
    rcases h with h | h | h | h <;>
      simp [windowSamples, hh, hfull, h, LIVENESS_CHECK_COUNT, List.range, List.range.loop]
  · show (t.faceHistory.set t.faceHistoryIndex x)[t.faceHistoryIndex]? = some x
    rw [List.getElem?_set_self (by rw [hlen]; exact hcur)]
  · intro i hi
    show (t.faceHistory.set t.faceHistoryIndex x)[i]? = _
    rw [List.getElem?_set_ne (Ne.symm hi)]
  · simp [recordFace, hfull, LIVENESS_CHECK_COUNT]
  · have h : t.faceHistoryIndex = 0 ∨ t.faceHistoryIndex = 1 ∨ t.faceHistoryIndex = 2 ∨
        t.faceHistoryIndex = 3 := by omega
    rcases h with h | h | h | h <;>
      simp [windowSamples, recordFace, hh, hfull, h, LIVENESS_CHECK_COUNT, List.range,
        List.range.loop]

theorem logAll_snoc (io : SdIo) (rs : List ActivityLog) (r : ActivityLog) (s : LogStore) :
    logAll io (rs ++ [r]) s =
      logActivity io r.timestamp r.username r.action r.success r.confidence (logAll io rs s) := by
  simp [logAll, List.foldl_append]

theorem logAll_sdCardReady (io : SdIo) (rs : List ActivityLog) (s : LogStore) :
    (logAll io rs s).sdCardReady = s.sdCardReady := by
  induction rs using List.reverseRecOn with
  | nil => rfl
  | append_singleton rs r ih => rw [logAll_snoc, logActivity_sdCardReady, ih]

/-- A call that falls back to memory is `storeInRam`. -/
theorem logActivity_fallback (io : SdIo) (ts : Nat) (u a : String) (ok : Bool) (c : Rat)
    (s : LogStore) (h : s.sdCardReady = false ∨ io.appendOpens = false) :
    logActivity io ts u a ok c s = storeInRam ts u a ok c s := by
  unfold logActivity
  rcases h with h | h
  · rw [if_neg (by simp [h])]
  · split_ifs <;> simp_all

/-- The slot read in iteration `i`, in natural numbers. -/
theorem ramSlot_eq (idx i : Nat) (hi : i < 5) :
    ramSlot idx i = (idx + 4 - i) % 5 := by
  unfold ramSlot MAX_RAM_LOGS
  have hnn : (0 : Int) ≤ (idx : Int) - 1 - i + (5 : Nat) := by omega
  rw [Int.tmod_eq_emod hnn (by decide)]
  dsimp only
  have hm : (0 : Int) ≤ ((idx : Int) - 1 - i + (5 : Nat)) % (5 : Nat) :=
    Int.emod_nonneg _ (by decide)
  rw [if_neg (not_lt.mpr hm)]
  omega

theorem splitLines_append_lf (l rest : List Char) (h : '\n' ∉ l) :
    splitLines (l ++ '\n' :: rest) = l :: splitLines rest := by
  induction l with
  | nil => simp [splitLines]
  | cons c l ih =>
    have hc : c ≠ '\n' := fun e => h (by simp [e])
    have hl : '\n' ∉ l := fun e => h (by simp [e])
    show splitLines (c :: (l ++ '\n' :: rest)) = _
    rw [splitLines, if_neg hc, ih hl]

theorem splitLines_lines (stored : List (List Char)) (h : ∀ l ∈ stored, '\n' ∉ l) :
    splitLines (stored.map (fun l => l ++ ['\n'])).flatten = stored ++ [[]] := by
  induction stored with
  | nil => simp [splitLines]
  | cons l ls ih =>
    have hl : '\n' ∉ l := h l (by simp)
    have hls : ∀ x ∈ ls, '\n' ∉ x := fun x hx => h x (by simp [hx])
    simp only [List.map_cons, List.flatten_cons, List.append_assoc, List.singleton_append,
      List.cons_append]
    rw [splitLines_append_lf l _ hl, List.nil_append, ih hls]

theorem splitLines_fileText (hdr : List Char) (stored : List (List Char)) (hh : '\n' ∉ hdr)
    (h : ∀ l ∈ stored, '\n' ∉ l) :
    splitLines (fileText hdr stored) = hdr :: (stored ++ [[]]) := by
  unfold fileText
  rw [splitLines_append_lf hdr _ hh, splitLines_lines stored h]

theorem dropWhile_head (l : List Char) (c : Char) (h : l.head? = some c)
    (hc : isSpace c = false) : l.dropWhile isSpace = l := by
  cases l with
  | nil => simp at h
  | cons a t =>
    simp only [List.head?_cons, Option.some.injEq] at h
    subst h
    rw [List.dropWhile_cons_of_neg (by simp [hc])]

theorem trim_clean (l : List Char) (h : CleanLine l) : trim l = l := by
  obtain ⟨-, ⟨c, hc, hcs⟩, ⟨z, hz, hzs⟩⟩ := h
  unfold trim
  rw [dropWhile_head l c hc hcs, dropWhile_head l.reverse z (by rw [List.head?_reverse, hz]) hzs,
    List.reverse_reverse]

theorem trim_clean_cr (l : List Char) (h : CleanLine l) : trim (l ++ ['\r']) = l := by
  obtain ⟨-, ⟨c, hc, hcs⟩, ⟨z, hz, hzs⟩⟩ := h
  unfold trim
  rw [dropWhile_head (l ++ ['\r']) c (by rw [List.head?_append, hc]; rfl) hcs,
    List.reverse_concat, List.dropWhile_cons_of_pos (by decide),
    dropWhile_head l.reverse z (by rw [List.head?_reverse, hz]) hzs, List.reverse_reverse]

theorem cleanLine_ne_nil (l : List Char) (h : CleanLine l) : l ≠ [] := by
  obtain ⟨-, ⟨c, hc, -⟩, -⟩ := h
  intro e
  rw [e] at hc
  simp at hc

theorem trim_nil : trim [] = [] := rfl

theorem readEntries_stored (stored ents : List (List Char)) (h : stored.map trim = ents)
    (hc : ∀ e ∈ ents, CleanLine e) : readEntries (stored ++ [[]]) = ents := by
  unfold readEntries
  rw [List.map_append, h, List.filter_append]
  have h1 : List.filter (fun l => decide (l.length > 0)) ents = ents := by
    rw [List.filter_eq_self]
    intro e he
    have := cleanLine_ne_nil e (hc e he)
    simpa [List.length_pos] using this
  rw [h1]
  simp [trim_nil]

theorem fileRep_header (text hdr : List Char) (ents : List (List Char))
    (h : FileRep text hdr ents) : sdHeader text = hdr ∧ sdEntries text = ents := by
  obtain ⟨hh, hc, stored, ht, hs, hm⟩ := h
  unfold sdHeader sdEntries
  rw [ht, splitLines_fileText hdr stored hh hs]
  exact ⟨rfl, readEntries_stored stored ents hm hc⟩

theorem ite_char (P : Char → Prop) (c : Prop) [Decidable c] (a b : Char) (ha : P a)
    (hb : P b) : P (if c then a else b) := by
  split <;> assumption

theorem digitChar_plain (k : Nat) : PlainChar (Nat.digitChar k) := by
  unfold Nat.digitChar
  repeat (refine ite_char PlainChar _ _ _ (by decide) ?_)
  decide

theorem toDigitsCore_plain (fuel : Nat) : ∀ (n : Nat) (ds : List Char),
    (∀ c ∈ ds, PlainChar c) →
    ∀ c ∈ Nat.toDigitsCore 10 fuel n ds, PlainChar c := by
  induction fuel with
  | zero => intro n ds h c hc; exact h c (by simpa [Nat.toDigitsCore] using hc)
  | succ fuel ih =>
    intro n ds h c hc
    have hd : ∀ x ∈ Nat.digitChar (n % 10) :: ds, PlainChar x := by
      intro x hx
      rcases List.mem_cons.mp hx with e | e
      · rw [e]; exact digitChar_plain _
      · exact h x e
    unfold Nat.toDigitsCore at hc
    dsimp only at hc
    split_ifs at hc
    · exact hd c hc
    · exact ih _ _ hd c hc

theorem toDigitsCore_ne_nil (fuel : Nat) : ∀ (n : Nat) (ds : List Char),
    (ds ≠ [] ∨ 0 < fuel) → Nat.toDigitsCore 10 fuel n ds ≠ [] := by
  induction fuel with
  | zero =>
    intro n ds h
    rcases h with h | h
    · simpa [Nat.toDigitsCore] using h
    · exact absurd h (lt_irrefl _)
  | succ fuel ih =>
    intro n ds _
    unfold Nat.toDigitsCore
    dsimp only
    split_ifs
    · simp
    · exact ih _ _ (Or.inl (by simp))

/-- The decimal digits of a number: not empty, and free of line feeds, white
space and commas. -/
theorem decimal_plain (n : Nat) :
    (toString n).data ≠ [] ∧
    ∀ c ∈ (toString n).data, PlainChar c := by
  have e : (toString n).data = Nat.toDigitsCore 10 (n + 1) n [] := rfl
  rw [e]
  exact ⟨toDigitsCore_ne_nil _ _ _ (Or.inr (Nat.succ_pos n)),
    toDigitsCore_plain _ _ _ (by simp)⟩

theorem head?_plain (l : List Char) (hne : l ≠ [])
    (h : ∀ c ∈ l, PlainChar c) :
    ∃ c, l.head? = some c ∧ isSpace c = false := by
  cases l with
  | nil => exact absurd rfl hne
  | cons a t => exact ⟨a, rfl, (h a (by simp)).2.1⟩

theorem getLast?_plain (l : List Char) (hne : l ≠ [])
    (h : ∀ c ∈ l, PlainChar c) :
    ∃ z, l.getLast? = some z ∧ isSpace z = false := by
  obtain ⟨c, hc, hs⟩ := head?_plain l.reverse (by simpa using hne)
    (fun c hc => h c (by simpa using hc))
  exact ⟨c, by rw [← List.head?_reverse]; exact hc, hs⟩

theorem twoDigits_plain (n : Nat) :
    twoDigits n ≠ [] ∧ ∀ c ∈ twoDigits n, PlainChar c := by
  obtain ⟨h1, h2⟩ := decimal_plain n
  unfold twoDigits
  split_ifs
  · refine ⟨by simp, ?_⟩
    intro c hc
    rcases List.mem_cons.mp hc with e | e
    · rw [e]; decide
    · exact h2 c e
  · exact ⟨h1, h2⟩

/-- The text of `%.2f`: free of line feeds, white space and commas, and ending in
a digit of its two decimals. -/
theorem formatFixed2_plain (q : Rat) :
    (∀ c ∈ formatFixed2 q, PlainChar c) ∧
    ∃ z, (formatFixed2 q).getLast? = some z ∧ isSpace z = false := by
  obtain ⟨t1, t2⟩ := twoDigits_plain (roundHalfEven (|q| * 100) % 100)
  obtain ⟨-, d2⟩ := decimal_plain (roundHalfEven (|q| * 100) / 100)
  have hall : ∀ c ∈ formatFixed2 q, PlainChar c := by
    intro c hc
    unfold formatFixed2 at hc
    simp only [List.mem_append, List.mem_singleton] at hc
    rcases hc with ((hc | hc) | hc) | hc
    · split_ifs at hc
      · rw [List.mem_singleton.mp hc]; decide
      · simp at hc
    · exact d2 c hc
    · rw [hc]; decide
    · exact t2 c hc
  refine ⟨hall, ?_⟩
  obtain ⟨z, hz, hzs⟩ := getLast?_plain _ t1 t2
  refine ⟨z, ?_, hzs⟩
  unfold formatFixed2
  rw [List.getLast?_append, hz]
  rfl

theorem csvLine_eq (r : ActivityLog) :
    csvLine r.timestamp r.username r.action r.success r.confidence = r.csv ++ ['\n'] := by
  unfold ActivityLog.csv csvLine
  rw [List.dropLast_concat]

/-- The CSV line of a record whose name and action hold no line feed is a clean
line. -/
theorem csv_clean (r : ActivityLog) (h : r.OneLine) : CleanLine r.csv := by
  obtain ⟨hu, ha⟩ := h
  obtain ⟨n1, n2⟩ := decimal_plain r.timestamp
  obtain ⟨f1, z, hz, hzs⟩ := formatFixed2_plain r.confidence
  have e : r.csv = (toString r.timestamp).data ++ [','] ++ r.username.data ++ [',']
      ++ r.action.data ++ [','] ++ (if r.success then ['1'] else ['0']) ++ [',']
      ++ formatFixed2 r.confidence := by
    unfold ActivityLog.csv csvLine
    rw [List.dropLast_concat]
  refine ⟨?_, ?_, ?_⟩
  · rw [e]
    simp only [List.mem_append, List.mem_singleton, not_or]
    refine ⟨⟨⟨⟨⟨⟨⟨⟨fun hc => (n2 _ hc).1 rfl, by decide⟩, hu⟩, by decide⟩, ha⟩, by decide⟩, ?_⟩,
      by decide⟩, fun hc => (f1 _ hc).1 rfl⟩
    cases r.success <;> decide
  · obtain ⟨c, hc, hcs⟩ := head?_plain _ n1 n2
    refine ⟨c, ?_, hcs⟩
    rw [e]
    simp only [List.append_assoc, List.head?_append, hc]
    rfl
  · refine ⟨z, ?_, hzs⟩
    rw [e, List.getLast?_append, hz]
    rfl

theorem fileText_append (hdr : List Char) (stored : List (List Char)) (l : List Char) :
    fileText hdr stored ++ (l ++ ['\n']) = fileText hdr (stored ++ [l]) := by
  simp [fileText, List.flatten_append]

theorem fileRep_append (text hdr : List Char) (ents : List (List Char)) (l : List Char)
    (h : FileRep text hdr ents) (hl : CleanLine l) :
    FileRep (text ++ (l ++ ['\n'])) hdr (ents ++ [l]) := by
  obtain ⟨hh, hc, stored, ht, hs, hm⟩ := h
  refine ⟨hh, ?_, stored ++ [l], ?_, ?_, ?_⟩
  · intro e he
    rcases List.mem_append.mp he with h1 | h1
    · exact hc e h1
    · rw [List.mem_singleton.mp h1]; exact hl
  · rw [ht, fileText_append]
  · intro x hx
    rcases List.mem_append.mp hx with h1 | h1
    · exact hs x h1
    · rw [List.mem_singleton.mp h1]; exact hl.1
  · rw [List.map_append, hm, List.map_singleton, trim_clean l hl]

theorem fileRep_rewrite (hdr : List Char) (ents : List (List Char)) (hh : '\n' ∉ hdr)
    (hc : ∀ e ∈ ents, CleanLine e) :
    println hdr ++ (ents.map println).flatten =
      fileText (hdr ++ ['\r']) (ents.map (fun l => l ++ ['\r'])) ∧
    FileRep (fileText (hdr ++ ['\r']) (ents.map (fun l => l ++ ['\r']))) (hdr ++ ['\r']) ents := by
  constructor
  · unfold fileText println
    simp only [List.map_map, List.append_assoc, List.singleton_append, List.cons_append,
      List.nil_append]
    congr 4
    apply List.map_congr_left
    intro l _
    simp
  · refine ⟨?_, hc, ents.map (fun l => l ++ ['\r']), rfl, ?_, ?_⟩
    · intro h
      rcases List.mem_append.mp h with h1 | h1
      · exact hh h1
      · simp at h1
    · intro x hx
      obtain ⟨l, hl, rfl⟩ := List.mem_map.mp hx
      intro h
      rcases List.mem_append.mp h with h1 | h1
      · exact (hc l hl).1 h1
      · simp at h1
    · rw [List.map_map]
      conv_rhs => rw [← List.map_id ents]
      apply List.map_congr_left
      intro l hl
      exact trim_clean_cr l (hc l hl)

/-- What `trimSDLogFile` does to a well-formed file when the card answers. -/
theorem trimSDLogFile_fileRep (io : SdIo) (s : LogStore) (text hdr : List Char)
    (ents : List (List Char)) (hr : io.readOpens = true) (hw : io.writeOpens = true)
    (hready : s.sdCardReady = true) (hfile : s.sdLogFile = some text)
    (h : FileRep text hdr ents) :
    (ents.length ≤ MAX_SD_LOGS → trimSDLogFile io s = s) ∧
    (MAX_SD_LOGS < ents.length →
      (trimSDLogFile io s).sdLogFile =
        some (fileText (hdr ++ ['\r'])
          ((ents.drop (ents.length - MAX_SD_LOGS)).map (fun l => l ++ ['\r'])))) := by
  obtain ⟨e1, e2⟩ := fileRep_header text hdr ents h
  unfold sdHeader at e1
  unfold sdEntries at e2
  obtain ⟨buf, idx, cnt, ready, file⟩ := s
  simp only at hready hfile
  subst hready hfile
  constructor
  · intro hle
    unfold trimSDLogFile
    simp only [Bool.not_true, Bool.false_eq_true, if_false, hr, e2, if_pos hle]
  · intro hlt
    unfold trimSDLogFile
    simp only [Bool.not_true, Bool.false_eq_true, if_false, hr, hw, e1, e2,
      if_neg (not_le.mpr hlt), if_true]
    have hc : ∀ e ∈ ents.drop (ents.length - MAX_SD_LOGS), CleanLine e :=
      fun e he => h.2.1 e (List.mem_of_mem_drop he)
    rw [(fileRep_rewrite hdr _ h.1 hc).1]

/-- One durable append of a one-line record to a well-formed file: the entry goes
to the end; when that makes more than `MAX_SD_LOGS` entries the file is rewritten
with the last `MAX_SD_LOGS` of them and its header line gains a carriage return. -/
theorem logActivity_fileRep (io : SdIo) (r : ActivityLog) (s : LogStore)
    (text hdr : List Char) (ents : List (List Char))
    (ha : io.appendOpens = true) (hr : io.readOpens = true) (hw : io.writeOpens = true)
    (hready : s.sdCardReady = true) (hfile : s.sdLogFile = some text)
    (h : FileRep text hdr ents) (hone : r.OneLine) :
    ∃ text2,
      (logActivity io r.timestamp r.username r.action r.success r.confidence s).sdLogFile
        = some text2 ∧
      (ents.length < MAX_SD_LOGS → FileRep text2 hdr (ents ++ [r.csv])) ∧
      (MAX_SD_LOGS ≤ ents.length →
        FileRep text2 (hdr ++ ['\r'])
          ((ents ++ [r.csv]).drop (ents.length + 1 - MAX_SD_LOGS))) := by
  have hl := csv_clean r hone
  have hrep := fileRep_append text hdr ents r.csv h hl
  have e : logActivity io r.timestamp r.username r.action r.success r.confidence s =
      trimSDLogFile io { s with sdLogFile := some (text ++ (r.csv ++ ['\n'])) } := by
    unfold logActivity
    rw [if_pos hready, if_pos ha, hfile, csvLine_eq]
    rfl
  obtain ⟨t1, t2⟩ := trimSDLogFile_fileRep io
    { s with sdLogFile := some (text ++ (r.csv ++ ['\n'])) } _ hdr (ents ++ [r.csv]) hr hw hready
    rfl hrep
  have hlen : (ents ++ [r.csv]).length = ents.length + 1 := by simp
  rw [hlen] at t1 t2
  by_cases hcase : ents.length < MAX_SD_LOGS
  · refine ⟨text ++ (r.csv ++ ['\n']), ?_, fun _ => hrep, fun hge => absurd hcase (not_lt.mpr hge)⟩
    rw [e, t1 (by omega)]
  · refine ⟨_, by rw [e]; exact t2 (by omega), fun hlt => absurd hlt hcase, fun _ => ?_⟩
    exact (fileRep_rewrite hdr _ h.1
      (fun x hx => hrep.2.1 x (List.mem_of_mem_drop hx))).2

/-- The log file after `n` durable appends of one-line records to a file that
holds only the header: the entries are the CSV lines of the last
`min n MAX_SD_LOGS` records in the order of the calls, and the header line is
the header text followed by one carriage return, plus one more for every rewrite
of the file (one per call from the 51st on). -/
theorem logAll_durable (io : SdIo) (rs : List ActivityLog) (s : LogStore)
    (ha : io.appendOpens = true) (hr : io.readOpens = true) (hw : io.writeOpens = true)
    (hready : s.sdCardReady = true) (hfile : s.sdLogFile = some (println logHeader))
    (hone : ∀ r ∈ rs, r.OneLine) :
    ∃ text, (logAll io rs s).sdLogFile = some text ∧
      FileRep text (logHeader ++ List.replicate (1 + (rs.length - MAX_SD_LOGS)) '\r')
        ((rs.map ActivityLog.csv).drop (rs.length - MAX_SD_LOGS)) := by
  induction rs using List.reverseRecOn with
  | nil =>
    refine ⟨println logHeader, hfile, by decide, by simp, [], rfl, by simp, rfl⟩
  | append_singleton rs r ih =>
    obtain ⟨text, ht, hrep⟩ := ih (fun x hx => hone x (List.mem_append_left _ hx))
    have hrdy : (logAll io rs s).sdCardReady = true := by
      rw [logAll_sdCardReady]; exact hready
    obtain ⟨text2, h2, hlt, hge⟩ := logActivity_fileRep io r (logAll io rs s) text _ _ ha hr hw
      hrdy ht hrep (hone r (List.mem_append_right _ (List.mem_singleton.mpr rfl)))
    refine ⟨text2, by rw [logAll_snoc]; exact h2, ?_⟩
    have hlen : ((rs.map ActivityLog.csv).drop (rs.length - MAX_SD_LOGS)).length
        = min rs.length MAX_SD_LOGS := by
      rw [List.length_drop, List.length_map]; omega
    rw [hlen] at hlt hge
    unfold MAX_SD_LOGS at *
    simp only [List.length_append, List.length_singleton, List.map_append, List.map_singleton]
    by_cases hn : rs.length < 50
    · have e1 : rs.length + 1 - 50 = 0 := by omega
      have e2 : rs.length - 50 = 0 := by omega
      have h3 := hlt (by omega)
      rw [e2] at h3
      rw [e1]
      exact h3
    · have h3 := hge (by omega)
      have e1 : min rs.length 50 + 1 - 50 = 1 := by omega
      have e2 : 1 + (rs.length + 1 - 50) = (1 + (rs.length - 50)) + 1 := by omega
      have e3 : rs.length + 1 - 50 = (rs.length - 50) + 1 := by omega
      rw [e1] at h3
      rw [e2, List.replicate_succ', ← List.append_assoc, e3, ← List.drop_drop,
        List.drop_append_of_le_length (by rw [List.length_map]; omega)]
      exact h3

theorem sdHeader_fresh : sdHeader (println logHeader) = logHeader ++ ['\r'] := by
  decide

theorem sdOutputLoop_eq (lines : List (List Char)) (start : Int) (h0 : 0 ≤ start) (n : Nat)
    (hn : n ≤ lines.length) :
    sdOutputLoop lines start n
      = (((lines.take n).drop start.toNat).reverse).filterMap parseLine := by
  induction n with
  | zero => simp [sdOutputLoop]
  | succ n ih =>
    have hlt : n < lines.length := hn
    unfold sdOutputLoop
    by_cases hs : (n : Int) ≥ start
    · rw [if_pos hs, ih (Nat.le_of_lt hlt)]
      have hk : start.toNat ≤ (lines.take n).length := by
        rw [List.length_take]; omega
      rw [List.take_succ, List.drop_append_of_le_length hk, List.reverse_append,
        List.getElem?_eq_getElem hlt]
      have hd : lines.getD n [] = lines[n] := by
        rw [List.getD_eq_getElem?_getD, List.getElem?_eq_getElem hlt]; rfl
      rw [hd]
      simp only [Option.toList, List.reverse_cons, List.reverse_nil, List.nil_append,
        List.singleton_append, List.filterMap_cons]
      cases parseLine lines[n] <;> rfl
    · rw [if_neg hs]
      have hk : (lines.take (n + 1)).length ≤ start.toNat := by
        rw [List.length_take]; omega
      rw [List.drop_of_length_le hk]
      rfl

theorem sdOutputLoop_mem (lines : List (List Char)) (start : Int) (n : Nat)
    (hn : n ≤ lines.length) (j : LogJson) (hj : j ∈ sdOutputLoop lines start n) :
    ∃ line ∈ lines, parseLine line = some j := by
  induction n with
  | zero => simp [sdOutputLoop] at hj
  | succ n ih =>
    have hlt : n < lines.length := hn
    unfold sdOutputLoop at hj
    by_cases hs : (n : Int) ≥ start
    · rw [if_pos hs, List.mem_append] at hj
      rcases hj with hj | hj
      · have hd : lines.getD n [] = lines[n] := by
          rw [List.getD_eq_getElem?_getD, List.getElem?_eq_getElem hlt]; rfl
        rw [hd] at hj
        refine ⟨lines[n], List.getElem_mem hlt, ?_⟩
        cases hp : parseLine lines[n] with
        | none => rw [hp] at hj; simp at hj
        | some v =>
          rw [hp] at hj
          simp only [Option.toList, List.mem_singleton] at hj
          rw [hj]
      · exact ih (Nat.le_of_lt hlt) hj
    · rw [if_neg hs] at hj
      simp at hj

theorem sdQuery_eq (text : List Char) (limit : Int) (h0 : 0 ≤ limit)
    (h1 : limit < 2147483648) :
    sdQuery text limit
      = ((((sdEntries text).take 500).reverse).take limit.toNat).filterMap parseLine := by
  unfold sdQuery
  simp only []
  have hfold : readEntries (splitLines text).tail = sdEntries text := rfl
  rw [hfold]
  generalize hl : (sdEntries text).take 500 = lines
  have hlen : lines.length ≤ 500 := by
    rw [← hl]; exact List.length_take_le _ _
  have hw : wrapInt32 ((lines.length : Int) - limit) = (lines.length : Int) - limit := by
    unfold wrapInt32
    omega
  rw [hw, sdOutputLoop_eq lines _ (le_max_left _ _) lines.length (le_refl _),
    List.take_length, List.take_reverse]
  have hk : (max 0 ((lines.length : Int) - limit)).toNat = lines.length - limit.toNat := by
    omega
  rw [hk]

theorem sdQuery_mem (text : List Char) (limit : Int) (j : LogJson)
    (hj : j ∈ sdQuery text limit) : ∃ line ∈ sdEntries text, parseLine line = some j := by
  unfold sdQuery at hj
  obtain ⟨line, hl, hp⟩ := sdOutputLoop_mem _ _ _ (le_refl _) j hj
  exact ⟨line, List.mem_of_mem_take hl, hp⟩

theorem apiLogs_sd (io : SdIo) (limit : Int) (s : LogStore) (text : List Char)
    (hav : SdAvailable s) (ht : s.sdLogFile = some text) :
    apiLogs io limit s = if io.readOpens = true then sdQuery text limit else [] := by
  unfold apiLogs
  unfold SdAvailable at hav
  rw [if_pos hav, ht]

theorem apiLogs_ram (io : SdIo) (limit : Int) (s : LogStore) (hun : ¬ SdAvailable s) :
    apiLogs io limit s = ramQuery limit s := by
  unfold apiLogs
  unfold SdAvailable at hun
  rw [if_neg hun]

theorem ramQuery_mem (limit : Int) (s : LogStore) (hcnt : s.ramLogCount ≤ MAX_RAM_LOGS)
    (hlen : s.ramLogBuffer.length = MAX_RAM_LOGS) (j : LogJson) (hj : j ∈ ramQuery limit s) :
    ∃ r ∈ s.ramLogBuffer, j = r.toJson := by
  unfold ramQuery at hj
  obtain ⟨i, hi, rfl⟩ := List.mem_map.mp hj
  have hi2 : i < s.ramLogCount := List.mem_range.mp ((List.takeWhile_sublist _).subset hi)
  unfold MAX_RAM_LOGS at hcnt hlen
  have hslot : ramSlot s.ramLogIndex i < s.ramLogBuffer.length := by
    rw [ramSlot_eq s.ramLogIndex i (by omega), hlen]
    omega
  refine ⟨s.ramLogBuffer[ramSlot s.ramLogIndex i], List.getElem_mem hslot, ?_⟩
  rw [List.getD_eq_getElem _ _ hslot]

theorem sdEntries_fresh : sdEntries (println logHeader) = [] := by
  decide

theorem sdQuery_fresh (limit : Int) : sdQuery (println logHeader) limit = [] := by
  have h : sdQuery (println logHeader) limit
      = sdOutputLoop ((sdEntries (println logHeader)).take 500)
          (max 0 (wrapInt32 ((((sdEntries (println logHeader)).take 500).length : Int) - limit)))
          ((sdEntries (println logHeader)).take 500).length := rfl
  rw [h, sdEntries_fresh]
  rfl

theorem ramQuery_empty (limit : Int) (s : LogStore) (h : s.ramLogCount = 0) :
    ramQuery limit s = [] := by
  unfold ramQuery
  rw [h]
  rfl

/-! ### Lemmas on the cycle, the liveness checks and the CSV line -/

/-- The returns of `handleRecognition`, each with the state it leaves. -/
theorem handleRecognition_forms (inp : CycleInput) (s : State) :
    (((handleRecognition inp s).2 = Outcome.liveFeed ∨
        (handleRecognition inp s).2 = Outcome.tooSoon) ∧
      ((handleRecognition inp s).1 = s ∨
        (handleRecognition inp s).1 = { s with liveFeedActive := false })) ∨
    ∃ p, PollDue inp s ∧
      (handleRecognition inp s = (s.polled inp.now p, Outcome.noFrame) ∨
      handleRecognition inp s = (resetLivenessTracking (s.polled inp.now p), Outcome.noFace) ∨
      (s.totalUsers = 0 ∧ handleRecognition inp s =
        (recordFace inp.currentPos (s.polled inp.now p), Outcome.noUsers)) ∨
      handleRecognition inp s =
        (resetGate (recordFace inp.currentPos (s.polled inp.now p)), Outcome.nameUnknown) ∨
      handleRecognition inp s =
        ((resetGate (recordFace inp.currentPos (s.polled inp.now p))).logActivity inp.sd
          inp.logTime inp.matchName "DENIED_LOW_CONFIDENCE" false inp.similarity,
          Outcome.lowConfidence) ∨
      handleRecognition inp s =
        ((resetGate (recordFace inp.currentPos (s.polled inp.now p))).logActivity inp.sd
          inp.logTime "Unknown" "DENIED_NOT_ENROLLED" false 0, Outcome.notRecognized) ∨
      (s.totalUsers ≠ 0 ∧ handleRecognition inp s = decideAccess inp (s.counted inp p))) := by
  by_cases hdue : PollDue inp s
  · right
    obtain ⟨p, hp⟩ := handleRecognition_of_due hdue
    cases hcap : inp.captureOk
    · refine ⟨p, hdue, Or.inl ?_⟩
      rw [hp]; simp [hcap]
    cases hdet : inp.detectOk
    · refine ⟨p, hdue, Or.inr (Or.inl ?_)⟩
      rw [hp]; simp [hcap, hdet]
    by_cases husers : s.totalUsers = 0
    · refine ⟨p, hdue, Or.inr (Or.inr (Or.inl ⟨husers, ?_⟩))⟩
      rw [hp]; simp [hcap, hdet, husers]
    cases hrec : inp.recognizeOk
    · refine ⟨p, hdue, Or.inr (Or.inr (Or.inr (Or.inr (Or.inr (Or.inl ?_)))))⟩
      rw [hp]
      simp [hcap, hdet, husers, recognizeFace, hrec]
    by_cases hname : UsableName inp.matchName
    · by_cases hconf : inp.similarity < RECOGNITION_THRESHOLD
      · refine ⟨p, hdue, Or.inr (Or.inr (Or.inr (Or.inr (Or.inl ?_))))⟩
        rw [hp]
        unfold UsableName at hname
        simp only [hcap, hdet, husers, Bool.true_eq_false, if_false]
        unfold recognizeFace
        rw [if_pos hrec]
        simp only [hname, if_false, hconf, if_true]
      · obtain ⟨q, hq⟩ := handleRecognition_accepted hdue hcap hdet husers hrec hname
          (not_lt.mp hconf)
        exact ⟨q, hdue, Or.inr (Or.inr (Or.inr (Or.inr (Or.inr (Or.inr ⟨husers, hq⟩)))))⟩
    · refine ⟨p, hdue, Or.inr (Or.inr (Or.inr (Or.inl ?_)))⟩
      rw [hp]
      unfold UsableName at hname
      rw [not_not] at hname
      simp only [hcap, hdet, husers, Bool.true_eq_false, if_false]
      unfold recognizeFace
      rw [if_pos hrec]
      simp only [hname, if_true]
  · left
    exact not_due_outcome hdue

/-- The counting of the match leaves the cool-down record and the number of
enrolled users alone. -/
theorem counted_frame (inp : CycleInput) (s : State) (p : Nat) :
    (s.counted inp p).lastAccessUser = s.lastAccessUser ∧
    (s.counted inp p).lastAccessTime = s.lastAccessTime ∧
    (s.counted inp p).totalUsers = s.totalUsers := by
  by_cases hsame : inp.matchName = s.lastConfirmedUser
  · obtain ⟨-, -, -, -, -, -, -, h8, h9, -, -, -, h13⟩ := counted_same_fields p hsame
    exact ⟨h8, h9, h13⟩
  · simp [State.counted, countMatch, hsame, recordFace, State.polled, resetLivenessTracking]

theorem posChange_nonneg (p q : FacePosition) : 0 ≤ posChange p q := by
  unfold posChange
  omega

theorem sizeChange_nonneg (p q : FacePosition) : 0 ≤ sizeChange p q := by
  unfold sizeChange
  omega

/-- One iteration of the second loop, field by field. -/
theorem statStep_eq (t : PosStats) (p q : Int) :
    statStep t (p, q) =
      ⟨t.totalPosChange + p, t.totalSizeChange + q, max t.maxPosChange p,
        min t.minPosChange p⟩ := by
  obtain ⟨tp, ts, mx, mn⟩ := t
  unfold statStep
  dsimp only
  by_cases h1 : p > mx
  · by_cases h2 : p < mn
    · rw [if_pos h1, if_pos h2, max_eq_right (le_of_lt h1), min_eq_right (le_of_lt h2)]
    · rw [if_pos h1, if_neg h2, max_eq_right (le_of_lt h1), min_eq_left (not_lt.mp h2)]
  · by_cases h2 : p < mn
    · rw [if_neg h1, if_pos h2, max_eq_left (not_lt.mp h1), min_eq_right (le_of_lt h2)]
    · rw [if_neg h1, if_neg h2, max_eq_left (not_lt.mp h1), min_eq_left (not_lt.mp h2)]

/-- The second loop on three entries. -/
theorem posStats_three (a : PairScan) (p1 p2 p3 q1 q2 q3 : Int)
    (hp : a.posChanges = [p1, p2, p3]) (hq : a.sizeChanges = [q1, q2, q3]) :
    (posStats a).totalPosChange = p1 + p2 + p3 ∧
    (posStats a).totalSizeChange = q1 + q2 + q3 ∧
    (posStats a).maxPosChange = max (max (max 0 p1) p2) p3 ∧
    (posStats a).minPosChange = min (min (min 999 p1) p2) p3 := by
  have e : posStats a =
      statStep (statStep (statStep ⟨0, 0, 0, 999⟩ (p1, q1)) (p2, q2)) (p3, q3) := by
    unfold posStats
    rw [hp, hq]
    rfl
  rw [e, statStep_eq, statStep_eq, statStep_eq]
  dsimp only
  exact ⟨by omega, by omega, rfl, rfl⟩

/-- The class indicator of a pair as the first loop counts it. -/
theorem classify_cases (pc sc : Int) :
    ((pc = 0 ∧ sc = 0) ∧ classify pc sc = PairClass.zero) ∨
    (¬ (pc = 0 ∧ sc = 0) ∧ pc ≤ 20 ∧ classify pc sc = PairClass.micro) ∨
    (20 < pc ∧ 30 < pc ∧ classify pc sc = PairClass.large) ∨
    (20 < pc ∧ pc ≤ 30 ∧ classify pc sc = PairClass.unclassified) := by
  unfold classify LIVENESS_MAX_MICRO_MOVEMENT LIVENESS_PHOTO_THRESHOLD
  by_cases hz : pc = 0 ∧ sc = 0
  · exact Or.inl ⟨hz, if_pos hz⟩
  · rw [if_neg hz]
    by_cases hm : pc ≤ 20
    · exact Or.inr (Or.inl ⟨hz, hm, if_pos hm⟩)
    · rw [if_neg hm]
      by_cases hl : pc > 30
      · exact Or.inr (Or.inr (Or.inl ⟨by omega, hl, if_pos hl⟩))
      · exact Or.inr (Or.inr (Or.inr ⟨by omega, by omega, if_neg hl⟩))

/-- The three counters of the first loop count the classes of `classify`. -/
theorem classify_indicator (pc sc : Int) :
    ((if pc = 0 ∧ sc = 0 then 1 else 0 : Int)
      = if classify pc sc = PairClass.zero then 1 else 0) ∧
    ((if ¬ (pc = 0 ∧ sc = 0) ∧ pc ≤ LIVENESS_MAX_MICRO_MOVEMENT then 1 else 0 : Int)
      = if classify pc sc = PairClass.micro then 1 else 0) ∧
    ((if ¬ (pc = 0 ∧ sc = 0) ∧ ¬ pc ≤ LIVENESS_MAX_MICRO_MOVEMENT
        ∧ pc > LIVENESS_PHOTO_THRESHOLD then 1 else 0 : Int)
      = if classify pc sc = PairClass.large then 1 else 0) := by
  unfold LIVENESS_MAX_MICRO_MOVEMENT LIVENESS_PHOTO_THRESHOLD
  rcases classify_cases pc sc with ⟨x1, x2⟩ | ⟨x1, x3, x2⟩ | ⟨x1, x3, x2⟩ | ⟨x1, x3, x2⟩ <;>
    rw [x2] <;> refine ⟨?_, ?_, ?_⟩ <;> split_ifs <;> first | rfl | (exfalso; omega) |
      (exfalso; simp_all)

/-- The locals of `checkLiveness` behind its loops on four valid slots. -/
theorem aggregates_four (a b c d : FacePosition) (ha : a.valid = true) (hb : b.valid = true)
    (hc : c.valid = true) (hd : d.valid = true) :
    (aggregates [a, b, c, d]).validComparisons = 3 ∧
    (aggregates [a, b, c, d]).zeroMovementCount =
      (if classify (posChange a b) (sizeChange a b) = PairClass.zero then 1 else 0)
      + (if classify (posChange b c) (sizeChange b c) = PairClass.zero then 1 else 0)
      + (if classify (posChange c d) (sizeChange c d) = PairClass.zero then 1 else 0) ∧
    (aggregates [a, b, c, d]).microMovementCount =
      (if classify (posChange a b) (sizeChange a b) = PairClass.micro then 1 else 0)
      + (if classify (posChange b c) (sizeChange b c) = PairClass.micro then 1 else 0)
      + (if classify (posChange c d) (sizeChange c d) = PairClass.micro then 1 else 0) ∧
    (aggregates [a, b, c, d]).largeMovementCount =
      (if classify (posChange a b) (sizeChange a b) = PairClass.large then 1 else 0)
      + (if classify (posChange b c) (sizeChange b c) = PairClass.large then 1 else 0)
      + (if classify (posChange c d) (sizeChange c d) = PairClass.large then 1 else 0) ∧
    (aggregates [a, b, c, d]).avgPosChange =
      (posChange a b + posChange b c + posChange c d) / 3 ∧
    (aggregates [a, b, c, d]).avgSizeChange =
      (sizeChange a b + sizeChange b c + sizeChange c d) / 3 ∧
    (aggregates [a, b, c, d]).posChangeVariance =
      max (max (max 0 (posChange a b)) (posChange b c)) (posChange c d)
        - min (min (min 999 (posChange a b)) (posChange b c)) (posChange c d) := by
  obtain ⟨hp, hq, hz⟩ := scanPairs_four a b c d ha hb hc hd
  obtain ⟨hm, hl⟩ := scanPairs_four_counts a b c d ha hb hc hd
  obtain ⟨t1, t2, t3, t4⟩ := posStats_three (scanPairs [a, b, c, d]) _ _ _ _ _ _ hp hq
  have hv : (scanPairs [a, b, c, d]).validComparisons = 3 := by
    unfold PairScan.validComparisons
    rw [hp]
    rfl
  have n1 := posChange_nonneg a b
  have n2 := posChange_nonneg b c
  have n3 := posChange_nonneg c d
  have m1 := sizeChange_nonneg a b
  have m2 := sizeChange_nonneg b c
  have m3 := sizeChange_nonneg c d
  have f1 : (aggregates [a, b, c, d]).validComparisons
      = (scanPairs [a, b, c, d]).validComparisons := rfl
  have f2 : (aggregates [a, b, c, d]).zeroMovementCount
      = (scanPairs [a, b, c, d]).zeroMovementCount := rfl
  have f3 : (aggregates [a, b, c, d]).microMovementCount
      = (scanPairs [a, b, c, d]).microMovementCount := rfl
  have f4 : (aggregates [a, b, c, d]).largeMovementCount
      = (scanPairs [a, b, c, d]).largeMovementCount := rfl
  have f5 : (aggregates [a, b, c, d]).avgPosChange
      = (posStats (scanPairs [a, b, c, d])).totalPosChange.tdiv
          (scanPairs [a, b, c, d]).validComparisons := rfl
  have f6 : (aggregates [a, b, c, d]).avgSizeChange
      = (posStats (scanPairs [a, b, c, d])).totalSizeChange.tdiv
          (scanPairs [a, b, c, d]).validComparisons := rfl
  have f7 : (aggregates [a, b, c, d]).posChangeVariance
      = (posStats (scanPairs [a, b, c, d])).maxPosChange
          - (posStats (scanPairs [a, b, c, d])).minPosChange := rfl
  refine ⟨?_, ?_, ?_, ?_, ?_, ?_, ?_⟩
  · rw [f1, hv]
  · rw [f2, hz, (classify_indicator _ _).1, (classify_indicator _ _).1,
      (classify_indicator _ _).1]
  · rw [f3, hm, (classify_indicator _ _).2.1, (classify_indicator _ _).2.1,
      (classify_indicator _ _).2.1]
  · rw [f4, hl, (classify_indicator _ _).2.2, (classify_indicator _ _).2.2,
      (classify_indicator _ _).2.2]
  · rw [f5, hv, t1, Int.tdiv_eq_ediv (by omega) (by omega)]
  · rw [f6, hv, t2, Int.tdiv_eq_ediv (by omega) (by omega)]
  · rw [f7, t3, t4]

theorem fullWindow_slots (s : State) (h : FullWindow s) :
    ∃ a b c d, s.faceHistory = [a, b, c, d] ∧ a.valid = true ∧ b.valid = true ∧
      c.valid = true ∧ d.valid = true := by
  obtain ⟨-, hlen, hvalid⟩ := h
  obtain ⟨a, b, c, d, hh⟩ := length_eq_four hlen
  exact ⟨a, b, c, d, hh, hvalid a (by simp [hh]), hvalid b (by simp [hh]),
    hvalid c (by simp [hh]), hvalid d (by simp [hh])⟩

/-- The five checks of `checkLiveness` on the aggregates, behind the two early
returns. -/
theorem livenessVerdict_eq (s : State) (hc : ¬ s.faceHistoryCount < LIVENESS_CHECK_COUNT)
    (hv : (aggregates s.faceHistory).validComparisons ≠ 0) :
    livenessVerdict s =
      if (aggregates s.faceHistory).zeroMovementCount
          ≥ (aggregates s.faceHistory).validComparisons - 1 then Liveness.staticFace
      else if (aggregates s.faceHistory).largeMovementCount ≥ 2 then Liveness.erraticMovement
      else if (aggregates s.faceHistory).avgPosChange > LIVENESS_PHOTO_THRESHOLD
          ∧ (aggregates s.faceHistory).posChangeVariance < 5 then
        Liveness.uniformLargeMovement
      else if (aggregates s.faceHistory).avgSizeChange = 0
          ∧ (aggregates s.faceHistory).avgPosChange > 10 then Liveness.flatSurface
      else if (aggregates s.faceHistory).microMovementCount < LIVENESS_CONSISTENCY_REQUIRED then
        Liveness.insufficientMicroMovement
      else Liveness.passed := by
  have hv2 : ¬ (scanPairs s.faceHistory).validComparisons = 0 := hv
  unfold livenessVerdict
  rw [if_neg hc]
  dsimp only
  rw [if_neg hv2]
  rfl

/-- The verdict in the words of the specification as a chain of tests. -/
theorem specVerdict_eq (g : Aggregates) :
    specVerdict g =
      if g.zeroMovementCount ≥ g.validComparisons - 1 then Liveness.staticFace
      else if g.largeMovementCount ≥ 2 then Liveness.erraticMovement
      else if g.avgPosChange > LIVENESS_PHOTO_THRESHOLD ∧ g.posChangeVariance < 5 then
        Liveness.uniformLargeMovement
      else if g.avgSizeChange = 0 ∧ g.avgPosChange > 10 then Liveness.flatSurface
      else if g.microMovementCount < LIVENESS_CONSISTENCY_REQUIRED then
        Liveness.insufficientMicroMovement
      else Liveness.passed := by
  unfold specVerdict specRules
  by_cases h1 : g.zeroMovementCount ≥ g.validComparisons - 1
  · simp [List.find?, h1]
  by_cases h2 : g.largeMovementCount ≥ 2
  · simp [List.find?, h1, h2]
  by_cases h3 : g.avgPosChange > LIVENESS_PHOTO_THRESHOLD ∧ g.posChangeVariance < 5
  · simp [List.find?, h1, h2, h3]
  by_cases h4 : g.avgSizeChange = 0 ∧ g.avgPosChange > 10
  · simp [List.find?, h1, h2, h3, h4]
  by_cases h5 : g.microMovementCount < LIVENESS_CONSISTENCY_REQUIRED
  · simp [List.find?, h1, h2, h3, h4, h5]
  · simp [List.find?, h1, h2, h3, h4, h5]

theorem fullWindow_verdict (s : State) (h : FullWindow s) :
    (aggregates s.faceHistory).validComparisons = 3 ∧
    livenessVerdict s = specVerdict (aggregates s.faceHistory) := by
  obtain ⟨a, b, c, d, hh, ha, hb, hc, hd⟩ := fullWindow_slots s h
  have hv : (aggregates s.faceHistory).validComparisons = 3 := by
    rw [hh]; exact (aggregates_four a b c d ha hb hc hd).1
  refine ⟨hv, ?_⟩
  rw [specVerdict_eq, livenessVerdict_eq s (by rw [h.1]; exact lt_irrefl _) (by rw [hv]; decide)]

/-- The class counts of a window of four slots as sums over its three pairs. -/
theorem classCount_four (k : PairClass) (a b c d : FacePosition) :
    ((classCount k [a, b, c, d] : Nat) : Int) =
      (if classify (posChange a b) (sizeChange a b) = k then 1 else 0)
      + (if classify (posChange b c) (sizeChange b c) = k then 1 else 0)
      + (if classify (posChange c d) (sizeChange c d) = k then 1 else 0) := by
  unfold classCount adjacentPairs pairClass
  simp only [List.tail_cons, List.zip_cons_cons, List.zip_nil_right, List.countP_cons,
    List.countP_nil, decide_eq_true_eq]
  split_ifs <;> rfl

/-- The largest and the smallest of three position changes. -/
theorem listMax_three (p1 p2 p3 : Int) :
    listMax [p1, p2, p3] = max (max p1 p2) p3 ∧ listMin [p1, p2, p3] = min (min p1 p2) p3 := by
  constructor <;> simp [listMax, listMin]

theorem deltas_four (a b c d : FacePosition) :
    posDeltas [a, b, c, d] = [posChange a b, posChange b c, posChange c d] ∧
    sizeDeltas [a, b, c, d] = [sizeChange a b, sizeChange b c, sizeChange c d] :=
  ⟨rfl, rfl⟩

/-- The verdict on a full window whose three position changes are all above 30:
CHECK 2 returns. -/
theorem verdict_all_large (a b c d : FacePosition) (s : State) (h : FullWindow s)
    (hh : s.faceHistory = [a, b, c, d]) (h1 : 30 < posChange a b) (h2 : 30 < posChange b c)
    (h3 : 30 < posChange c d) : livenessVerdict s = Liveness.erraticMovement := by
  have ha : a.valid = true := h.2.2 a (by simp [hh])
  have hb : b.valid = true := h.2.2 b (by simp [hh])
  have hc : c.valid = true := h.2.2 c (by simp [hh])
  have hd : d.valid = true := h.2.2 d (by simp [hh])
  obtain ⟨g1, g2, -, g4, -, -, -⟩ := aggregates_four a b c d ha hb hc hd
  have c1 : classify (posChange a b) (sizeChange a b) = PairClass.large := by
    rcases classify_cases (posChange a b) (sizeChange a b) with ⟨x1, x2⟩ | ⟨x1, x3, x2⟩ |
      ⟨x1, x3, x2⟩ | ⟨x1, x3, x2⟩ <;> first | exact x2 | (exfalso; omega)
  have c2 : classify (posChange b c) (sizeChange b c) = PairClass.large := by
    rcases classify_cases (posChange b c) (sizeChange b c) with ⟨x1, x2⟩ | ⟨x1, x3, x2⟩ |
      ⟨x1, x3, x2⟩ | ⟨x1, x3, x2⟩ <;> first | exact x2 | (exfalso; omega)
  have c3 : classify (posChange c d) (sizeChange c d) = PairClass.large := by
    rcases classify_cases (posChange c d) (sizeChange c d) with ⟨x1, x2⟩ | ⟨x1, x3, x2⟩ |
      ⟨x1, x3, x2⟩ | ⟨x1, x3, x2⟩ <;> first | exact x2 | (exfalso; omega)
  rw [c1, c2, c3] at g2 g4
  rw [(fullWindow_verdict s h).2, specVerdict_eq, hh, g1, g2, g4]
  rfl

/-- What a call of `handleRecognition` does to the liveness window and to the
count of consecutive matches: nothing (A), a reset of the window (B), one
recording without counting (C, no enrolled user), one recording and a reset of
both (D), one recording and one more match (E), or a restart with the current
sample and count 1 (F). -/
theorem cycle_window (inp : CycleInput) (s : State) :
    (handleRecognition inp s).1.totalUsers = s.totalUsers ∧
    ((SameWindow (handleRecognition inp s).1 s ∧
        (handleRecognition inp s).1.consecutiveMatches = s.consecutiveMatches) ∨
    (SameWindow (handleRecognition inp s).1 (resetLivenessTracking s) ∧
        (handleRecognition inp s).1.consecutiveMatches = s.consecutiveMatches) ∨
    (s.totalUsers = 0 ∧ SameWindow (handleRecognition inp s).1 (recordFace inp.currentPos s) ∧
        (handleRecognition inp s).1.consecutiveMatches = s.consecutiveMatches) ∨
    (SameWindow (handleRecognition inp s).1
        (resetLivenessTracking (recordFace inp.currentPos s)) ∧
        (handleRecognition inp s).1.consecutiveMatches = 0) ∨
    (SameWindow (handleRecognition inp s).1 (recordFace inp.currentPos s) ∧
        (handleRecognition inp s).1.consecutiveMatches = s.consecutiveMatches + 1) ∨
    ((handleRecognition inp s).1.faceHistory =
        (resetLivenessTracking (recordFace inp.currentPos s)).faceHistory.set 0 inp.currentPos ∧
      (handleRecognition inp s).1.faceHistoryIndex = 1 ∧
      (handleRecognition inp s).1.faceHistoryCount = 1 ∧
      (handleRecognition inp s).1.consecutiveMatches = 1)) := by
  rcases handleRecognition_forms inp s with ⟨-, e | e⟩ | ⟨p, -, e | e | ⟨hu, e⟩ | e | e | e |
    ⟨-, e⟩⟩
  · rw [e]; exact ⟨rfl, Or.inl ⟨⟨rfl, rfl, rfl⟩, rfl⟩⟩
  · rw [e]; exact ⟨rfl, Or.inl ⟨⟨rfl, rfl, rfl⟩, rfl⟩⟩
  · rw [e]; exact ⟨rfl, Or.inl ⟨⟨rfl, rfl, rfl⟩, rfl⟩⟩
  · rw [e]; exact ⟨rfl, Or.inr (Or.inl ⟨⟨rfl, rfl, rfl⟩, rfl⟩)⟩
  · rw [e]; exact ⟨rfl, Or.inr (Or.inr (Or.inl ⟨hu, ⟨rfl, rfl, rfl⟩, rfl⟩))⟩
  · rw [e]; exact ⟨rfl, Or.inr (Or.inr (Or.inr (Or.inl ⟨⟨rfl, rfl, rfl⟩, rfl⟩)))⟩
  · rw [e]; exact ⟨rfl, Or.inr (Or.inr (Or.inr (Or.inl ⟨⟨rfl, rfl, rfl⟩, rfl⟩)))⟩
  · rw [e]; exact ⟨rfl, Or.inr (Or.inr (Or.inr (Or.inl ⟨⟨rfl, rfl, rfl⟩, rfl⟩)))⟩
  · have hc : (s.counted inp p).totalUsers = s.totalUsers := (counted_frame inp s p).2.2
    have hcount : (SameWindow (s.counted inp p) (recordFace inp.currentPos s) ∧
          (s.counted inp p).consecutiveMatches = s.consecutiveMatches + 1) ∨
        ((s.counted inp p).faceHistory =
          (resetLivenessTracking (recordFace inp.currentPos s)).faceHistory.set 0
            inp.currentPos ∧
        (s.counted inp p).faceHistoryIndex = 1 ∧ (s.counted inp p).faceHistoryCount = 1 ∧
        (s.counted inp p).consecutiveMatches = 1) := by
      by_cases hsame : inp.matchName = s.lastConfirmedUser
      · obtain ⟨-, -, -, h4, h5, h6, h7, -⟩ := counted_same_fields p hsame
        exact Or.inl ⟨⟨h5, h6, h7⟩, h4⟩
      · obtain ⟨h1, -, h3, h4, h5, -⟩ := counted_other p hsame
        exact Or.inr ⟨h5, h4, h3, h1⟩
    rcases decideAccess_cases inp (s.counted inp p) with ⟨_, d⟩ | ⟨_, _, d⟩ | ⟨_, _, _, d⟩ |
      ⟨_, _, _, d⟩
    · rw [e, d]
      exact ⟨hc, Or.inr (Or.inr (Or.inr (Or.inr hcount)))⟩
    · rw [e, d]
      exact ⟨hc, Or.inr (Or.inr (Or.inr (Or.inr hcount)))⟩
    · rw [e, d]
      exact ⟨hc, Or.inr (Or.inr (Or.inr (Or.inr hcount)))⟩
    · rw [e, d]
      rename_i hcount3 _ _
      obtain ⟨-, -, -, -, h5, -⟩ := counted_same_fields p (confirmed_same_identity p hcount3)
      refine ⟨hc, Or.inr (Or.inr (Or.inr (Or.inl ⟨⟨?_, rfl, rfl⟩, rfl⟩)))⟩
      show (List.range LIVENESS_CHECK_COUNT).foldl
          (fun h i => h.modify (fun p => { p with valid := false }) i)
          (s.counted inp p).faceHistory = _
      rw [h5]
      rfl

theorem windowInv_of_same {t s : State} (h : SameWindow t s) (hs : WindowInv s) :
    WindowInv t := by
  obtain ⟨h1, h2, h3⟩ := h
  unfold WindowInv WindowShape at *
  rw [h1, h2, h3]
  exact hs

/-- The reset leaves a window of the shape: nothing counted, every slot invalid. -/
theorem windowInv_reset (s : State) (hlen : s.faceHistory.length = LIVENESS_CHECK_COUNT) :
    WindowInv (resetLivenessTracking s) := by
  obtain ⟨a, b, c, d, hh⟩ := length_eq_four hlen
  have e := @resetLivenessTracking_faceHistory s a b c d hh
  have e2 : (resetLivenessTracking s).faceHistoryIndex = 0 := rfl
  have e3 : (resetLivenessTracking s).faceHistoryCount = 0 := rfl
  unfold WindowInv WindowShape LIVENESS_CHECK_COUNT
  rw [e, e2, e3]
  refine ⟨⟨rfl, Nat.zero_le _, by decide, ?_⟩, fun _ => rfl⟩
  intro i hi
  interval_cases i <;> simp

/-- Storing a valid sample under the cursor keeps the shape of the window. -/
theorem shape_record (h : List FacePosition) (idx cnt : Nat) (x : FacePosition)
    (hx : x.valid = true) (hlen : h.length = 4) (hcnt : cnt ≤ 4) (hidx : idx < 4)
    (hval : ∀ i, i < 4 → ((h.getD i FacePosition.zero).valid = true ↔ i < cnt))
    (hcur : cnt < 4 → idx = cnt) :
    (h.set idx x).length = 4 ∧ (if cnt < 4 then cnt + 1 else cnt) ≤ 4 ∧ (idx + 1) % 4 < 4 ∧
    (∀ i, i < 4 → (((h.set idx x).getD i FacePosition.zero).valid = true ↔
      i < if cnt < 4 then cnt + 1 else cnt)) ∧
    ((if cnt < 4 then cnt + 1 else cnt) < 4 → (idx + 1) % 4 = if cnt < 4 then cnt + 1 else cnt)
    := by
  obtain ⟨a, b, c, d, hh⟩ := length_eq_four hlen
  subst hh
  have v0 := hval 0 (by decide)
  have v1 := hval 1 (by decide)
  have v2 := hval 2 (by decide)
  have v3 := hval 3 (by decide)
  simp only [List.getD_cons_zero, List.getD_cons_succ] at v0 v1 v2 v3
  refine ⟨by simp, by split_ifs <;> omega, Nat.mod_lt _ (by decide), ?_, ?_⟩
  · intro i hi
    interval_cases cnt <;> interval_cases idx <;> first
      | (exfalso; have := hcur (by decide); omega)
      | (interval_cases i <;> simp_all)
  · split_ifs with hc
    · intro h4
      have := hcur hc
      omega
    · intro h4
      omega

theorem windowInv_record (x : FacePosition) (hx : x.valid = true) (s : State)
    (h : WindowInv s) : WindowInv (recordFace x s) := by
  obtain ⟨⟨hlen, hcnt, hidx, hval⟩, hcur⟩ := h
  obtain ⟨r1, r2, r3, r4, r5⟩ := shape_record s.faceHistory s.faceHistoryIndex
    s.faceHistoryCount x hx hlen hcnt hidx hval hcur
  exact ⟨⟨r1, r2, r3, r4⟩, r5⟩

/-- The restart of lines 1316-1319 leaves a window of the shape: one sample
counted, in slot 0. -/
theorem windowInv_restart (x : FacePosition) (hx : x.valid = true) (s t : State)
    (hlen : s.faceHistory.length = LIVENESS_CHECK_COUNT)
    (h1 : t.faceHistory = (resetLivenessTracking s).faceHistory.set 0 x)
    (h2 : t.faceHistoryIndex = 1) (h3 : t.faceHistoryCount = 1) : WindowInv t := by
  obtain ⟨a, b, c, d, hh⟩ := length_eq_four hlen
  have e := @resetLivenessTracking_faceHistory s a b c d hh
  unfold WindowInv WindowShape LIVENESS_CHECK_COUNT
  rw [h1, h2, h3, e]
  refine ⟨⟨rfl, by decide, by decide, ?_⟩, fun _ => rfl⟩
  intro i hi
  interval_cases i <;> simp [hx]

theorem currentPos_valid (inp : CycleInput) : inp.currentPos.valid = true := rfl

/-- Every call of `handleRecognition` keeps the shape of the window. -/
theorem windowInv_cycle (inp : CycleInput) (s : State) (h : WindowInv s) :
    WindowInv (handleRecognition inp s).1 := by
  have hlen : s.faceHistory.length = LIVENESS_CHECK_COUNT := h.1.1
  have hrec := windowInv_record inp.currentPos (currentPos_valid inp) s h
  rcases (cycle_window inp s).2 with ⟨w, -⟩ | ⟨w, -⟩ | ⟨-, w, -⟩ | ⟨w, -⟩ | ⟨w, -⟩ |
    ⟨w1, w2, w3, -⟩
  · exact windowInv_of_same w h
  · exact windowInv_of_same w (windowInv_reset s hlen)
  · exact windowInv_of_same w hrec
  · exact windowInv_of_same w (windowInv_reset _ hrec.1.1)
  · exact windowInv_of_same w hrec
  · exact windowInv_restart inp.currentPos (currentPos_valid inp) _ _ hrec.1.1 w1 w2 w3

theorem runEvents_cons (e : WindowEvent) (events : List WindowEvent) (s : State) :
    runEvents (e :: events) s = runEvents events (e.apply s) := rfl

theorem windowInv_events (events : List WindowEvent) (s : State) (h : WindowInv s) :
    WindowInv (runEvents events s) := by
  induction events generalizing s with
  | nil => exact h
  | cons e rest ih =>
    rw [runEvents_cons]
    apply ih
    cases e with
    | cycle inp => exact windowInv_cycle inp s h
    | reset => exact windowInv_reset s h.1.1

/-- A window of the shape that counts four samples is a full window. -/
theorem fullWindow_of_shape (s : State) (h : WindowShape s)
    (hc : ¬ s.faceHistoryCount < LIVENESS_CHECK_COUNT) : FullWindow s := by
  obtain ⟨hlen, hcnt, -, hval⟩ := h
  obtain ⟨a, b, c, d, hh⟩ := length_eq_four hlen
  have v0 := hval 0 (by decide)
  have v1 := hval 1 (by decide)
  have v2 := hval 2 (by decide)
  have v3 := hval 3 (by decide)
  rw [hh] at v0 v1 v2 v3
  simp only [List.getD_cons_zero, List.getD_cons_succ] at v0 v1 v2 v3
  unfold LIVENESS_CHECK_COUNT at *
  have hfour : s.faceHistoryCount = 4 := by omega
  refine ⟨hfour, hlen, ?_⟩
  intro p hp
  rw [hh] at hp
  simp only [List.mem_cons, List.mem_singleton, List.not_mem_nil, or_false] at hp
  rcases hp with e | e | e | e <;> rw [e]
  · exact v0.mpr (by omega)
  · exact v1.mpr (by omega)
  · exact v2.mpr (by omega)
  · exact v3.mpr (by omega)

theorem recordFace_count_le (x : FacePosition) (s : State) :
    (recordFace x s).faceHistoryCount ≤ s.faceHistoryCount + 1 := by
  show (if s.faceHistoryCount < LIVENESS_CHECK_COUNT then s.faceHistoryCount + 1
    else s.faceHistoryCount) ≤ _
  split_ifs <;> omega

theorem checkLiveness_true_count (s : State) (h : checkLiveness s = true) :
    ¬ s.faceHistoryCount < LIVENESS_CHECK_COUNT := by
  intro hc
  unfold checkLiveness livenessVerdict at h
  rw [if_pos hc] at h
  simp at h

/-- With a user enrolled, a call of `handleRecognition` keeps the number of
counted samples at or below the number of consecutive matches. -/
theorem streak_cycle (inp : CycleInput) (s : State) (husers : s.totalUsers ≠ 0)
    (h : s.faceHistoryCount ≤ s.consecutiveMatches) :
    (handleRecognition inp s).1.totalUsers ≠ 0 ∧
    (handleRecognition inp s).1.faceHistoryCount ≤
      (handleRecognition inp s).1.consecutiveMatches := by
  obtain ⟨hu, hw⟩ := cycle_window inp s
  have hr := recordFace_count_le inp.currentPos s
  refine ⟨by rw [hu]; exact husers, ?_⟩
  rcases hw with ⟨⟨-, -, w⟩, m⟩ | ⟨⟨-, -, w⟩, m⟩ | ⟨z, -, -⟩ | ⟨⟨-, -, w⟩, m⟩ |
    ⟨⟨-, -, w⟩, m⟩ | ⟨-, -, w, m⟩
  · rw [w, m]; exact h
  · rw [w, m]; exact Nat.zero_le _
  · exact absurd z husers
  · rw [w, m]; exact Nat.zero_le _
  · rw [w, m]; omega
  · rw [w, m]

theorem runCycles_streak (inputs : List CycleInput) (s : State) (husers : s.totalUsers ≠ 0)
    (h : s.faceHistoryCount ≤ s.consecutiveMatches) :
    (runCycles inputs s).totalUsers ≠ 0 ∧
    (runCycles inputs s).faceHistoryCount ≤ (runCycles inputs s).consecutiveMatches := by
  induction inputs generalizing s with
  | nil => exact ⟨husers, h⟩
  | cons inp rest ih =>
    obtain ⟨h1, h2⟩ := streak_cycle inp s husers h
    exact ih _ h1 h2

/-- The first comma at or behind the start of a field without commas is the one
that ends the field. -/
theorem indexOf_field (pre x rest : List Char) (hx : ',' ∉ x) :
    indexOf (pre ++ (x ++ ',' :: rest)) ',' pre.length = ((pre.length + x.length : Nat) : Int) := by
  unfold indexOf
  have h1 : ¬ pre.length ≥ (pre ++ (x ++ ',' :: rest)).length := by
    simp only [List.length_append, List.length_cons]
    omega
  rw [if_neg h1, List.drop_left, List.indexOf_append_of_not_mem hx, List.indexOf_cons_self]
  dsimp only
  rw [if_pos (by simp only [List.length_append, List.length_cons]; omega)]
  rfl

/-- The characters between the start of a field and its end. -/
theorem substring_field (pre x rest : List Char) :
    substring (pre ++ (x ++ rest)) pre.length (pre.length + x.length) = x := by
  unfold substring
  rw [max_eq_right (Nat.le_add_right _ _), min_eq_left (Nat.le_add_right _ _),
    ← List.append_assoc, List.take_left' (by rw [List.length_append]), List.drop_left]

/-- The CSV parse of a line of five fields, the first not empty and the first
four without commas. -/
theorem parseLine_fields (t u a f c : List Char) (ht : t ≠ []) (h1 : ',' ∉ t) (h2 : ',' ∉ u)
    (h3 : ',' ∉ a) (h4 : ',' ∉ f) :
    parseLine (t ++ ',' :: (u ++ ',' :: (a ++ ',' :: (f ++ ',' :: c)))) =
      some { username := u, status := a, success := decide (f = ['1']), confidence := c,
             timestamp := t } := by
  have tpos : 0 < t.length := List.length_pos.mpr ht
  have p1 : indexOf (t ++ ',' :: (u ++ ',' :: (a ++ ',' :: (f ++ ',' :: c)))) ',' 0
      = (t.length : Int) := by
    have := indexOf_field [] t (u ++ ',' :: (a ++ ',' :: (f ++ ',' :: c))) h1
    simpa using this
  have e2 : t ++ ',' :: (u ++ ',' :: (a ++ ',' :: (f ++ ',' :: c)))
      = (t ++ [',']) ++ (u ++ ',' :: (a ++ ',' :: (f ++ ',' :: c))) := by simp
  have p2 : indexOf (t ++ ',' :: (u ++ ',' :: (a ++ ',' :: (f ++ ',' :: c)))) ','
      (t.length + 1) = ((t.length + 1 + u.length : Nat) : Int) := by
    have := indexOf_field (t ++ [',']) u (a ++ ',' :: (f ++ ',' :: c)) h2
    rw [← e2] at this
    simpa using this
  have e3 : t ++ ',' :: (u ++ ',' :: (a ++ ',' :: (f ++ ',' :: c)))
      = (t ++ ',' :: (u ++ [','])) ++ (a ++ ',' :: (f ++ ',' :: c)) := by simp
  have p3 : indexOf (t ++ ',' :: (u ++ ',' :: (a ++ ',' :: (f ++ ',' :: c)))) ','
      (t.length + 1 + u.length + 1) = ((t.length + 1 + u.length + 1 + a.length : Nat) : Int) := by
    have := indexOf_field (t ++ ',' :: (u ++ [','])) a (f ++ ',' :: c) h3
    rw [← e3] at this
    have hl : (t ++ ',' :: (u ++ [','])).length = t.length + 1 + u.length + 1 := by
      simp only [List.length_append, List.length_cons, List.length_nil]; omega
    rw [hl] at this
    exact this
  have e4 : t ++ ',' :: (u ++ ',' :: (a ++ ',' :: (f ++ ',' :: c)))
      = (t ++ ',' :: (u ++ ',' :: (a ++ [',']))) ++ (f ++ ',' :: c) := by simp
  have p4 : indexOf (t ++ ',' :: (u ++ ',' :: (a ++ ',' :: (f ++ ',' :: c)))) ','
      (t.length + 1 + u.length + 1 + a.length + 1)
      = ((t.length + 1 + u.length + 1 + a.length + 1 + f.length : Nat) : Int) := by
    have := indexOf_field (t ++ ',' :: (u ++ ',' :: (a ++ [',']))) f c h4
    rw [← e4] at this
    have hl : (t ++ ',' :: (u ++ ',' :: (a ++ [',']))).length
        = t.length + 1 + u.length + 1 + a.length + 1 := by
      simp only [List.length_append, List.length_cons, List.length_nil]; omega
    rw [hl] at this
    exact this
  have s1 : substring (t ++ ',' :: (u ++ ',' :: (a ++ ',' :: (f ++ ',' :: c)))) 0 t.length = t := by
    have := substring_field [] t (',' :: (u ++ ',' :: (a ++ ',' :: (f ++ ',' :: c))))
    simpa using this
  have s2 : substring (t ++ ',' :: (u ++ ',' :: (a ++ ',' :: (f ++ ',' :: c))))
      (t.length + 1) (t.length + 1 + u.length) = u := by
    have := substring_field (t ++ [',']) u (',' :: (a ++ ',' :: (f ++ ',' :: c)))
    rw [← e2] at this
    simpa using this
  have s3 : substring (t ++ ',' :: (u ++ ',' :: (a ++ ',' :: (f ++ ',' :: c))))
      (t.length + 1 + u.length + 1) (t.length + 1 + u.length + 1 + a.length) = a := by
    have := substring_field (t ++ ',' :: (u ++ [','])) a (',' :: (f ++ ',' :: c))
    rw [← e3] at this
    have hl : (t ++ ',' :: (u ++ [','])).length = t.length + 1 + u.length + 1 := by
      simp only [List.length_append, List.length_cons, List.length_nil]; omega
    rw [hl] at this
    exact this
  have s4 : substring (t ++ ',' :: (u ++ ',' :: (a ++ ',' :: (f ++ ',' :: c))))
      (t.length + 1 + u.length + 1 + a.length + 1)
      (t.length + 1 + u.length + 1 + a.length + 1 + f.length) = f := by
    have := substring_field (t ++ ',' :: (u ++ ',' :: (a ++ [',']))) f (',' :: c)
    rw [← e4] at this
    have hl : (t ++ ',' :: (u ++ ',' :: (a ++ [',']))).length
        = t.length + 1 + u.length + 1 + a.length + 1 := by
      simp only [List.length_append, List.length_cons, List.length_nil]; omega
    rw [hl] at this
    exact this
  have s5 : (t ++ ',' :: (u ++ ',' :: (a ++ ',' :: (f ++ ',' :: c)))).drop
      (t.length + 1 + u.length + 1 + a.length + 1 + f.length + 1) = c := by
    have e5 : t ++ ',' :: (u ++ ',' :: (a ++ ',' :: (f ++ ',' :: c)))
        = (t ++ ',' :: (u ++ ',' :: (a ++ ',' :: (f ++ [','])))) ++ c := by simp
    have hl : (t ++ ',' :: (u ++ ',' :: (a ++ ',' :: (f ++ [','])))).length
        = t.length + 1 + u.length + 1 + a.length + 1 + f.length + 1 := by
      simp only [List.length_append, List.length_cons, List.length_nil]; omega
    rw [e5, ← hl, List.drop_left]
  generalize t ++ ',' :: (u ++ ',' :: (a ++ ',' :: (f ++ ',' :: c))) = line at *
  unfold parseLine
  have q1 : ((t.length : Int) + 1).toNat = t.length + 1 := by omega
  have q2 : (((t.length + 1 + u.length : Nat) : Int) + 1).toNat
      = t.length + 1 + u.length + 1 := by omega
  have q3 : (((t.length + 1 + u.length + 1 + a.length : Nat) : Int) + 1).toNat
      = t.length + 1 + u.length + 1 + a.length + 1 := by omega
  have q4 : (((t.length + 1 + u.length + 1 + a.length + 1 + f.length : Nat) : Int) + 1).toNat
      = t.length + 1 + u.length + 1 + a.length + 1 + f.length + 1 := by omega
  simp only [p1, q1, p2, q2, p3, q3, p4, q4, Int.toNat_ofNat, s1, s2, s3, s4, s5]
  rw [if_pos (by omega)]

/-- The CSV line of a record, field by field. -/
theorem csv_fields (r : ActivityLog) :
    r.csv = (toString r.timestamp).data ++ ',' :: (r.username.data ++ ',' :: (r.action.data
      ++ ',' :: ((if r.success then ['1'] else ['0']) ++ ',' :: formatFixed2 r.confidence))) := by
  unfold ActivityLog.csv csvLine
  rw [List.dropLast_concat]
  simp only [List.append_assoc, List.singleton_append, List.cons_append, List.nil_append]

/-- Parsing the CSV line of a record whose name and action hold no comma gives
the fields that were printed. -/
theorem parseLine_csv (r : ActivityLog) (hu : ',' ∉ r.username.data)
    (ha : ',' ∉ r.action.data) : parseLine r.csv = some r.csvJson := by
  obtain ⟨n1, n2⟩ := decimal_plain r.timestamp
  rw [csv_fields, parseLine_fields _ _ _ _ _ n1 (fun hc => (n2 _ hc).2.2 rfl) hu ha
    (by cases r.success <;> decide)]
  unfold ActivityLog.csvJson
  cases r.success <;> rfl

/-- Examples of `String(value, 2)`. The tie 0.125 is printed as "0.13": `dtostrf`
adds 0.005 and cuts the digits off, where `%.2f` rounds the tie to the even digit.
The tie 0.375 is printed as "0.37": the sum 0.375 + 0.005 is the `double` next to
0.38, its product with 10 is the `double` next to 3.8, which lies below 3.8, and
the rest behind the digit 3 gives the digit 7. -/
theorem stringOfFloat_examples :
    stringOfFloat (1 / 8) 2 = "0.13".data ∧ formatFixed2 (1 / 8) = "0.12".data ∧
    stringOfFloat (3 / 8) 2 = "0.37".data ∧ formatFixed2 (3 / 8) = "0.38".data ∧
    stringOfFloat (95 / 100) 2 = "0.95".data ∧ formatFixed2 (95 / 100) = "0.95".data ∧
    stringOfFloat 1 2 = "1.00".data ∧ stringOfFloat 0 2 = "0.00".data := by
  decide!

/-- Without the two opens of the rewrite, `trimSDLogFile` leaves the store as it is. -/
theorem trimSDLogFile_closed (io : SdIo) (s : LogStore)
    (h : io.readOpens = false ∨ io.writeOpens = false) : trimSDLogFile io s = s := by
  unfold trimSDLogFile
  by_cases h0 : (!s.sdCardReady) = true
  · rw [if_pos h0]
  · rw [if_neg h0]
    cases s.sdLogFile with
    | none => rfl
    | some text =>
      show (if (!io.readOpens) = true then s else _) = s
      rcases h with h | h
      · rw [if_pos (by rw [h]; rfl)]
      · split_ifs <;> first | rfl | simp_all

/-- The grant leaves the log as `logActivity` leaves the log of before. -/
theorem granted_log (s : State) (inp : CycleInput) :
    (s.granted inp).log =
      logActivity inp.sd inp.logTime inp.matchName "ACCESS_GRANTED" true inp.similarity s.log := by
  simp [State.granted, State.logActivity, unlockDoor, resetGate, resetLivenessTracking]

/-- The entries of the log file after a durable `logActivity` on a file that is a
header followed by entries: former entries, the oldest ones possibly dropped,
followed by the line of the record; fewer than `MAX_SD_LOGS` former entries are
left when the rewrite of `trimSDLogFile` can open the file. -/
theorem logActivity_entries (io : SdIo) (r : ActivityLog) (s : LogStore)
    (text hdr : List Char) (ents : List (List Char))
    (ha : io.appendOpens = true) (hready : s.sdCardReady = true)
    (hfile : s.sdLogFile = some text) (h : FileRep text hdr ents) (hone : r.OneLine) :
    ∃ text2 k,
      (logActivity io r.timestamp r.username r.action r.success r.confidence s).sdLogFile
        = some text2 ∧
      sdEntries text2 = ents.drop k ++ [r.csv] ∧
      (io.readOpens = true → io.writeOpens = true → (ents.drop k).length < MAX_SD_LOGS) ∧
      (ents.drop k).length ≤ ents.length := by
  by_cases hrw : io.readOpens = true ∧ io.writeOpens = true
  · obtain ⟨text2, hf2, hlt, hge⟩ := logActivity_fileRep io r s text hdr ents ha hrw.1 hrw.2
      hready hfile h hone
    by_cases hc : ents.length < MAX_SD_LOGS
    · refine ⟨text2, 0, hf2, ?_, fun _ _ => ?_, ?_⟩
      · rw [(fileRep_header _ _ _ (hlt hc)).2, List.drop_zero]
      · rw [List.drop_zero]; exact hc
      · rw [List.drop_zero]
    · have hk : ents.length + 1 - MAX_SD_LOGS ≤ ents.length := by
        unfold MAX_SD_LOGS at *
        omega
      refine ⟨text2, ents.length + 1 - MAX_SD_LOGS, hf2, ?_, fun _ _ => ?_, ?_⟩
      · rw [(fileRep_header _ _ _ (hge (not_lt.mp hc))).2, List.drop_append_of_le_length hk]
      · rw [List.length_drop]
        unfold MAX_SD_LOGS at *
        omega
      · rw [List.length_drop]
        omega
  · have hcl : io.readOpens = false ∨ io.writeOpens = false := by
      cases h1 : io.readOpens
      · exact Or.inl rfl
      · cases h2 : io.writeOpens
        · exact Or.inr rfl
        · exact absurd ⟨h1, h2⟩ hrw
    have e : (logActivity io r.timestamp r.username r.action r.success r.confidence s).sdLogFile
        = some (text ++ (r.csv ++ ['\n'])) := by
      unfold logActivity
      rw [if_pos hready, if_pos ha, trimSDLogFile_closed _ _ hcl, hfile, csvLine_eq]
      rfl
    refine ⟨_, 0, e, ?_, fun h1 h2 => ?_, ?_⟩
    · rw [(fileRep_header _ _ _ (fileRep_append text hdr ents r.csv h (csv_clean r hone))).2,
        List.drop_zero]
    · rcases hcl with h | h
      · rw [h] at h1; cases h1
      · rw [h] at h2; cases h2
    · rw [List.drop_zero]

/-- A durable `logActivity` of a record on one line on a card without a log file
leaves a file that holds the CSV line of the record and nothing else. -/
theorem logActivity_no_file (io : SdIo) (r : ActivityLog) (s : LogStore)
    (ha : io.appendOpens = true) (hready : s.sdCardReady = true)
    (hfile : s.sdLogFile = none) (hone : r.OneLine) :
    (logActivity io r.timestamp r.username r.action r.success r.confidence s).sdLogFile
      = some (csvLine r.timestamp r.username r.action r.success r.confidence) := by
  have hrep : FileRep (csvLine r.timestamp r.username r.action r.success r.confidence) r.csv [] := by
    refine ⟨(csv_clean r hone).1, by simp, [], ?_, by simp, rfl⟩
    rw [csvLine_eq]
    simp [fileText]
  have e : logActivity io r.timestamp r.username r.action r.success r.confidence s =
      trimSDLogFile io
        { s with
          sdLogFile := some (csvLine r.timestamp r.username r.action r.success r.confidence) } := by
    unfold logActivity
    rw [if_pos hready, if_pos ha, hfile]
    rfl
  rw [e]
  by_cases hrw : io.readOpens = true ∧ io.writeOpens = true
  · rw [(trimSDLogFile_fileRep io
      { s with
        sdLogFile := some (csvLine r.timestamp r.username r.action r.success r.confidence) }
      _ r.csv [] hrw.1 hrw.2 hready rfl hrep).1 (Nat.zero_le _)]
  · have hcl : io.readOpens = false ∨ io.writeOpens = false := by
      cases h1 : io.readOpens
      · exact Or.inl rfl
      · cases h2 : io.writeOpens
        · exact Or.inr rfl
        · exact absurd ⟨h1, h2⟩ hrw
    rw [trimSDLogFile_closed _ _ hcl]

/-- Every call of `logActivity` stores its record. -/
theorem logActivity_stored (io : SdIo) (ts : Nat) (u a : String) (ok : Bool) (c : Rat)
    (s : LogStore) :
    RecordStored io ⟨u, a, ok, c, ts⟩ s (logActivity io ts u a ok c s) := by
  refine ⟨logActivity_sdCardReady io ts u a ok c s, ?_, ?_⟩
  · intro h1 h2
    have e : logActivity io ts u a ok c s =
        trimSDLogFile io { s with sdLogFile := some (s.sdLogFile.getD [] ++ csvLine ts u a ok c) } := by
      unfold logActivity
      rw [if_pos h1, if_pos h2]
    obtain ⟨r1, r2, r3, -⟩ := trimSDLogFile_ram io
      { s with sdLogFile := some (s.sdLogFile.getD [] ++ csvLine ts u a ok c) }
    refine ⟨by rw [e], ?_, ?_, ?_, ?_, ?_⟩
    · intro hone hnone
      exact logActivity_no_file io ⟨u, a, ok, c, ts⟩ s h2 h1 hnone hone
    · intro text hdr ents hone hfile hrep
      obtain ⟨text2, k, q1, q2, -, -⟩ :=
        logActivity_entries io ⟨u, a, ok, c, ts⟩ s text hdr ents h2 h1 hfile hrep hone
      exact ⟨text2, k, q1, q2⟩
    · rw [e]; exact r1
    · rw [e]; exact r2
    · rw [e]; exact r3
  · intro h
    have hf : s.sdCardReady = false ∨ io.appendOpens = false := by
      cases h1 : s.sdCardReady
      · exact Or.inl rfl
      · cases h2 : io.appendOpens
        · exact Or.inr rfl
        · exact absurd ⟨h1, h2⟩ h
    rw [logActivity_fallback io ts u a ok c s hf]
    exact ⟨rfl, rfl, rfl, rfl⟩

/-! ## Theorems -/

/-- The example state `midStreakState` is the state after the cycles `alice1` and
`alice2` from the idle state. -/
theorem midStreakState_reached : runCycles [alice1, alice2] idleState = midStreakState := by
  decide!

/-- C1: from the idle state (no candidate, count 0), fewer than
`RECOGNITION_CONFIRM_COUNT` (3) calls of `handleRecognition` that each report a
detected face with the same identity at a similarity not below
`RECOGNITION_THRESHOLD` make no `unlockDoor` call and no `logActivity` call (so no
"ACCESS_GRANTED" record); the log and the door are unchanged. -/
theorem no_grant_before_confirmation (X : String) (inputs : List CycleInput) (s : State)
    (hlen : inputs.length < RECOGNITION_CONFIRM_COUNT)
    (hidle : s.lastConfirmedUser = "" ∧ s.consecutiveMatches = 0)
    (hsame : ∀ inp ∈ inputs, inp.captureOk = true ∧ inp.detectOk = true ∧
      inp.recognizeOk = true ∧ inp.matchName = X ∧ RECOGNITION_THRESHOLD ≤ inp.similarity) :
    (runCycles inputs s).calls = s.calls ∧
    (runCycles inputs s).log = s.log ∧
    (runCycles inputs s).isDoorUnlocked = s.isDoorUnlocked ∧
    (runCycles inputs s).doorUnlockTime = s.doorUnlockTime ∧
    (runCycles inputs s).doorRelayPin = s.doorRelayPin := by
  have key : ∀ (l : List CycleInput) (u : State),
      u.consecutiveMatches + l.length < RECOGNITION_CONFIRM_COUNT →
      (∀ inp ∈ l, inp.recognizeOk = true ∧ RECOGNITION_THRESHOLD ≤ inp.similarity) →
      (runCycles l u).calls = u.calls ∧ (runCycles l u).log = u.log ∧
      (runCycles l u).isDoorUnlocked = u.isDoorUnlocked ∧
      (runCycles l u).doorUnlockTime = u.doorUnlockTime ∧
      (runCycles l u).doorRelayPin = u.doorRelayPin := by
    intro l
    induction l with
    | nil => intro u _ _; exact ⟨rfl, rfl, rfl, rfl, rfl⟩
    | cons inp rest ih =>
      intro u hu hin
      have hi := hin inp (List.mem_cons_self _ _)
      have hlen' : rest.length + 1 = (inp :: rest).length := rfl
      obtain ⟨q1, q2, q3, q4, q5, q6⟩ := quiet_cycle inp u hi.1 hi.2 (by omega)
      obtain ⟨r1, r2, r3, r4, r5⟩ := ih (handleRecognition inp u).1 (by omega)
        (fun i hmem => hin i (List.mem_cons_of_mem _ hmem))
      show (runCycles rest (handleRecognition inp u).1).calls = u.calls ∧ _
      exact ⟨r1.trans q2, r2.trans q3, r3.trans q4, r4.trans q5, r5.trans q6⟩
  exact key inputs s (by rw [hidle.2]; omega)
    (fun inp hmem => ⟨(hsame inp hmem).2.2.1, (hsame inp hmem).2.2.2.2⟩)

theorem no_grant_before_confirmation_witness :
    (runCycles [alice1, alice2] idleState).calls = idleState.calls ∧
    (runCycles [alice1, alice2] idleState).log = idleState.log ∧
    (runCycles [alice1, alice2] idleState).isDoorUnlocked = idleState.isDoorUnlocked ∧
    (runCycles [alice1, alice2] idleState).doorUnlockTime = idleState.doorUnlockTime ∧
    (runCycles [alice1, alice2] idleState).doorRelayPin = idleState.doorRelayPin :=
  no_grant_before_confirmation "alice" [alice1, alice2] idleState (by decide) (by decide)
    (by decide!)

/-- C2: let the cool-down record hold the recognised identity and the time `t` of
its last grant, and let a cycle taken `e` milliseconds later (clock value
`(t + e) mod 2^32`) get behind the liveness check. If `e` is below
`SAME_USER_COOLDOWN` (for instance half of it) the cycle makes no call and leaves
the log, the door and the cool-down record alone; if `e` is `SAME_USER_COOLDOWN`
or more (for instance `SAME_USER_COOLDOWN + 1`) the door is unlocked and the
record (identity, "ACCESS_GRANTED", success, similarity) is stored in the log: at
the end of the log file, or in the slot under the cursor of the in-memory
buffer. -/
theorem cooldown_window (inp : CycleInput) (s : State) (t e : Nat)
    (hlive : (handleRecognition inp s).2 = Outcome.cooldown ∨
      (handleRecognition inp s).2 = Outcome.accessGranted)
    (huser : s.lastAccessUser = inp.matchName) (htime : s.lastAccessTime = t)
    (ht : t < U32) (he : e < U32) (hnow : inp.now = (t + e) % U32) :
    (e < SAME_USER_COOLDOWN →
      (handleRecognition inp s).2 = Outcome.cooldown ∧
      (handleRecognition inp s).1.calls = s.calls ∧
      (handleRecognition inp s).1.log = s.log ∧
      (handleRecognition inp s).1.isDoorUnlocked = s.isDoorUnlocked ∧
      (handleRecognition inp s).1.doorUnlockTime = s.doorUnlockTime ∧
      (handleRecognition inp s).1.doorRelayPin = s.doorRelayPin ∧
      (handleRecognition inp s).1.lastAccessUser = s.lastAccessUser ∧
      (handleRecognition inp s).1.lastAccessTime = s.lastAccessTime) ∧
    (SAME_USER_COOLDOWN ≤ e →
      (handleRecognition inp s).2 = Outcome.accessGranted ∧
      (handleRecognition inp s).1.calls =
        s.calls ++ [Call.unlockDoor inp.matchName,
          Call.logActivity inp.matchName "ACCESS_GRANTED" true inp.similarity] ∧
      (handleRecognition inp s).1.isDoorUnlocked = true ∧
      (handleRecognition inp s).1.lastAccessUser = inp.matchName ∧
      (handleRecognition inp s).1.lastAccessTime = inp.now ∧
      RecordStored inp.sd ⟨inp.matchName, "ACCESS_GRANTED", true, inp.similarity, inp.logTime⟩
        s.log (handleRecognition inp s).1.log) := by
  obtain ⟨p, hp, hsame, hcount, hl⟩ := live_inv hlive
  obtain ⟨h1, h2, h3, h4, h5, h6, h7, h8, h9, h10, h11, h12, h13⟩ := counted_same_fields p hsame
  have hd : millisDiff inp.now (s.counted inp p).lastAccessTime = e := by
    rw [h9, htime, hnow]; exact millisDiff_add t e ht he
  constructor
  · intro hlt
    have hc : CooldownActive inp (s.counted inp p) :=
      ⟨by rw [h8, huser], by rw [hd]; exact hlt⟩
    rw [hp, decideAccess_cooldown hcount hl hc]
    exact ⟨rfl, h1, h2, h10, h11, h12, h8, h9⟩
  · intro hge
    have hc : ¬ CooldownActive inp (s.counted inp p) := by
      rintro ⟨-, hlt⟩
      rw [hd] at hlt
      exact absurd hlt (not_lt.mpr hge)
    rw [hp, decideAccess_granted hcount hl hc]
    refine ⟨rfl, ?_, rfl, rfl, rfl, ?_⟩
    · simp [State.granted, State.logActivity, unlockDoor, resetGate, resetLivenessTracking, h1]
    · show RecordStored _ _ _ ((s.counted inp p).granted inp).log
      rw [granted_log, h2]
      have hs := logActivity_stored inp.sd inp.logTime inp.matchName "ACCESS_GRANTED" true inp.similarity s.log
      refine ⟨hs.1, hs.2.1, fun hno => ?_⟩
      unfold logActivity
      by_cases hr : s.log.sdCardReady = true
      · rw [if_pos hr, if_neg (fun hio => hno ⟨hr, hio⟩)]
        exact ⟨rfl, rfl, rfl, rfl⟩
      · rw [if_neg hr]
        exact ⟨rfl, rfl, rfl, rfl⟩

theorem cooldown_window_witness :
    ((handleRecognition alice4 cooledState).2 = Outcome.cooldown ∧
      (handleRecognition alice4 cooledState).1.calls = cooledState.calls ∧
      (handleRecognition alice4 cooledState).1.log = cooledState.log) ∧
    ((handleRecognition alice4Late cooledState).2 = Outcome.accessGranted ∧
      (handleRecognition alice4Late cooledState).1.calls =
        cooledState.calls ++ [Call.unlockDoor "alice",
          Call.logActivity "alice" "ACCESS_GRANTED" true (95 / 100)] ∧
      (handleRecognition alice4Late cooledState).1.log.ramLogBuffer =
        [⟨"alice", "DENIED_LIVENESS_FAIL", false, 95 / 100, 3000⟩,
          ⟨"alice", "ACCESS_GRANTED", true, 95 / 100, 7101⟩,
          ActivityLog.zero, ActivityLog.zero, ActivityLog.zero] ∧
      (handleRecognition alice4Late cooledState).1.log.ramLogCount = 2) :=
  have h1 := (cooldown_window alice4 cooledState 1500 2500 (by decide!) (by decide!) (by decide!)
    (by decide) (by decide) (by decide)).1 (by decide)
  have h2 := (cooldown_window alice4Late cooledState 1500 5001 (by decide!) (by decide!)
    (by decide!) (by decide) (by decide) (by decide)).2 (by decide)
  ⟨⟨h1.1, h1.2.1, h1.2.2.1⟩,
   ⟨h2.1, h2.2.1, ((h2.2.2.2.2.2.2.2 (by decide!)).2.1).trans (by decide!),
     ((h2.2.2.2.2.2.2.2 (by decide!)).2.2.2).trans (by decide!)⟩⟩

/-- C3: a cycle that ends in the grant for the recognised identity leaves behind:
one `unlockDoor` call followed by one `logActivity` call with the record
(identity, "ACCESS_GRANTED", success, similarity); the door unlocked at `now`; the
cool-down record (identity, `now`); no candidate and count 0; an empty liveness
window (count 0, cursor 0, every slot invalid); and the log with that one record
stored: its CSV line at the end of the log file (which `trimSDLogFile` then may
cut at the front), or the record in the slot under the cursor of the in-memory
buffer, the other store as before. -/
theorem grant_post_state (inp : CycleInput) (s : State)
    (h : (handleRecognition inp s).2 = Outcome.accessGranted)
    (hlen : s.faceHistory.length = LIVENESS_CHECK_COUNT) :
    (handleRecognition inp s).1.calls =
      s.calls ++ [Call.unlockDoor inp.matchName,
        Call.logActivity inp.matchName "ACCESS_GRANTED" true inp.similarity] ∧
    (handleRecognition inp s).1.isDoorUnlocked = true ∧
    (handleRecognition inp s).1.doorRelayPin = true ∧
    (handleRecognition inp s).1.doorUnlockTime = inp.now ∧
    (handleRecognition inp s).1.lastAccessUser = inp.matchName ∧
    (handleRecognition inp s).1.lastAccessTime = inp.now ∧
    (handleRecognition inp s).1.lastConfirmedUser = "" ∧
    (handleRecognition inp s).1.consecutiveMatches = 0 ∧
    (handleRecognition inp s).1.faceHistoryCount = 0 ∧
    (handleRecognition inp s).1.faceHistoryIndex = 0 ∧
    AllInvalid (handleRecognition inp s).1.faceHistory ∧
    (handleRecognition inp s).1.log =
      logActivity inp.sd inp.logTime inp.matchName "ACCESS_GRANTED" true inp.similarity s.log ∧
    RecordStored inp.sd ⟨inp.matchName, "ACCESS_GRANTED", true, inp.similarity, inp.logTime⟩
      s.log (handleRecognition inp s).1.log := by
  obtain ⟨p, e, hsame, -, -, -⟩ := granted_inv h
  obtain ⟨hcalls, hlog, -, -, hhist, -⟩ := counted_same_fields p hsame
  have hl : (s.counted inp p).faceHistory.length = LIVENESS_CHECK_COUNT := by
    rw [hhist]; simp [recordFace, hlen]
  have hinv := (resetLivenessTracking_allInvalid hl).1
  rw [e]
  refine ⟨?_, rfl, rfl, rfl, rfl, rfl, rfl, rfl, rfl, rfl, ?_, ?_, ?_⟩
  · simp [State.granted, State.logActivity, unlockDoor, resetGate, resetLivenessTracking, hcalls]
  · simpa [State.granted, State.logActivity, unlockDoor, resetGate, resetLivenessTracking]
      using hinv
  · simp [State.granted, State.logActivity, unlockDoor, resetGate, resetLivenessTracking, hlog]
  · show RecordStored _ _ _ ((s.counted inp p).granted inp).log
    rw [granted_log, hlog]
    have hs := logActivity_stored inp.sd inp.logTime inp.matchName "ACCESS_GRANTED" true inp.similarity s.log
    refine ⟨hs.1, hs.2.1, fun hno => ?_⟩
    unfold logActivity
    by_cases hr : s.log.sdCardReady = true
    · rw [if_pos hr, if_neg (fun hio => hno ⟨hr, hio⟩)]
      exact ⟨rfl, rfl, rfl, rfl⟩
    · rw [if_neg hr]
      exact ⟨rfl, rfl, rfl, rfl⟩

theorem grant_post_state_witness :
    ((handleRecognition alice4 readyState).1.calls =
      readyState.calls ++ [Call.unlockDoor "alice",
        Call.logActivity "alice" "ACCESS_GRANTED" true (95 / 100)] ∧
    (handleRecognition alice4 readyState).1.isDoorUnlocked = true ∧
    (handleRecognition alice4 readyState).1.doorRelayPin = true ∧
    (handleRecognition alice4 readyState).1.doorUnlockTime = 4000 ∧
    (handleRecognition alice4 readyState).1.lastAccessUser = "alice" ∧
    (handleRecognition alice4 readyState).1.lastAccessTime = 4000 ∧
    (handleRecognition alice4 readyState).1.lastConfirmedUser = "" ∧
    (handleRecognition alice4 readyState).1.consecutiveMatches = 0 ∧
    (handleRecognition alice4 readyState).1.faceHistoryCount = 0 ∧
    (handleRecognition alice4 readyState).1.faceHistoryIndex = 0 ∧
    AllInvalid (handleRecognition alice4 readyState).1.faceHistory ∧
    (handleRecognition alice4 readyState).1.log =
      logActivity alice4.sd 4600 "alice" "ACCESS_GRANTED" true (95 / 100) readyState.log ∧
    RecordStored alice4.sd ⟨"alice", "ACCESS_GRANTED", true, 95 / 100, 4600⟩
      readyState.log (handleRecognition alice4 readyState).1.log) ∧
    (handleRecognition alice4 readyState).1.log.ramLogBuffer =
      [⟨"alice", "DENIED_LIVENESS_FAIL", false, 95 / 100, 3000⟩,
        ⟨"alice", "ACCESS_GRANTED", true, 95 / 100, 4600⟩,
        ActivityLog.zero, ActivityLog.zero, ActivityLog.zero] ∧
    (handleRecognition alice4 readyState).1.log.ramLogCount = 2 ∧
    (handleRecognition alice4 readyCardState).1.log.sdLogFile =
      some (println logHeader ++ "4600,alice,ACCESS_GRANTED,1,0.95\n".data) ∧
    (handleRecognition alice4 readyCardState).1.log.ramLogCount = 0 :=
  have h1 := grant_post_state alice4 readyState (by decide!) (by decide!)
  have h2 := grant_post_state alice4 readyCardState (by decide!) (by decide!)
  have r1 := h1.2.2.2.2.2.2.2.2.2.2.2.2.2.2 (by decide!)
  have r2 := h2.2.2.2.2.2.2.2.2.2.2.2.2.2.1 (by decide!) (by decide!)
  ⟨h1, r1.2.1.trans (by decide!), r1.2.2.2.trans (by decide!), r2.1.trans (by decide!),
    r2.2.2.2.2.2.trans (by decide!)⟩

/-- C4, counterexample: a cycle with a frame and no face, taken in the middle of a
streak, leaves the candidate "alice" and the count 2 in place. -/
theorem no_face_cycle_counterexample :
    PollDue noFaceInput midStreakState ∧ noFaceInput.captureOk = true ∧
    noFaceInput.detectOk = false ∧
    (handleRecognition noFaceInput midStreakState).2 = Outcome.noFace ∧
    ¬ ((handleRecognition noFaceInput midStreakState).1.lastConfirmedUser = "" ∧
       (handleRecognition noFaceInput midStreakState).1.consecutiveMatches = 0) := by
  decide

/-- C4, amended: a polling cycle with a frame and no face empties the liveness
window (count 0, cursor 0, every slot invalid) and leaves the candidate identity
and the consecutive-match count as they were; it makes no call. -/
theorem no_face_cycle (inp : CycleInput) (s : State) (hdue : PollDue inp s)
    (hcap : inp.captureOk = true) (hdet : inp.detectOk = false)
    (hlen : s.faceHistory.length = LIVENESS_CHECK_COUNT) :
    (handleRecognition inp s).2 = Outcome.noFace ∧
    (handleRecognition inp s).1.faceHistoryCount = 0 ∧
    (handleRecognition inp s).1.faceHistoryIndex = 0 ∧
    AllInvalid (handleRecognition inp s).1.faceHistory ∧
    (handleRecognition inp s).1.lastConfirmedUser = s.lastConfirmedUser ∧
    (handleRecognition inp s).1.consecutiveMatches = s.consecutiveMatches ∧
    (handleRecognition inp s).1.calls = s.calls := by
  obtain ⟨p, hp⟩ := handleRecognition_of_due hdue
  have e : handleRecognition inp s =
      (resetLivenessTracking (s.polled inp.now p), Outcome.noFace) := by
    rw [hp]; simp [hcap, hdet]
  rw [e]
  have hl : (s.polled inp.now p).faceHistory.length = LIVENESS_CHECK_COUNT := hlen
  refine ⟨rfl, rfl, rfl, (resetLivenessTracking_allInvalid hl).1, rfl, rfl, rfl⟩

theorem no_face_cycle_witness :
    (handleRecognition noFaceInput midStreakState).2 = Outcome.noFace ∧
    (handleRecognition noFaceInput midStreakState).1.faceHistoryCount = 0 ∧
    (handleRecognition noFaceInput midStreakState).1.faceHistoryIndex = 0 ∧
    AllInvalid (handleRecognition noFaceInput midStreakState).1.faceHistory ∧
    (handleRecognition noFaceInput midStreakState).1.lastConfirmedUser = "alice" ∧
    (handleRecognition noFaceInput midStreakState).1.consecutiveMatches = 2 ∧
    (handleRecognition noFaceInput midStreakState).1.calls = midStreakState.calls :=
  no_face_cycle noFaceInput midStreakState (by decide) (by decide) (by decide) (by decide)

/-- C5, counterexample: in the middle of a streak on "alice", a polling cycle
whose recogniser names the face "unknown" with similarity 0.95 (a non-empty name,
not the candidate, at a similarity above the threshold) does not make that name
the candidate with count 1: the guard of line 1285 leaves no candidate, count 0
and an empty window. -/
theorem new_identity_counterexample :
    PollDue unknownHighInput midStreakState ∧ unknownHighInput.captureOk = true ∧
    unknownHighInput.detectOk = true ∧ midStreakState.totalUsers ≠ 0 ∧
    unknownHighInput.recognizeOk = true ∧ unknownHighInput.matchName.length ≠ 0 ∧
    RECOGNITION_THRESHOLD ≤ unknownHighInput.similarity ∧
    unknownHighInput.matchName ≠ midStreakState.lastConfirmedUser ∧
    (handleRecognition unknownHighInput midStreakState).2 = Outcome.nameUnknown ∧
    (handleRecognition unknownHighInput midStreakState).1.lastConfirmedUser = "" ∧
    (handleRecognition unknownHighInput midStreakState).1.consecutiveMatches = 0 ∧
    (handleRecognition unknownHighInput midStreakState).1.faceHistoryCount = 0 ∧
    ¬ ((handleRecognition unknownHighInput midStreakState).1.lastConfirmedUser =
        unknownHighInput.matchName ∧
      (handleRecognition unknownHighInput midStreakState).1.consecutiveMatches = 1 ∧
      (handleRecognition unknownHighInput midStreakState).1.faceHistoryCount = 1) := by
  decide!

/-- C5, amended: a polling cycle (with a user enrolled) whose recogniser matches
the face at a similarity not below `RECOGNITION_THRESHOLD` under a name that is
not empty, not "empty" and not "unknown", and that differs from the candidate,
makes the new identity the candidate with count 1 and leaves in the liveness
window exactly the current sample: count 1, cursor 1, slot 0 the current sample,
the other slots invalid. -/
theorem new_identity_restarts_streak (inp : CycleInput) (s : State) (hdue : PollDue inp s)
    (hcap : inp.captureOk = true) (hdet : inp.detectOk = true) (husers : s.totalUsers ≠ 0)
    (hrec : inp.recognizeOk = true) (hname : UsableName inp.matchName)
    (hconf : RECOGNITION_THRESHOLD ≤ inp.similarity)
    (hnew : inp.matchName ≠ s.lastConfirmedUser)
    (hlen : s.faceHistory.length = LIVENESS_CHECK_COUNT) :
    (handleRecognition inp s).1.lastConfirmedUser = inp.matchName ∧
    (handleRecognition inp s).1.consecutiveMatches = 1 ∧
    (handleRecognition inp s).1.faceHistoryCount = 1 ∧
    (handleRecognition inp s).1.faceHistoryIndex = 1 ∧
    (handleRecognition inp s).1.faceHistory.head? = some inp.currentPos ∧
    AllInvalid (handleRecognition inp s).1.faceHistory.tail ∧
    (handleRecognition inp s).1.faceHistory.length = LIVENESS_CHECK_COUNT := by
  obtain ⟨p, hp⟩ := handleRecognition_accepted hdue hcap hdet husers hrec hname hconf
  obtain ⟨h1, h2, h3, h4, h5, -, -⟩ := counted_other p hnew
  have e : handleRecognition inp s = (s.counted inp p, Outcome.awaitingConfirmation) := by
    rw [hp]
    unfold decideAccess
    simp [h1, RECOGNITION_CONFIRM_COUNT]
  rw [e]
  have hl : (recordFace inp.currentPos s).faceHistory.length = LIVENESS_CHECK_COUNT := by
    simp [recordFace, hlen]
  obtain ⟨a, b, c, d, hh⟩ := length_eq_four hl
  refine ⟨h2, h1, h3, h4, ?_, ?_, ?_⟩ <;>
    simp [h5, resetLivenessTracking_faceHistory hh, AllInvalid, LIVENESS_CHECK_COUNT]

theorem new_identity_restarts_streak_witness :
    (handleRecognition bobInput midStreakState).1.lastConfirmedUser = "bob" ∧
    (handleRecognition bobInput midStreakState).1.consecutiveMatches = 1 ∧
    (handleRecognition bobInput midStreakState).1.faceHistoryCount = 1 ∧
    (handleRecognition bobInput midStreakState).1.faceHistoryIndex = 1 ∧
    (handleRecognition bobInput midStreakState).1.faceHistory.head? = some bobInput.currentPos ∧
    AllInvalid (handleRecognition bobInput midStreakState).1.faceHistory.tail ∧
    (handleRecognition bobInput midStreakState).1.faceHistory.length = LIVENESS_CHECK_COUNT :=
  new_identity_restarts_streak bobInput midStreakState (by decide) (by decide) (by decide)
    (by decide) (by decide) (by decide) (by decide!) (by decide) (by decide)

/-- C6: in a polling cycle whose accepted identity is the current candidate, the
count that is compared with `RECOGNITION_CONFIRM_COUNT` is the previous count plus
one, with the candidate unchanged; the cycle waits for more confirmations exactly
when that sum is below the required count, and the sum is what the state keeps
unless the cycle ends in a grant. -/
theorem same_identity_counts_one (inp : CycleInput) (s : State) (hdue : PollDue inp s)
    (hcap : inp.captureOk = true) (hdet : inp.detectOk = true) (husers : s.totalUsers ≠ 0)
    (hrec : inp.recognizeOk = true) (hname : UsableName inp.matchName)
    (hconf : RECOGNITION_THRESHOLD ≤ inp.similarity)
    (hsame : inp.matchName = s.lastConfirmedUser) :
    (∃ p, handleRecognition inp s = decideAccess inp (s.counted inp p) ∧
      (s.counted inp p).consecutiveMatches = s.consecutiveMatches + 1 ∧
      (s.counted inp p).lastConfirmedUser = s.lastConfirmedUser) ∧
    ((handleRecognition inp s).2 = Outcome.awaitingConfirmation ↔
      s.consecutiveMatches + 1 < RECOGNITION_CONFIRM_COUNT) ∧
    ((handleRecognition inp s).2 ≠ Outcome.accessGranted →
      (handleRecognition inp s).1.consecutiveMatches = s.consecutiveMatches + 1 ∧
      (handleRecognition inp s).1.lastConfirmedUser = s.lastConfirmedUser) := by
  obtain ⟨p, hp⟩ := handleRecognition_accepted hdue hcap hdet husers hrec hname hconf
  have hc : (s.counted inp p).consecutiveMatches = s.consecutiveMatches + 1 := by
    rw [counted_same p hsame]
  have hu : (s.counted inp p).lastConfirmedUser = s.lastConfirmedUser := by
    rw [counted_same p hsame]; rfl
  refine ⟨⟨p, hp, hc, hu⟩, ?_, ?_⟩
  · rw [hp, ← hc]
    rcases decideAccess_cases inp (s.counted inp p) with ⟨h, e⟩ | ⟨h, -, e⟩ | ⟨h, -, -, e⟩ |
      ⟨h, -, -, e⟩ <;> rw [e] <;> simp [h]
  · rw [hp]
    rcases decideAccess_cases inp (s.counted inp p) with ⟨h, e⟩ | ⟨h, -, e⟩ | ⟨h, -, -, e⟩ |
      ⟨h, -, -, e⟩ <;> rw [e] <;> simp [hc, hu, State.logActivity]

theorem same_identity_counts_one_witness :
    (∃ p, handleRecognition alice3 midStreakState =
        decideAccess alice3 (midStreakState.counted alice3 p) ∧
      (midStreakState.counted alice3 p).consecutiveMatches = 2 + 1 ∧
      (midStreakState.counted alice3 p).lastConfirmedUser = "alice") ∧
    ((handleRecognition alice3 midStreakState).2 = Outcome.awaitingConfirmation ↔
      2 + 1 < RECOGNITION_CONFIRM_COUNT) ∧
    ((handleRecognition alice3 midStreakState).2 ≠ Outcome.accessGranted →
      (handleRecognition alice3 midStreakState).1.consecutiveMatches = 2 + 1 ∧
      (handleRecognition alice3 midStreakState).1.lastConfirmedUser = "alice") :=
  same_identity_counts_one alice3 midStreakState (by decide) (by decide) (by decide)
    (by decide) (by decide) (by decide) (by decide!) (by decide)

/-- C7, counterexample: a polling cycle on a detected face for which the recogniser
answers with the name "unknown" appends no record at all: the log is as before
and no `logActivity` call is made. -/
theorem rejected_identity_cycle_counterexample :
    PollDue unknownInput midStreakState ∧ unknownInput.captureOk = true ∧
    unknownInput.detectOk = true ∧ midStreakState.totalUsers ≠ 0 ∧
    unknownInput.recognizeOk = true ∧ unknownInput.matchName = "unknown" ∧
    (handleRecognition unknownInput midStreakState).1.log = midStreakState.log ∧
    ¬ ∃ c, (handleRecognition unknownInput midStreakState).1.calls =
        midStreakState.calls ++ [c] := by
  refine ⟨by decide, by decide, by decide, by decide, by decide, by decide, by decide, ?_⟩
  rintro ⟨c, hc⟩
  have h : (handleRecognition unknownInput midStreakState).1.calls = [] := by decide
  rw [h] at hc
  simp at hc

/-- C7, amended: a polling cycle (with a user enrolled) on a detected face that the
recogniser does not match, or names with an empty, "empty" or "unknown" name, or
matches below `RECOGNITION_THRESHOLD`, resets the gate to no candidate and count 0
and empties the liveness window. When there is no match it appends exactly one
record ("Unknown", "DENIED_NOT_ENROLLED", failure); when a usable name is below
the threshold it appends exactly one record (name, "DENIED_LOW_CONFIDENCE",
failure, similarity); the record is stored at the end of the log file, or in the
slot under the cursor of the in-memory buffer. When the name is empty, "empty" or
"unknown" the cycle appends no record and leaves the log unchanged. -/
theorem rejected_identity_cycle (inp : CycleInput) (s : State) (hdue : PollDue inp s)
    (hcap : inp.captureOk = true) (hdet : inp.detectOk = true) (husers : s.totalUsers ≠ 0)
    (hlen : s.faceHistory.length = LIVENESS_CHECK_COUNT)
    (hrej : inp.recognizeOk = false ∨ ¬ UsableName inp.matchName ∨
      inp.similarity < RECOGNITION_THRESHOLD) :
    ((handleRecognition inp s).1.lastConfirmedUser = "" ∧
      (handleRecognition inp s).1.consecutiveMatches = 0 ∧
      (handleRecognition inp s).1.faceHistoryCount = 0 ∧
      (handleRecognition inp s).1.faceHistoryIndex = 0 ∧
      AllInvalid (handleRecognition inp s).1.faceHistory) ∧
    (inp.recognizeOk = false →
      (handleRecognition inp s).2 = Outcome.notRecognized ∧
      (handleRecognition inp s).1.calls =
        s.calls ++ [Call.logActivity "Unknown" "DENIED_NOT_ENROLLED" false 0] ∧
      (handleRecognition inp s).1.log =
        logActivity inp.sd inp.logTime "Unknown" "DENIED_NOT_ENROLLED" false 0 s.log ∧
      RecordStored inp.sd ⟨"Unknown", "DENIED_NOT_ENROLLED", false, 0, inp.logTime⟩
        s.log (handleRecognition inp s).1.log) ∧
    (inp.recognizeOk = true → UsableName inp.matchName →
      (handleRecognition inp s).2 = Outcome.lowConfidence ∧
      (handleRecognition inp s).1.calls =
        s.calls ++ [Call.logActivity inp.matchName "DENIED_LOW_CONFIDENCE" false
          inp.similarity] ∧
      (handleRecognition inp s).1.log =
        logActivity inp.sd inp.logTime inp.matchName "DENIED_LOW_CONFIDENCE" false
          inp.similarity s.log ∧
      RecordStored inp.sd
        ⟨inp.matchName, "DENIED_LOW_CONFIDENCE", false, inp.similarity, inp.logTime⟩
        s.log (handleRecognition inp s).1.log) ∧
    (inp.recognizeOk = true → ¬ UsableName inp.matchName →
      (handleRecognition inp s).2 = Outcome.nameUnknown ∧
      (handleRecognition inp s).1.calls = s.calls ∧
      (handleRecognition inp s).1.log = s.log) := by
  obtain ⟨p, hp⟩ := handleRecognition_of_due hdue
  have hl : (recordFace inp.currentPos (s.polled inp.now p)).faceHistory.length
      = LIVENESS_CHECK_COUNT := by
    simp [recordFace, State.polled, hlen]
  have hinv : AllInvalid (resetGate (recordFace inp.currentPos (s.polled inp.now p))).faceHistory :=
    (resetLivenessTracking_allInvalid hl).1
  have hface : handleRecognition inp s =
      recognizeFace inp inp.currentPos (recordFace inp.currentPos (s.polled inp.now p)) := by
    rw [hp]; simp [hcap, hdet, husers]
  have hno : inp.recognizeOk = false → handleRecognition inp s =
      ((resetGate (recordFace inp.currentPos (s.polled inp.now p))).logActivity inp.sd
        inp.logTime "Unknown" "DENIED_NOT_ENROLLED" false 0, Outcome.notRecognized) := by
    intro hrec
    rw [hface]; unfold recognizeFace; rw [if_neg (by simp [hrec])]
  have hun : inp.recognizeOk = true → ¬ UsableName inp.matchName → handleRecognition inp s =
      (resetGate (recordFace inp.currentPos (s.polled inp.now p)), Outcome.nameUnknown) := by
    intro hrec hname
    unfold UsableName at hname
    rw [not_not] at hname
    rw [hface]; unfold recognizeFace; rw [if_pos hrec]
    simp only [hname, if_true]
  have hlow : inp.recognizeOk = true → UsableName inp.matchName →
      inp.similarity < RECOGNITION_THRESHOLD → handleRecognition inp s =
      ((resetGate (recordFace inp.currentPos (s.polled inp.now p))).logActivity inp.sd
        inp.logTime inp.matchName "DENIED_LOW_CONFIDENCE" false inp.similarity,
        Outcome.lowConfidence) := by
    intro hrec hname hconf
    unfold UsableName at hname
    rw [hface]; unfold recognizeFace; rw [if_pos hrec]
    simp only [hname, if_false, hconf, if_true]
  refine ⟨?_, ?_, ?_, ?_⟩
  · cases hrec : inp.recognizeOk
    · rw [hno hrec]; exact ⟨rfl, rfl, rfl, rfl, hinv⟩
    · by_cases hname : UsableName inp.matchName
      · rcases hrej with h | h | h
        · rw [hrec] at h; cases h
        · exact absurd hname h
        · rw [hlow hrec hname h]; exact ⟨rfl, rfl, rfl, rfl, hinv⟩
      · rw [hun hrec hname]; exact ⟨rfl, rfl, rfl, rfl, hinv⟩
  · intro hrec
    rw [hno hrec]
    refine ⟨rfl, rfl, rfl, ?_⟩
    show RecordStored _ _ _ (logActivity _ _ _ _ _ _ s.log)
    have hs := logActivity_stored inp.sd inp.logTime "Unknown" "DENIED_NOT_ENROLLED" false 0 s.log
    refine ⟨hs.1, hs.2.1, fun hno => ?_⟩
    unfold logActivity
    by_cases hr : s.log.sdCardReady = true
    · rw [if_pos hr, if_neg (fun hio => hno ⟨hr, hio⟩)]
      exact ⟨rfl, rfl, rfl, rfl⟩
    · rw [if_neg hr]
      exact ⟨rfl, rfl, rfl, rfl⟩
  · intro hrec hname
    rcases hrej with h | h | h
    · rw [hrec] at h; cases h
    · exact absurd hname h
    · rw [hlow hrec hname h]
      refine ⟨rfl, rfl, rfl, ?_⟩
      show RecordStored _ _ _ (logActivity _ _ _ _ _ _ s.log)
      have hs := logActivity_stored inp.sd inp.logTime inp.matchName "DENIED_LOW_CONFIDENCE" false inp.similarity s.log
      refine ⟨hs.1, hs.2.1, fun hno => ?_⟩
      unfold logActivity
      by_cases hr : s.log.sdCardReady = true
      · rw [if_pos hr, if_neg (fun hio => hno ⟨hr, hio⟩)]
        exact ⟨rfl, rfl, rfl, rfl⟩
      · rw [if_neg hr]
        exact ⟨rfl, rfl, rfl, rfl⟩
  · intro hrec hname
    rw [hun hrec hname]
    exact ⟨rfl, rfl, rfl⟩

theorem rejected_identity_cycle_witness :
    ((handleRecognition unknownInput midStreakState).2 = Outcome.nameUnknown ∧
      (handleRecognition unknownInput midStreakState).1.lastConfirmedUser = "" ∧
      (handleRecognition unknownInput midStreakState).1.consecutiveMatches = 0 ∧
      (handleRecognition unknownInput midStreakState).1.calls = midStreakState.calls ∧
      (handleRecognition unknownInput midStreakState).1.log = midStreakState.log) ∧
    ((handleRecognition lowConfidenceInput midStreakState).2 = Outcome.lowConfidence ∧
      (handleRecognition lowConfidenceInput midStreakState).1.lastConfirmedUser = "" ∧
      (handleRecognition lowConfidenceInput midStreakState).1.consecutiveMatches = 0 ∧
      (handleRecognition lowConfidenceInput midStreakState).1.log.ramLogBuffer =
        [⟨"alice", "DENIED_LOW_CONFIDENCE", false, 40 / 100, 3000⟩,
          ActivityLog.zero, ActivityLog.zero, ActivityLog.zero, ActivityLog.zero] ∧
      (handleRecognition lowConfidenceInput midStreakState).1.log.ramLogIndex = 1 ∧
      (handleRecognition lowConfidenceInput midStreakState).1.log.ramLogCount = 1) :=
  have h := rejected_identity_cycle unknownInput midStreakState (by decide) (by decide)
    (by decide) (by decide) (by decide) (Or.inr (Or.inl (by decide)))
  have l := rejected_identity_cycle lowConfidenceInput midStreakState (by decide) (by decide)
    (by decide) (by decide) (by decide) (Or.inr (Or.inr (by decide!)))
  have r := (l.2.2.1 (by decide) (by decide)).2.2.2.2.2 (by decide)
  ⟨⟨(h.2.2.2 (by decide) (by decide)).1, h.1.1, h.1.2.1, (h.2.2.2 (by decide) (by decide)).2.1,
    (h.2.2.2 (by decide) (by decide)).2.2⟩,
   ⟨(l.2.2.1 (by decide) (by decide)).1, l.1.1, l.1.2.1, r.2.1.trans (by decide!),
    r.2.2.1.trans (by decide), by decide!⟩⟩

/-- C8: a cycle that ends in the liveness denial makes one `logActivity` call with
the record (identity, "DENIED_LIVENESS_FAIL", failure, similarity), which is
stored at the end of the log file or in the slot under the cursor of the
in-memory buffer, and no `unlockDoor` call; the candidate, the incremented count, the liveness window as
stored by this cycle, the cool-down record and the door are left as they were
before the liveness check; and the next polling cycle that accepts the same
identity does not wait for confirmations again. -/
theorem liveness_failure_keeps_gate (inp : CycleInput) (s : State)
    (h : (handleRecognition inp s).2 = Outcome.livenessFailed) :
    (handleRecognition inp s).1.calls =
      s.calls ++ [Call.logActivity inp.matchName "DENIED_LIVENESS_FAIL" false inp.similarity] ∧
    (handleRecognition inp s).1.log =
      logActivity inp.sd inp.logTime inp.matchName "DENIED_LIVENESS_FAIL" false inp.similarity
        s.log ∧
    RecordStored inp.sd
      ⟨inp.matchName, "DENIED_LIVENESS_FAIL", false, inp.similarity, inp.logTime⟩
      s.log (handleRecognition inp s).1.log ∧
    inp.matchName = s.lastConfirmedUser ∧
    (handleRecognition inp s).1.lastConfirmedUser = s.lastConfirmedUser ∧
    (handleRecognition inp s).1.consecutiveMatches = s.consecutiveMatches + 1 ∧
    RECOGNITION_CONFIRM_COUNT ≤ (handleRecognition inp s).1.consecutiveMatches ∧
    (handleRecognition inp s).1.faceHistory = (recordFace inp.currentPos s).faceHistory ∧
    (handleRecognition inp s).1.faceHistoryIndex = (recordFace inp.currentPos s).faceHistoryIndex ∧
    (handleRecognition inp s).1.faceHistoryCount = (recordFace inp.currentPos s).faceHistoryCount ∧
    (handleRecognition inp s).1.lastAccessUser = s.lastAccessUser ∧
    (handleRecognition inp s).1.lastAccessTime = s.lastAccessTime ∧
    (handleRecognition inp s).1.isDoorUnlocked = s.isDoorUnlocked ∧
    (handleRecognition inp s).1.doorUnlockTime = s.doorUnlockTime ∧
    (handleRecognition inp s).1.doorRelayPin = s.doorRelayPin ∧
    ∀ next : CycleInput, PollDue next (handleRecognition inp s).1 → next.captureOk = true →
      next.detectOk = true → next.recognizeOk = true → next.matchName = inp.matchName →
      RECOGNITION_THRESHOLD ≤ next.similarity →
      (handleRecognition next (handleRecognition inp s).1).2 = Outcome.livenessFailed ∨
      (handleRecognition next (handleRecognition inp s).1).2 = Outcome.cooldown ∨
      (handleRecognition next (handleRecognition inp s).1).2 = Outcome.accessGranted := by
  obtain ⟨hdue, hcap, hdet, husers, hrec, hname, hconf⟩ :=
    @accepted_of_outcome inp s (by rw [h]; rfl)
  obtain ⟨p, e, hsame, hcount, -⟩ := livenessFailed_inv h
  obtain ⟨h1, h2, h3, h4, h5, h6, h7, h8, h9, h10, h11, h12, h13⟩ := counted_same_fields p hsame
  rw [e]
  have hge : RECOGNITION_CONFIRM_COUNT ≤ s.consecutiveMatches + 1 := by
    rw [h4] at hcount; exact not_lt.mp hcount
  refine ⟨?_, ?_, ?_, hsame, h3, h4, ?_, h5, h6, h7, h8, h9, h10, h11, h12, ?_⟩
  · simp [State.logActivity, h1]
  · simp [State.logActivity, h2]
  · show RecordStored _ _ _ (logActivity _ _ _ _ _ _ (s.counted inp p).log)
    rw [h2]
    have hs := logActivity_stored inp.sd inp.logTime inp.matchName "DENIED_LIVENESS_FAIL" false inp.similarity s.log
    refine ⟨hs.1, hs.2.1, fun hno => ?_⟩
    unfold logActivity
    by_cases hr : s.log.sdCardReady = true
    · rw [if_pos hr, if_neg (fun hio => hno ⟨hr, hio⟩)]
      exact ⟨rfl, rfl, rfl, rfl⟩
    · rw [if_neg hr]
      exact ⟨rfl, rfl, rfl, rfl⟩
  · show RECOGNITION_CONFIRM_COUNT ≤ (s.counted inp p).consecutiveMatches
    rw [h4]; exact hge
  · intro next ndue ncap ndet nrec nname nconf
    have nusers : ((s.counted inp p).logActivity inp.sd inp.logTime inp.matchName
        "DENIED_LIVENESS_FAIL" false inp.similarity).totalUsers ≠ 0 := by
      show (s.counted inp p).totalUsers ≠ 0
      rw [h13]; exact husers
    have nsame : next.matchName = ((s.counted inp p).logActivity inp.sd inp.logTime
        inp.matchName "DENIED_LIVENESS_FAIL" false inp.similarity).lastConfirmedUser := by
      show next.matchName = (s.counted inp p).lastConfirmedUser
      rw [h3, nname, hsame]
    obtain ⟨q, hq⟩ := handleRecognition_accepted ndue ncap ndet nusers nrec
      (by rw [nname]; exact hname) nconf
    rw [hq]
    have hc2 := (counted_same_fields q nsame).2.2.2.1
    have hnot : ¬ (State.counted ((s.counted inp p).logActivity inp.sd inp.logTime inp.matchName
        "DENIED_LIVENESS_FAIL" false inp.similarity) next q).consecutiveMatches
          < RECOGNITION_CONFIRM_COUNT := by
      rw [hc2]
      show ¬ (s.counted inp p).consecutiveMatches + 1 < RECOGNITION_CONFIRM_COUNT
      rw [h4]; omega
    rcases decideAccess_cases next (State.counted ((s.counted inp p).logActivity inp.sd
      inp.logTime inp.matchName "DENIED_LIVENESS_FAIL" false inp.similarity) next q) with
      ⟨hh, _⟩ | ⟨_, _, e2⟩ | ⟨_, _, _, e2⟩ | ⟨_, _, _, e2⟩
    · exact absurd hh hnot
    · rw [e2]; exact Or.inl rfl
    · rw [e2]; exact Or.inr (Or.inl rfl)
    · rw [e2]; exact Or.inr (Or.inr rfl)

theorem liveness_failure_keeps_gate_witness :
    (handleRecognition alice3 midStreakState).1.calls =
      midStreakState.calls ++ [Call.logActivity "alice" "DENIED_LIVENESS_FAIL" false (95 / 100)] ∧
    (handleRecognition alice3 midStreakState).1.log.ramLogBuffer =
      [⟨"alice", "DENIED_LIVENESS_FAIL", false, 95 / 100, 3000⟩,
        ActivityLog.zero, ActivityLog.zero, ActivityLog.zero, ActivityLog.zero] ∧
    (handleRecognition alice3 midStreakState).1.log.ramLogIndex = 1 ∧
    (handleRecognition alice3 midStreakState).1.log.ramLogCount = 1 ∧
    (handleRecognition alice3 midStreakState).1.lastConfirmedUser = "alice" ∧
    (handleRecognition alice3 midStreakState).1.consecutiveMatches = 3 ∧
    (handleRecognition alice3 midStreakState).1.faceHistoryCount = 3 ∧
    (handleRecognition alice4 (handleRecognition alice3 midStreakState).1).2 =
      Outcome.accessGranted :=
  have h := liveness_failure_keeps_gate alice3 midStreakState (by decide!)
  have r := h.2.2.1.2.2 (by decide)
  ⟨h.1, r.2.1.trans (by decide!), r.2.2.1.trans (by decide), by decide!,
    h.2.2.2.2.1, h.2.2.2.2.2.1, by decide!, by decide!⟩

/-- C9: with fewer than `LIVENESS_CHECK_COUNT` (4) samples counted, `checkLiveness`
fails at its first `return` (insufficient history), whatever the slots hold. -/
theorem checkLiveness_insufficient_history (s : State)
    (h : s.faceHistoryCount < LIVENESS_CHECK_COUNT) :
    livenessVerdict s = Liveness.insufficientHistory ∧ checkLiveness s = false := by
  have hv : livenessVerdict s = Liveness.insufficientHistory := by
    unfold livenessVerdict
    rw [if_pos h]
  exact ⟨hv, by simp [checkLiveness, hv]⟩

theorem checkLiveness_insufficient_history_witness :
    threeSampleState.faceHistoryCount < LIVENESS_CHECK_COUNT ∧
    livenessVerdict threeSampleState = Liveness.insufficientHistory ∧
    checkLiveness threeSampleState = false :=
  ⟨by decide, checkLiveness_insufficient_history threeSampleState (by decide)⟩

/-- C10: on a full window of four valid samples in which at least two of the
three adjacent pairs show no position change and no size change, `checkLiveness`
fails and the deciding check is CHECK 1 (static face). -/
theorem checkLiveness_static_face (s : State)
    (hfull : s.faceHistoryCount = LIVENESS_CHECK_COUNT)
    (hlen : s.faceHistory.length = LIVENESS_CHECK_COUNT)
    (hvalid : ∀ p ∈ s.faceHistory, p.valid = true)
    (hzero : 2 ≤ zeroPairCount s.faceHistory) :
    livenessVerdict s = Liveness.staticFace ∧ checkLiveness s = false := by
  obtain ⟨a, b, c, d, hh⟩ := length_eq_four hlen
  have ha : a.valid = true := hvalid a (by simp [hh])
  have hb : b.valid = true := hvalid b (by simp [hh])
  have hc : c.valid = true := hvalid c (by simp [hh])
  have hd : d.valid = true := hvalid d (by simp [hh])
  obtain ⟨hp, -, hz⟩ := scanPairs_four a b c d ha hb hc hd
  have hcount : (2 : Int) ≤ (scanPairs [a, b, c, d]).zeroMovementCount := by
    rw [hz]
    rw [hh] at hzero
    simp only [zeroPairCount, adjacentPairs, List.tail_cons, List.zip_cons_cons, List.zip_nil_right,
      List.countP_cons, List.countP_nil] at hzero
    split_ifs at hzero ⊢ <;> simp_all
  have hv : livenessVerdict s = Liveness.staticFace := by
    unfold livenessVerdict
    rw [if_neg (by rw [hfull]; exact lt_irrefl _), hh]
    simp only [PairScan.validComparisons, hp]
    rw [if_neg (by simp), if_pos (by simpa using hcount)]
  exact ⟨hv, by simp [checkLiveness, hv]⟩

theorem checkLiveness_static_face_witness :
    livenessVerdict staticState = Liveness.staticFace ∧ checkLiveness staticState = false :=
  checkLiveness_static_face staticState (by decide) (by decide) (by decide) (by decide)

/-! ### The liveness window, the manual unlock and the activity log -/

/-- C11: on a full window of four valid samples of constant width and height in
which every adjacent pair moves by the same step `(dx, dy)` with
`|dx| + |dy| = LIVENESS_PHOTO_THRESHOLD + 10` (40), `checkLiveness` fails, and the
check that fires is CHECK 2 (erratic movement, three large movements counted); so
the reason is one of "erratic movement" and "uniform large movement". -/
theorem checkLiveness_uniform_large_steps (s : State) (dx dy : Int)
    (hfull : s.faceHistoryCount = LIVENESS_CHECK_COUNT)
    (hlen : s.faceHistory.length = LIVENESS_CHECK_COUNT)
    (hvalid : ∀ p ∈ s.faceHistory, p.valid = true)
    (hstep : (dx.natAbs : Int) + (dy.natAbs : Int) = LIVENESS_PHOTO_THRESHOLD + 10)
    (hmove : ∀ p ∈ adjacentPairs s.faceHistory,
      p.2.cx - p.1.cx = dx ∧ p.2.cy - p.1.cy = dy ∧
      p.2.width = p.1.width ∧ p.2.height = p.1.height) :
    livenessVerdict s = Liveness.erraticMovement ∧
    (livenessVerdict s = Liveness.erraticMovement ∨
      livenessVerdict s = Liveness.uniformLargeMovement) ∧
    checkLiveness s = false := by
  obtain ⟨a, b, c, d, hh⟩ := length_eq_four hlen
  have ha : a.valid = true := hvalid a (by simp [hh])
  have hb : b.valid = true := hvalid b (by simp [hh])
  have hc : c.valid = true := hvalid c (by simp [hh])
  have hd : d.valid = true := hvalid d (by simp [hh])
  rw [hh] at hmove
  simp only [adjacentPairs, List.tail_cons, List.zip_cons_cons, List.zip_nil_right,
    List.mem_cons, List.mem_singleton, List.not_mem_nil, or_false, forall_eq_or_imp,
    forall_eq] at hmove
  obtain ⟨⟨x1, y1, -, -⟩, ⟨x2, y2, -, -⟩, ⟨x3, y3, -, -⟩⟩ := hmove
  have p1 : posChange a b = 40 := by
    unfold posChange; rw [x1, y1, hstep]; rfl
  have p2 : posChange b c = 40 := by
    unfold posChange; rw [x2, y2, hstep]; rfl
  have p3 : posChange c d = 40 := by
    unfold posChange; rw [x3, y3, hstep]; rfl
  obtain ⟨hp, -, hz⟩ := scanPairs_four a b c d ha hb hc hd
  obtain ⟨-, hl⟩ := scanPairs_four_counts a b c d ha hb hc hd
  rw [p1, p2, p3] at hz hl hp
  have hz0 : (scanPairs [a, b, c, d]).zeroMovementCount = 0 := by
    rw [hz]; simp
  have hl3 : (scanPairs [a, b, c, d]).largeMovementCount = 3 := by
    rw [hl]; simp [LIVENESS_MAX_MICRO_MOVEMENT, LIVENESS_PHOTO_THRESHOLD]
  have hv : livenessVerdict s = Liveness.erraticMovement := by
    unfold livenessVerdict
    rw [if_neg (by rw [hfull]; exact lt_irrefl _), hh]
    simp only [PairScan.validComparisons, hp, hz0, hl3]
    simp
  exact ⟨hv, Or.inl hv, by simp [checkLiveness, hv]⟩

theorem checkLiveness_uniform_large_steps_witness :
    livenessVerdict slidingState = Liveness.erraticMovement ∧
    (livenessVerdict slidingState = Liveness.erraticMovement ∨
      livenessVerdict slidingState = Liveness.uniformLargeMovement) ∧
    checkLiveness slidingState = false :=
  checkLiveness_uniform_large_steps slidingState 40 0 (by decide) (by decide) (by decide)
    (by decide) (by decide)

/-- C12, counterexample: a manual unlock from the idle state makes no
`logActivity` call and leaves the log store as it was. -/
theorem manual_unlock_counterexample :
    (apiDoorUnlock 1000 idleState).log = idleState.log ∧
    (apiDoorUnlock 1000 idleState).calls = [Call.unlockDoor "Manual"] ∧
    ¬ ∃ u a ok c, Call.logActivity u a ok c ∈ (apiDoorUnlock 1000 idleState).calls := by
  refine ⟨rfl, rfl, ?_⟩
  rintro ⟨u, a, ok, c, h⟩
  simp [apiDoorUnlock, unlockDoor, idleState, State.initial] at h

/-- C12, amended: a manual unlock (the handler of `/api/door/unlock`) calls
`unlockDoor("Manual")` once, which raises the relay and marks the door unlocked;
it makes no `logActivity` call, creates no record and leaves the log store, the
cool-down record and the confirmation state unchanged. -/
theorem manual_unlock_not_logged (now : Nat) (s : State) :
    (apiDoorUnlock now s).calls = s.calls ++ [Call.unlockDoor "Manual"] ∧
    (apiDoorUnlock now s).log = s.log ∧
    (apiDoorUnlock now s).isDoorUnlocked = true ∧
    (apiDoorUnlock now s).doorRelayPin = true ∧
    (apiDoorUnlock now s).doorUnlockTime = now ∧
    (apiDoorUnlock now s).lastAccessUser = s.lastAccessUser ∧
    (apiDoorUnlock now s).lastAccessTime = s.lastAccessTime ∧
    (apiDoorUnlock now s).lastConfirmedUser = s.lastConfirmedUser ∧
    (apiDoorUnlock now s).consecutiveMatches = s.consecutiveMatches :=
  ⟨rfl, rfl, rfl, rfl, rfl, rfl, rfl, rfl, rfl⟩

/-- C13: successive appends that all succeed on the card, starting from a log file
that holds only its header, leave in the file exactly the lines of the
`min n MAX_SD_LOGS` most recently appended records, in the order of appending
(after 51 appends, 50 entries, the first record gone).  The header line keeps its
text up to `MAX_SD_LOGS` appends; every append after that rewrites the file, and
the rewritten header line has one more carriage return at its end than the line
that was read, so from the 51st append on the header line differs from the one
the file started with. -/
theorem durable_log_after_appends (io : SdIo) (rs : List ActivityLog) (s : LogStore)
    (ha : io.appendOpens = true) (hr : io.readOpens = true) (hw : io.writeOpens = true)
    (hready : s.sdCardReady = true) (hfile : s.sdLogFile = some (println logHeader))
    (hone : ∀ r ∈ rs, r.OneLine) :
    ∃ text, (logAll io rs s).sdLogFile = some text ∧
      sdEntries text = (rs.map ActivityLog.csv).drop (rs.length - MAX_SD_LOGS) ∧
      (sdEntries text).length = min rs.length MAX_SD_LOGS ∧
      sdHeader text = logHeader ++ List.replicate (1 + (rs.length - MAX_SD_LOGS)) '\r' ∧
      (rs.length ≤ MAX_SD_LOGS → sdHeader text = sdHeader (println logHeader)) ∧
      (MAX_SD_LOGS < rs.length → sdHeader text ≠ sdHeader (println logHeader)) := by
  obtain ⟨text, ht, hrep⟩ := logAll_durable io rs s ha hr hw hready hfile hone
  obtain ⟨hh, he⟩ := fileRep_header text _ _ hrep
  refine ⟨text, ht, he, ?_, hh, ?_, ?_⟩
  · rw [he, List.length_drop, List.length_map]
    omega
  · intro hn
    rw [hh, sdHeader_fresh, Nat.sub_eq_zero_of_le hn]
    rfl
  · intro hn heq
    rw [hh, sdHeader_fresh] at heq
    have hl := congrArg List.length heq
    simp only [List.length_append, List.length_replicate, List.length_cons,
      List.length_nil] at hl
    unfold MAX_SD_LOGS at hn hl
    omega

theorem durable_log_after_appends_witness :
    ∃ text, (logAll sdOk ((List.range 51).map sampleRecord) headerOnlyStore).sdLogFile
        = some text ∧
      sdEntries text = (((List.range 51).map sampleRecord).tail).map ActivityLog.csv ∧
      (sdEntries text).length = 50 ∧
      sdHeader text = logHeader ++ ['\r', '\r'] ∧
      sdHeader text ≠ sdHeader (println logHeader) :=
  let ⟨text, h1, h2, h3, h4, _, h6⟩ := durable_log_after_appends sdOk
    ((List.range 51).map sampleRecord) headerOnlyStore rfl rfl rfl rfl rfl (by decide!)
  ⟨text, h1, h2.trans (by decide!), h3.trans (by decide), h4.trans (by decide),
    h6 (by decide)⟩

/-- C15: the log query reads one store only. While the card is ready and the log
file exists, the result is a function of the file alone (two stores with the same
file give the same result, whatever their in-memory buffers hold) and each record
of it is the parse of an entry of the file; otherwise the result is a function of
the in-memory buffer, cursor and count alone and each record of it is a slot of
the buffer. A `logActivity` call whose open for appending fails puts its record
in the buffer, and the query result while the card is available is the same as
before that call. -/
theorem query_reads_selected_store (io : SdIo) (limit : Int) (s t : LogStore) :
    (SdAvailable s → t.sdCardReady = s.sdCardReady → t.sdLogFile = s.sdLogFile →
      apiLogs io limit t = apiLogs io limit s) ∧
    (∀ text, SdAvailable s → s.sdLogFile = some text →
      ∀ j ∈ apiLogs io limit s, ∃ line ∈ sdEntries text, parseLine line = some j) ∧
    (¬ SdAvailable s → ¬ SdAvailable t → t.ramLogBuffer = s.ramLogBuffer →
      t.ramLogIndex = s.ramLogIndex → t.ramLogCount = s.ramLogCount →
      apiLogs io limit t = apiLogs io limit s) ∧
    (¬ SdAvailable s → s.ramLogCount ≤ MAX_RAM_LOGS →
      s.ramLogBuffer.length = MAX_RAM_LOGS →
      ∀ j ∈ apiLogs io limit s, ∃ r ∈ s.ramLogBuffer, j = r.toJson) ∧
    (∀ (fio : SdIo) (ts : Nat) (u a : String) (ok : Bool) (c : Rat),
      SdAvailable s → fio.appendOpens = false →
      SdAvailable (logActivity fio ts u a ok c s) ∧
      (logActivity fio ts u a ok c s).ramLogBuffer =
        s.ramLogBuffer.set s.ramLogIndex ⟨u, a, ok, c, ts⟩ ∧
      apiLogs io limit (logActivity fio ts u a ok c s) = apiLogs io limit s) := by
  have same : ∀ (x y : LogStore), SdAvailable x → y.sdCardReady = x.sdCardReady →
      y.sdLogFile = x.sdLogFile → apiLogs io limit y = apiLogs io limit x := by
    intro x y hav h1 h2
    have hav2 : SdAvailable y := by
      unfold SdAvailable
      rw [h1, h2]
      exact hav
    cases hf : x.sdLogFile with
    | none =>
      have := hav.2
      rw [hf] at this
      exact absurd this (by decide)
    | some text =>
      rw [apiLogs_sd io limit x text hav hf, apiLogs_sd io limit y text hav2 (h2.trans hf)]
  refine ⟨same s t, ?_, ?_, ?_, ?_⟩
  · intro text hav ht j hj
    rw [apiLogs_sd io limit s text hav ht] at hj
    split_ifs at hj
    · exact sdQuery_mem text limit j hj
    · simp at hj
  · intro hs ht hb hi hc
    rw [apiLogs_ram io limit s hs, apiLogs_ram io limit t ht]
    unfold ramQuery
    rw [hb, hi, hc]
  · intro hs hcnt hlen j hj
    rw [apiLogs_ram io limit s hs] at hj
    exact ramQuery_mem limit s hcnt hlen j hj
  · intro fio ts u a ok c hav hf
    have e := logActivity_fallback fio ts u a ok c s (Or.inr hf)
    rw [e]
    exact ⟨hav, rfl, same s (storeInRam ts u a ok c s) hav rfl rfl⟩

theorem query_reads_selected_store_witness :
    SdAvailable oneRecordStore ∧
    apiLogs sdOk 10
        (logActivity sdAppendFails 2000 "bob" "ACCESS_GRANTED" true (95 / 100) oneRecordStore)
      = apiLogs sdOk 10 oneRecordStore :=
  ⟨by decide, ((query_reads_selected_store sdOk 10 oneRecordStore oneRecordStore).2.2.2.2
    sdAppendFails 2000 "bob" "ACCESS_GRANTED" true (95 / 100) (by decide) rfl).2.2⟩

/-- C16: every `logActivity` call writes to exactly one store. When the card is
ready and the file opens for appending, the CSV line goes to the end of the file
(which `trimSDLogFile` then may shorten) and the in-memory buffer, its cursor and
its count are unchanged; otherwise the record goes to the slot under the cursor of
the in-memory buffer and the file is unchanged. No call changes `sdCardReady`, so
after a call that fell back to memory the next call whose open succeeds writes to
the file again. -/
theorem logActivity_one_store (io : SdIo) (ts : Nat) (u a : String) (ok : Bool) (c : Rat)
    (s : LogStore) :
    (s.sdCardReady = true → io.appendOpens = true →
      (logActivity io ts u a ok c s).sdLogFile =
        (trimSDLogFile io { s with sdLogFile := some (s.sdLogFile.getD [] ++ csvLine ts u a ok c) }).sdLogFile ∧
      (logActivity io ts u a ok c s).ramLogBuffer = s.ramLogBuffer ∧
      (logActivity io ts u a ok c s).ramLogIndex = s.ramLogIndex ∧
      (logActivity io ts u a ok c s).ramLogCount = s.ramLogCount) ∧
    (¬ (s.sdCardReady = true ∧ io.appendOpens = true) →
      (logActivity io ts u a ok c s).sdLogFile = s.sdLogFile ∧
      (logActivity io ts u a ok c s).ramLogBuffer =
        s.ramLogBuffer.set s.ramLogIndex ⟨u, a, ok, c, ts⟩ ∧
      (logActivity io ts u a ok c s).ramLogIndex = (s.ramLogIndex + 1) % MAX_RAM_LOGS ∧
      (logActivity io ts u a ok c s).ramLogCount =
        if s.ramLogCount < MAX_RAM_LOGS then s.ramLogCount + 1 else s.ramLogCount) ∧
    (logActivity io ts u a ok c s).sdCardReady = s.sdCardReady ∧
    (∀ (io2 : SdIo) (ts2 : Nat) (u2 a2 : String) (ok2 : Bool) (c2 : Rat),
      s.sdCardReady = true → io2.appendOpens = true →
      (logActivity io2 ts2 u2 a2 ok2 c2 (logActivity io ts u a ok c s)).ramLogBuffer =
        (logActivity io ts u a ok c s).ramLogBuffer ∧
      (logActivity io2 ts2 u2 a2 ok2 c2 (logActivity io ts u a ok c s)).ramLogCount =
        (logActivity io ts u a ok c s).ramLogCount ∧
      (logActivity io2 ts2 u2 a2 ok2 c2 (logActivity io ts u a ok c s)).sdLogFile =
        (trimSDLogFile io2 { logActivity io ts u a ok c s with
          sdLogFile := some ((logActivity io ts u a ok c s).sdLogFile.getD []
            ++ csvLine ts2 u2 a2 ok2 c2) }).sdLogFile) := by
  have durable : ∀ (i : SdIo) (t : Nat) (x y : String) (b : Bool) (q : Rat) (l : LogStore),
      l.sdCardReady = true → i.appendOpens = true →
      logActivity i t x y b q l =
        trimSDLogFile i { l with sdLogFile := some (l.sdLogFile.getD [] ++ csvLine t x y b q) } := by
    intro i t x y b q l h1 h2
    unfold logActivity
    rw [if_pos h1, if_pos h2]
  refine ⟨?_, ?_, logActivity_sdCardReady io ts u a ok c s, ?_⟩
  · intro h1 h2
    rw [durable io ts u a ok c s h1 h2]
    obtain ⟨r1, r2, r3, -⟩ := trimSDLogFile_ram io
      { s with sdLogFile := some (s.sdLogFile.getD [] ++ csvLine ts u a ok c) }
    exact ⟨rfl, r1, r2, r3⟩
  · intro h
    have e : logActivity io ts u a ok c s = storeInRam ts u a ok c s := by
      unfold logActivity
      by_cases h1 : s.sdCardReady = true
      · have h2 : ¬ io.appendOpens = true := fun h2 => h ⟨h1, h2⟩
        rw [if_pos h1, if_neg h2]
      · rw [if_neg h1]
    rw [e]
    exact ⟨rfl, rfl, rfl, rfl⟩
  · intro io2 ts2 u2 a2 ok2 c2 h1 h2
    have h1' : (logActivity io ts u a ok c s).sdCardReady = true := by
      rw [logActivity_sdCardReady]; exact h1
    rw [durable io2 ts2 u2 a2 ok2 c2 _ h1' h2]
    obtain ⟨r1, -, r3, -⟩ := trimSDLogFile_ram io2
      { logActivity io ts u a ok c s with
        sdLogFile := some ((logActivity io ts u a ok c s).sdLogFile.getD []
          ++ csvLine ts2 u2 a2 ok2 c2) }
    exact ⟨r1, r3, rfl⟩

theorem logActivity_one_store_witness :
    (logActivity sdAppendFails 2000 "bob" "ACCESS_GRANTED" true (95 / 100)
        oneRecordStore).sdLogFile = oneRecordStore.sdLogFile ∧
    (logActivity sdAppendFails 2000 "bob" "ACCESS_GRANTED" true (95 / 100)
        oneRecordStore).ramLogCount = 1 :=
  have h := (logActivity_one_store sdAppendFails 2000 "bob" "ACCESS_GRANTED" true (95 / 100)
    oneRecordStore).2.1 (by decide)
  ⟨h.1, h.2.2.2.trans (by decide)⟩

/-- C18, counterexample: the clear handler leaves the file of a card that is not
ready as it is, record included; and when the card is ready but neither the
removal nor the opening for writing succeeds, the record stays in the file and
the next query returns it. -/
theorem clear_counterexample :
    (apiLogsClear clearOk unmountedStore).sdLogFile = unmountedStore.sdLogFile ∧
    sdEntries ((apiLogsClear clearOk unmountedStore).sdLogFile.getD [])
      = ["1000,alice,ACCESS_GRANTED,1,0.95".data] ∧
    (apiLogs sdOk 10 (apiLogsClear ⟨false, false⟩ oneRecordStore)).length = 1 := by
  decide

/-- C18, amended: after the clear handler the in-memory count and cursor are 0
and the in-memory query is empty for every limit. When the card is ready and the
file opens for writing, the file holds the header line and no entry; when the
card is not ready the file is left as it is. The next query returns no record,
for every limit, unless the card is ready and both the removal and the opening
for writing failed. -/
theorem clear_empties_selected_store (io : ClearIo) (qio : SdIo) (limit : Int)
    (s : LogStore) :
    (apiLogsClear io s).ramLogCount = 0 ∧ (apiLogsClear io s).ramLogIndex = 0 ∧
    ramQuery limit (apiLogsClear io s) = [] ∧
    (s.sdCardReady = true → io.writeOpens = true →
      (apiLogsClear io s).sdLogFile = some (println logHeader) ∧
      sdHeader (println logHeader) = logHeader ++ ['\r'] ∧
      sdEntries (println logHeader) = []) ∧
    (s.sdCardReady = false → (apiLogsClear io s).sdLogFile = s.sdLogFile) ∧
    (s.sdCardReady = false ∨ io.writeOpens = true ∨ io.removeOk = true →
      apiLogs qio limit (apiLogsClear io s) = []) := by
  obtain ⟨buf, idx, cnt, ready, file⟩ := s
  obtain ⟨rm, wr⟩ := io
  have hq : ∀ (b : List ActivityLog) (r : Bool),
      apiLogs qio limit ⟨b, 0, 0, r, some (println logHeader)⟩ = [] := by
    intro b r
    cases r
    · exact ramQuery_empty limit _ rfl
    · unfold apiLogs
      rw [if_pos ⟨rfl, rfl⟩]
      dsimp only
      split_ifs
      · exact sdQuery_fresh limit
      · rfl
  have hn : ∀ (b : List ActivityLog) (r : Bool), apiLogs qio limit ⟨b, 0, 0, r, none⟩ = [] := by
    intro b r
    cases r <;> exact ramQuery_empty limit _ rfl
  have hf : ∀ (b : List ActivityLog) (f : Option (List Char)),
      apiLogs qio limit ⟨b, 0, 0, false, f⟩ = [] := by
    intro b f
    exact ramQuery_empty limit _ rfl
  refine ⟨?_, ?_, ?_, ?_, ?_, ?_⟩
  · cases ready <;> cases rm <;> cases wr <;> rfl
  · cases ready <;> cases rm <;> cases wr <;> rfl
  · apply ramQuery_empty
    cases ready <;> cases rm <;> cases wr <;> rfl
  · intro h1 h2
    dsimp only at h1 h2
    subst h1 h2
    refine ⟨?_, sdHeader_fresh, sdEntries_fresh⟩
    cases rm <;> rfl
  · intro h1
    dsimp only at h1
    subst h1
    rfl
  · intro h
    dsimp only at h
    cases ready
    · exact hf buf file
    · cases wr
      · cases rm
        · simp at h
        · exact hn buf true
      · cases rm <;> exact hq buf true

theorem clear_empties_selected_store_witness :
    apiLogs sdOk 10 (apiLogsClear clearOk oneRecordStore) = [] ∧
    (apiLogsClear clearOk oneRecordStore).sdLogFile = some (println logHeader) :=
  have h := clear_empties_selected_store clearOk sdOk 10 oneRecordStore
  ⟨h.2.2.2.2.2 (Or.inr (Or.inl rfl)), (h.2.2.2.1 rfl rfl).1⟩

/-- C19: the clear handler is idempotent: with the same answers of the SD card
driver, clearing twice leaves the whole log store (file, cursor, count, buffer)
as clearing once does. -/
theorem clear_idempotent (io : ClearIo) (s : LogStore) :
    apiLogsClear io (apiLogsClear io s) = apiLogsClear io s := by
  obtain ⟨buf, idx, cnt, ready, file⟩ := s
  obtain ⟨rm, wr⟩ := io
  cases ready <;> cases rm <;> cases wr <;> rfl

/-- C20: recording one more sample in a window that holds four replaces the slot
under the cursor, which is the oldest of the four, by the new sample and leaves
the three other slots unchanged, so that the window then holds the three newer
samples followed by the new one; and after `n` recordings since a reset the window
holds exactly the last `min n 4` samples, in order, and never counts more than
four. -/
theorem window_holds_most_recent (x : FacePosition) (t : State) (samples : List FacePosition)
    (s : State)
    (htlen : t.faceHistory.length = LIVENESS_CHECK_COUNT)
    (htfull : t.faceHistoryCount = LIVENESS_CHECK_COUNT)
    (htcur : t.faceHistoryIndex < LIVENESS_CHECK_COUNT)
    (hlen : s.faceHistory.length = LIVENESS_CHECK_COUNT) (hidx : s.faceHistoryIndex = 0)
    (hcnt : s.faceHistoryCount = 0) :
    ((windowSamples t).head? = t.faceHistory[t.faceHistoryIndex]? ∧
      (recordFace x t).faceHistory[t.faceHistoryIndex]? = some x ∧
      (∀ i, i ≠ t.faceHistoryIndex → (recordFace x t).faceHistory[i]? = t.faceHistory[i]?) ∧
      (recordFace x t).faceHistoryCount = LIVENESS_CHECK_COUNT ∧
      windowSamples (recordFace x t) = (windowSamples t).tail ++ [x]) ∧
    windowSamples (recordAll samples s) =
      samples.drop (samples.length - LIVENESS_CHECK_COUNT) ∧
    (windowSamples (recordAll samples s)).length = min samples.length LIVENESS_CHECK_COUNT ∧
    (recordAll samples s).faceHistoryCount ≤ LIVENESS_CHECK_COUNT ∧
    (recordAll samples s).faceHistoryIndex < LIVENESS_CHECK_COUNT := by
  obtain ⟨-, h2, h3, -⟩ := recordAll_invariant samples s hlen hidx hcnt
  refine ⟨recordFace_full x t htlen htfull htcur,
    windowSamples_recordAll samples s hlen hidx hcnt, ?_, ?_, ?_⟩
  · rw [windowSamples_recordAll samples s hlen hidx hcnt, List.length_drop]
    omega
  · rw [h3]; exact min_le_right _ _
  · rw [h2]; exact Nat.mod_lt _ (by decide)

theorem window_holds_most_recent_witness :
    windowSamples (recordAll sixSamples (resetLivenessTracking State.initial)) =
      [⟨3, 0, 50, 50, true⟩, ⟨4, 0, 50, 50, true⟩, ⟨5, 0, 50, 50, true⟩, ⟨6, 0, 50, 50, true⟩] ∧
    windowSamples (recordFace ⟨7, 0, 50, 50, true⟩ (recordAll sixSamples State.initial)) =
      [⟨4, 0, 50, 50, true⟩, ⟨5, 0, 50, 50, true⟩, ⟨6, 0, 50, 50, true⟩, ⟨7, 0, 50, 50, true⟩] :=
  have h := window_holds_most_recent ⟨7, 0, 50, 50, true⟩ (recordAll sixSamples State.initial)
    sixSamples (resetLivenessTracking State.initial) (by decide) (by decide) (by decide)
    (by decide) (by decide) (by decide)
  ⟨h.2.1, h.1.2.2.2.2.trans (by decide)⟩

/-! ### The cool-down record, the liveness checks, the reachable windows and the round trip -/

/-- C21: a call of `handleRecognition` that does not end in the grant, whichever
return it takes (live feed, rate limit, no frame, no face, no enrolled user,
rejected identity, count below the required matches, liveness failure,
cool-down), leaves `lastAccessUser` and `lastAccessTime` as they were, and so
does the manual unlock. A call that ends in the grant writes the recognised
name and the clock value to them. -/
theorem cooldown_record_unchanged (inp : CycleInput) (s : State) (now : Nat) :
    ((handleRecognition inp s).2 ≠ Outcome.accessGranted →
      (handleRecognition inp s).1.lastAccessUser = s.lastAccessUser ∧
      (handleRecognition inp s).1.lastAccessTime = s.lastAccessTime) ∧
    ((apiDoorUnlock now s).lastAccessUser = s.lastAccessUser ∧
      (apiDoorUnlock now s).lastAccessTime = s.lastAccessTime) ∧
    ((handleRecognition inp s).2 = Outcome.accessGranted →
      (handleRecognition inp s).1.lastAccessUser = inp.matchName ∧
      (handleRecognition inp s).1.lastAccessTime = inp.now) := by
  refine ⟨?_, ⟨rfl, rfl⟩, ?_⟩
  · intro hne
    rcases handleRecognition_forms inp s with ⟨-, e | e⟩ | ⟨p, -, e | e | ⟨-, e⟩ | e | e | e |
      ⟨-, e⟩⟩
    · rw [e]; exact ⟨rfl, rfl⟩
    · rw [e]; exact ⟨rfl, rfl⟩
    · rw [e]; exact ⟨rfl, rfl⟩
    · rw [e]; exact ⟨rfl, rfl⟩
    · rw [e]; exact ⟨rfl, rfl⟩
    · rw [e]; exact ⟨rfl, rfl⟩
    · rw [e]; exact ⟨rfl, rfl⟩
    · rw [e]; exact ⟨rfl, rfl⟩
    · obtain ⟨c1, c2, -⟩ := counted_frame inp s p
      rcases decideAccess_cases inp (s.counted inp p) with ⟨_, d⟩ | ⟨_, _, d⟩ | ⟨_, _, _, d⟩ |
        ⟨_, _, _, d⟩
      · rw [e, d]; exact ⟨c1, c2⟩
      · rw [e, d]; exact ⟨c1, c2⟩
      · rw [e, d]; exact ⟨c1, c2⟩
      · rw [e, d] at hne
        exact absurd rfl hne
  · intro hg
    obtain ⟨p, e, -⟩ := granted_inv hg
    rw [e]
    exact ⟨rfl, rfl⟩

theorem cooldown_record_unchanged_witness :
    (handleRecognition alice4 cooledState).2 = Outcome.cooldown ∧
    (handleRecognition alice4 cooledState).1.lastAccessUser = "alice" ∧
    (handleRecognition alice4 cooledState).1.lastAccessTime = 1500 :=
  have h := (cooldown_record_unchanged alice4 cooledState 0).1 (by decide!)
  ⟨by decide!, h.1, h.2⟩

/-- C22: on a full window (four valid samples, three valid pairs) `checkLiveness`
returns by the first of its five checks whose condition holds on the aggregates
of its two loops, in the order (1) static face, (2) erratic movement, (3) uniform
large movement, (4) flat surface, (5) too few micro-movements, and it passes
exactly when the condition of none of them holds. -/
theorem checkLiveness_first_rule (s : State) (h : FullWindow s) :
    (aggregates s.faceHistory).validComparisons = 3 ∧
    livenessVerdict s = specVerdict (aggregates s.faceHistory) ∧
    (checkLiveness s = true ↔ ∀ r ∈ specRules (aggregates s.faceHistory), r.1 = false) ∧
    (checkLiveness s = false ↔ ∃ r ∈ specRules (aggregates s.faceHistory), r.1 = true) := by
  obtain ⟨hv, he⟩ := fullWindow_verdict s h
  have key : livenessVerdict s = Liveness.passed ↔
      ∀ r ∈ specRules (aggregates s.faceHistory), r.1 = false := by
    rw [he]
    unfold specVerdict
    cases hf : (specRules (aggregates s.faceHistory)).find? (fun r => r.1) with
    | none =>
      simp only [true_iff]
      intro r hr
      have := List.find?_eq_none.mp hf r hr
      simpa using this
    | some r =>
      have hr1 : r.1 = true := List.find?_some hf
      have hr2 : r ∈ specRules (aggregates s.faceHistory) := List.mem_of_find?_eq_some hf
      constructor
      · intro hp
        exfalso
        unfold specRules at hr2
        simp only [List.mem_cons, List.mem_singleton, List.not_mem_nil, or_false] at hr2
        rcases hr2 with e | e | e | e | e <;> rw [e] at hp <;> cases hp
      · intro hall
        have := hall r hr2
        rw [hr1] at this
        cases this
  refine ⟨hv, he, ?_, ?_⟩
  · unfold checkLiveness
    rw [decide_eq_true_iff]
    exact key
  · unfold checkLiveness
    rw [decide_eq_false_iff_not, key]
    constructor
    · intro hn
      by_contra hex
      apply hn
      intro r hr
      cases hb : r.1
      · rfl
      · exact absurd ⟨r, hr, hb⟩ hex
    · rintro ⟨r, hr, hb⟩ hall
      have := hall r hr
      rw [hb] at this
      cases this

theorem checkLiveness_first_rule_witness :
    livenessVerdict nearlyFlatState = Liveness.flatSurface ∧
    specVerdict (aggregates nearlyFlatState.faceHistory) = Liveness.flatSurface ∧
    checkLiveness naturalState = true :=
  have h1 := checkLiveness_first_rule nearlyFlatState (by decide)
  have h2 := checkLiveness_first_rule naturalState (by decide)
  ⟨h1.2.1.trans (by decide), by decide, h2.2.2.1.mpr (by decide)⟩

/-- C23, counterexample: a pair whose position change is 0 and whose size change
is 2 is counted as a micro-movement by the first loop, while `0 < posDelta`
fails for it; on a window of three such pairs `microMovementCount` is 3, no pair
has `0 < posDelta ≤ 20`, and `checkLiveness` passes. -/
theorem pair_class_counterexample :
    classify 0 2 = PairClass.micro ∧ specClass 0 2 = PairClass.unclassified ∧
    FullWindow breathingState ∧
    posDeltas breathingState.faceHistory = [0, 0, 0] ∧
    sizeDeltas breathingState.faceHistory = [2, 2, 2] ∧
    (aggregates breathingState.faceHistory).microMovementCount = 3 ∧
    ((posDeltas breathingState.faceHistory).countP (fun p => 0 < p ∧ p ≤ 20)) = 0 ∧
    checkLiveness breathingState = true := by
  decide

/-- C23, amended: on a full window the first loop of `checkLiveness` puts each of
the three adjacent pairs in exactly one of the classes zero, micro, large,
unclassified, and its three counters count the pairs of the first three
classes. Zero means `posDelta = 0` and `sizeDelta = 0`; micro means
`posDelta ≤ 20` and not zero (so also `posDelta = 0` with a size change); large
means `posDelta > 30`; unclassified means `20 < posDelta ≤ 30`. The class differs
from the one of the specification exactly for `posDelta = 0` with
`sizeDelta ≠ 0`. -/
theorem pair_classes (s : State) (h : FullWindow s) (pc sc : Int) (hpc : 0 ≤ pc) :
    (aggregates s.faceHistory).validComparisons = (adjacentPairs s.faceHistory).length ∧
    (aggregates s.faceHistory).zeroMovementCount = classCount PairClass.zero s.faceHistory ∧
    (aggregates s.faceHistory).microMovementCount = classCount PairClass.micro s.faceHistory ∧
    (aggregates s.faceHistory).largeMovementCount = classCount PairClass.large s.faceHistory ∧
    classCount PairClass.zero s.faceHistory + classCount PairClass.micro s.faceHistory
      + classCount PairClass.large s.faceHistory
      + classCount PairClass.unclassified s.faceHistory = 3 ∧
    (classify pc sc = PairClass.zero ↔ pc = 0 ∧ sc = 0) ∧
    (classify pc sc = PairClass.micro ↔ pc ≤ 20 ∧ ¬ (pc = 0 ∧ sc = 0)) ∧
    (classify pc sc = PairClass.large ↔ 30 < pc) ∧
    (classify pc sc = PairClass.unclassified ↔ 20 < pc ∧ pc ≤ 30) ∧
    (classify pc sc = specClass pc sc ↔ ¬ (pc = 0 ∧ sc ≠ 0)) := by
  obtain ⟨a, b, c, d, hh, ha, hb, hc, hd⟩ := fullWindow_slots s h
  obtain ⟨g1, g2, g3, g4, -, -, -⟩ := aggregates_four a b c d ha hb hc hd
  rw [hh]
  refine ⟨by rw [g1]; rfl, by rw [g2, classCount_four], by rw [g3, classCount_four],
    by rw [g4, classCount_four], ?_, ?_, ?_, ?_, ?_, ?_⟩
  · have e1 := classCount_four PairClass.zero a b c d
    have e2 := classCount_four PairClass.micro a b c d
    have e3 := classCount_four PairClass.large a b c d
    have e4 := classCount_four PairClass.unclassified a b c d
    have key : ∀ k : PairClass,
        ((if k = PairClass.zero then 1 else 0 : Int) + (if k = PairClass.micro then 1 else 0)
          + (if k = PairClass.large then 1 else 0)
          + (if k = PairClass.unclassified then 1 else 0)) = 1 := by
      intro k
      cases k <;> rfl
    have k1 := key (classify (posChange a b) (sizeChange a b))
    have k2 := key (classify (posChange b c) (sizeChange b c))
    have k3 := key (classify (posChange c d) (sizeChange c d))
    omega
  all_goals
    rcases classify_cases pc sc with ⟨x1, x2⟩ | ⟨x1, x3, x2⟩ | ⟨x1, x3, x2⟩ | ⟨x1, x3, x2⟩
  all_goals first
    | (rw [x2]; simp only [reduceCtorEq, false_iff, true_iff]; omega)
    | (rw [x2]
       unfold specClass LIVENESS_MAX_MICRO_MOVEMENT LIVENESS_PHOTO_THRESHOLD
       split_ifs <;> simp only [reduceCtorEq, false_iff, true_iff] <;> omega)

theorem pair_classes_witness :
    (aggregates naturalState.faceHistory).microMovementCount = 3 ∧
    (classify 0 2 = PairClass.micro ↔ (0 : Int) ≤ 20 ∧ ¬ ((0 : Int) = 0 ∧ (2 : Int) = 0)) :=
  have h := pair_classes naturalState (by decide) 0 2 (by decide)
  ⟨h.2.2.1.trans (by decide), h.2.2.2.2.2.2.1⟩

/-- C24: what `checkLiveness` analyses after `n` recordings since a reset. The
first loop pairs slot `i` with slot `i + 1`, whatever the cursor is. As long as
the window has not wrapped (`n < 4`), or has wrapped a whole number of times
(`n mod 4 = 0`), the slots hold the last four samples in the order of
recording and the result is that of the analysis in that order. Otherwise the
slots hold them rotated: slot `n mod 4 - 1` holds the newest sample and slot
`n mod 4` the oldest, so that one of the three position changes is taken between
the newest and the oldest sample of the window, which were recorded three calls
apart, and the change between the two newest samples is not taken. -/
theorem window_slot_order (samples : List FacePosition) (s : State)
    (hlen : s.faceHistory.length = LIVENESS_CHECK_COUNT) (hidx : s.faceHistoryIndex = 0)
    (hcnt : s.faceHistoryCount = 0) :
    (LIVENESS_CHECK_COUNT ≤ samples.length → ∀ i, i < LIVENESS_CHECK_COUNT →
      (recordAll samples s).faceHistory[i]? =
        (windowSamples (recordAll samples s))[(i + LIVENESS_CHECK_COUNT
          - samples.length % LIVENESS_CHECK_COUNT) % LIVENESS_CHECK_COUNT]?) ∧
    (samples.length < LIVENESS_CHECK_COUNT ∨ samples.length % LIVENESS_CHECK_COUNT = 0 →
      checkLiveness (recordAll samples s) = chronologicalLiveness (recordAll samples s)) ∧
    (LIVENESS_CHECK_COUNT ≤ samples.length → samples.length % LIVENESS_CHECK_COUNT ≠ 0 →
      (recordAll samples s).faceHistory[samples.length % LIVENESS_CHECK_COUNT - 1]?
        = samples[samples.length - 1]? ∧
      (recordAll samples s).faceHistory[samples.length % LIVENESS_CHECK_COUNT]?
        = samples[samples.length - LIVENESS_CHECK_COUNT]?) := by
  obtain ⟨h1, h2, h3, h4⟩ := recordAll_invariant samples s hlen hidx hcnt
  have hw := windowSamples_recordAll samples s hlen hidx hcnt
  unfold LIVENESS_CHECK_COUNT at *
  have slots : 4 ≤ samples.length → ∀ i, i < 4 →
      (recordAll samples s).faceHistory[i]? =
        (windowSamples (recordAll samples s))[(i + 4 - samples.length % 4) % 4]? := by
    intro hn i hi
    rw [hw, List.getElem?_drop]
    have hj := h4 (samples.length - 4 + (i + 4 - samples.length % 4) % 4) (by omega) (by omega)
    have e : (samples.length - 4 + (i + 4 - samples.length % 4) % 4) % 4 = i := by omega
    rw [e] at hj
    exact hj
  refine ⟨slots, ?_, ?_⟩
  · rintro (hn | hn)
    · have hc : (recordAll samples s).faceHistoryCount < LIVENESS_CHECK_COUNT := by
        rw [h3]
        unfold LIVENESS_CHECK_COUNT
        omega
      unfold chronologicalLiveness checkLiveness livenessVerdict
      rw [if_pos hc, if_pos hc]
    · by_cases hz : samples.length < 4
      · have hc : (recordAll samples s).faceHistoryCount < LIVENESS_CHECK_COUNT := by
          rw [h3]
          unfold LIVENESS_CHECK_COUNT
          omega
        unfold chronologicalLiveness checkLiveness livenessVerdict
        rw [if_pos hc, if_pos hc]
      · have e : windowSamples (recordAll samples s) = (recordAll samples s).faceHistory := by
          apply List.ext_getElem?
          intro i
          by_cases hi : i < 4
          · rw [slots (by omega) i hi]
            have e2 : (i + 4 - samples.length % 4) % 4 = i := by omega
            rw [e2]
          · rw [List.getElem?_eq_none (by rw [hw, List.length_drop]; omega),
              List.getElem?_eq_none (by rw [h1]; omega)]
        unfold chronologicalLiveness
        rw [e]
  · intro hn hk
    have a1 := h4 (samples.length - 1) (by omega) (by omega)
    have a2 := h4 (samples.length - 4) (by omega) (by omega)
    have e1 : (samples.length - 1) % 4 = samples.length % 4 - 1 := by omega
    have e2 : (samples.length - 4) % 4 = samples.length % 4 := by omega
    rw [e1] at a1
    rw [e2] at a2
    exact ⟨a1, a2⟩

theorem window_slot_order_witness :
    (recordAll wrapSamples (resetLivenessTracking idleState)).faceHistory[0]?
      = some ⟨96, 100, 50, 50, true⟩ ∧
    (recordAll wrapSamples (resetLivenessTracking idleState)).faceHistory[1]?
      = some ⟨100, 100, 50, 50, true⟩ ∧
    windowSamples (recordAll wrapSamples (resetLivenessTracking idleState))
      = wrapSamples.tail ∧
    checkLiveness (recordAll wrapSamples (resetLivenessTracking idleState)) = true ∧
    chronologicalLiveness (recordAll wrapSamples (resetLivenessTracking idleState)) = false ∧
    SameWindow (recordFace wrapLast.currentPos (runCycles wrapCycles idleState))
      (recordAll wrapSamples (resetLivenessTracking idleState)) ∧
    (handleRecognition wrapLast (runCycles wrapCycles idleState)).2 = Outcome.accessGranted :=
  have h := (window_slot_order wrapSamples (resetLivenessTracking idleState) (by decide)
    (by decide) (by decide)).2.2 (by decide) (by decide)
  ⟨h.1, h.2, by decide, by decide, by decide, by decide!, by decide!⟩

/-- C25: on every full window on which `checkLiveness` gets to CHECK 3 (CHECK 1
and CHECK 2 did not return), the `posChangeVariance` that CHECK 3 reads is the
largest minus the smallest position change of the three adjacent pairs, whatever
the size of the position changes, values above 999 included. The code computes
the largest position change minus the smaller of 999 and the smallest one; that
is largest minus smallest as soon as one position change is at most 999, and a
window whose three position changes are all above 999 is turned down by CHECK 2,
before CHECK 3 reads the value. -/
theorem posVariance_range (s : State) (h : FullWindow s) :
    (livenessVerdict s ≠ Liveness.staticFace → livenessVerdict s ≠ Liveness.erraticMovement →
      (aggregates s.faceHistory).posChangeVariance = specPosVariance s.faceHistory) ∧
    (listMin (posDeltas s.faceHistory) ≤ 999 →
      (aggregates s.faceHistory).posChangeVariance = specPosVariance s.faceHistory) ∧
    (aggregates s.faceHistory).posChangeVariance =
      listMax (posDeltas s.faceHistory) - min 999 (listMin (posDeltas s.faceHistory)) ∧
    (999 < listMin (posDeltas s.faceHistory) →
      livenessVerdict s = Liveness.erraticMovement) := by
  obtain ⟨a, b, c, d, hh, ha, hb, hc, hd⟩ := fullWindow_slots s h
  obtain ⟨-, -, -, -, -, -, g7⟩ := aggregates_four a b c d ha hb hc hd
  have n1 := posChange_nonneg a b
  have hmax : listMax (posDeltas s.faceHistory)
      = max (max (max 0 (posChange a b)) (posChange b c)) (posChange c d) := by
    rw [hh, (deltas_four a b c d).1, (listMax_three _ _ _).1, max_eq_right n1]
  have hmin : listMin (posDeltas s.faceHistory)
      = min (min (posChange a b) (posChange b c)) (posChange c d) := by
    rw [hh, (deltas_four a b c d).1, (listMax_three _ _ _).2]
  have e1 : (aggregates s.faceHistory).posChangeVariance =
      listMax (posDeltas s.faceHistory) - min 999 (listMin (posDeltas s.faceHistory)) := by
    rw [hmax, hmin, hh, g7, min_assoc, min_assoc, min_assoc]
  have big : 999 < listMin (posDeltas s.faceHistory) →
      livenessVerdict s = Liveness.erraticMovement := by
    intro hbig
    rw [hmin, lt_min_iff, lt_min_iff] at hbig
    obtain ⟨⟨b1, b2⟩, b3⟩ := hbig
    exact verdict_all_large a b c d s h hh (by omega) (by omega) (by omega)
  have e2 : listMin (posDeltas s.faceHistory) ≤ 999 →
      (aggregates s.faceHistory).posChangeVariance = specPosVariance s.faceHistory := by
    intro hle
    rw [e1, min_eq_right hle]
    rfl
  refine ⟨?_, e2, e1, big⟩
  intro _ hne
  apply e2
  by_contra hgt
  exact hne (big (not_le.mp hgt))

theorem posVariance_range_witness :
    (posDeltas naturalState.faceHistory = [3, 3, 4] ∧
      livenessVerdict naturalState = Liveness.passed ∧
      (aggregates naturalState.faceHistory).posChangeVariance = 1 ∧
      specPosVariance naturalState.faceHistory = 1) ∧
    (posDeltas oneFarStepState.faceHistory = [5, 1200, 5] ∧
      livenessVerdict oneFarStepState = Liveness.flatSurface ∧
      (aggregates oneFarStepState.faceHistory).posChangeVariance = 1195 ∧
      specPosVariance oneFarStepState.faceHistory = 1195) ∧
    (posDeltas farStepState.faceHistory = [1200, 1200, 1200] ∧
      livenessVerdict farStepState = Liveness.erraticMovement) :=
  have h1 := posVariance_range naturalState (by decide)
  have h2 := posVariance_range oneFarStepState (by decide)
  have h3 := posVariance_range farStepState (by decide)
  ⟨⟨by decide, by decide, (h1.1 (by decide) (by decide)).trans (by decide), by decide⟩,
   ⟨by decide, by decide, (h2.1 (by decide) (by decide)).trans (by decide), by decide⟩,
   ⟨by decide, h3.2.2.2 (by decide)⟩⟩

/-- C26, counterexample: a full window whose widths go 50, 51, 51, 50 while the
face moves 15 per step is rejected as a flat surface, although two of its three
pairs show a size change. -/
theorem flat_surface_counterexample :
    FullWindow nearlyFlatState ∧
    livenessVerdict nearlyFlatState = Liveness.flatSurface ∧
    sizeDeltas nearlyFlatState.faceHistory = [1, 0, 1] ∧
    posDeltas nearlyFlatState.faceHistory = [15, 15, 15] := by
  decide

/-- C26, amended: on a full window that `checkLiveness` rejects by CHECK 4 (flat
surface) the three size changes add up to at most 2, so that their average in
`int` arithmetic is 0 (their arithmetic mean is below 1, not necessarily 0), and
the three position changes add up to at least 33, so that their average in `int`
arithmetic exceeds 10. -/
theorem flat_surface_bounds (s : State) (h : FullWindow s)
    (hv : livenessVerdict s = Liveness.flatSurface) :
    (aggregates s.faceHistory).avgSizeChange = (sizeDeltas s.faceHistory).sum / 3 ∧
    (aggregates s.faceHistory).avgPosChange = (posDeltas s.faceHistory).sum / 3 ∧
    (aggregates s.faceHistory).avgSizeChange = 0 ∧
    10 < (aggregates s.faceHistory).avgPosChange ∧
    (sizeDeltas s.faceHistory).sum ≤ 2 ∧
    (∀ x ∈ sizeDeltas s.faceHistory, 0 ≤ x ∧ x ≤ 2) ∧
    33 ≤ (posDeltas s.faceHistory).sum ∧
    (((sizeDeltas s.faceHistory).sum : Int) : Rat) / 3 < 1 ∧
    10 < (((posDeltas s.faceHistory).sum : Int) : Rat) / 3 := by
  obtain ⟨a, b, c, d, hh, ha, hb, hc, hd⟩ := fullWindow_slots s h
  obtain ⟨-, -, -, -, g5, g6, -⟩ := aggregates_four a b c d ha hb hc hd
  have n1 := posChange_nonneg a b
  have n2 := posChange_nonneg b c
  have n3 := posChange_nonneg c d
  have m1 := sizeChange_nonneg a b
  have m2 := sizeChange_nonneg b c
  have m3 := sizeChange_nonneg c d
  have hflat : (aggregates s.faceHistory).avgSizeChange = 0 ∧
      (aggregates s.faceHistory).avgPosChange > 10 := by
    rw [(fullWindow_verdict s h).2, specVerdict_eq] at hv
    split_ifs at hv with c1 c2 c3 c4 c5
    exact c4
  rw [hh] at hflat ⊢
  rw [(deltas_four a b c d).1, (deltas_four a b c d).2]
  simp only [List.sum_cons, List.sum_nil, add_zero, List.mem_cons, List.mem_singleton,
    List.not_mem_nil, or_false, forall_eq_or_imp, forall_eq]
  rw [g5, g6] at hflat
  obtain ⟨f1, f2⟩ := hflat
  have s1 : sizeChange a b + (sizeChange b c + sizeChange c d) ≤ 2 := by omega
  have s2 : 33 ≤ posChange a b + (posChange b c + posChange c d) := by omega
  refine ⟨by rw [g6, add_assoc], by rw [g5, add_assoc], by rw [g6]; exact f1,
    by rw [g5]; exact f2, s1, ⟨⟨m1, by omega⟩, ⟨m2, by omega⟩, ⟨m3, by omega⟩⟩, s2, ?_, ?_⟩
  · rw [div_lt_iff₀ (by norm_num)]
    have : ((sizeChange a b + (sizeChange b c + sizeChange c d) : Int) : Rat) ≤ ((2 : Int) : Rat) :=
      Int.cast_le.mpr s1
    push_cast at this ⊢
    linarith
  · rw [lt_div_iff₀ (by norm_num)]
    have : (((33 : Int)) : Rat) ≤ ((posChange a b + (posChange b c + posChange c d) : Int) : Rat) :=
      Int.cast_le.mpr s2
    push_cast at this ⊢
    linarith

theorem flat_surface_bounds_witness :
    (sizeDeltas nearlyFlatState.faceHistory).sum ≤ 2 ∧
    33 ≤ (posDeltas nearlyFlatState.faceHistory).sum :=
  have h := flat_surface_bounds nearlyFlatState (by decide) (by decide)
  ⟨h.2.2.2.2.1, h.2.2.2.2.2.2.1⟩

/-- C27: on a full window of four valid samples `checkLiveness` returns `true`
exactly when `microMovementCount` is at least 2 and CHECK 4 does not hold
(`avgSizeChange = 0` with `avgPosChange > 10`). The condition of each of CHECK 1,
CHECK 2 and CHECK 3 implies `microMovementCount < 2`, so these three checks
decide the reason only, never the verdict. -/
theorem verdict_from_two_checks (s : State) (h : FullWindow s) :
    (checkLiveness s = true ↔
      (aggregates s.faceHistory).microMovementCount ≥ LIVENESS_CONSISTENCY_REQUIRED ∧
      ¬ ((aggregates s.faceHistory).avgSizeChange = 0 ∧
        (aggregates s.faceHistory).avgPosChange > 10)) ∧
    ((aggregates s.faceHistory).zeroMovementCount
        ≥ (aggregates s.faceHistory).validComparisons - 1 →
      (aggregates s.faceHistory).microMovementCount < LIVENESS_CONSISTENCY_REQUIRED) ∧
    ((aggregates s.faceHistory).largeMovementCount ≥ 2 →
      (aggregates s.faceHistory).microMovementCount < LIVENESS_CONSISTENCY_REQUIRED) ∧
    ((aggregates s.faceHistory).avgPosChange > LIVENESS_PHOTO_THRESHOLD ∧
        (aggregates s.faceHistory).posChangeVariance < 5 →
      (aggregates s.faceHistory).microMovementCount < LIVENESS_CONSISTENCY_REQUIRED) := by
  obtain ⟨a, b, c, d, hh, ha, hb, hc, hd⟩ := fullWindow_slots s h
  obtain ⟨g1, g2, g3, g4, g5, g6, g7⟩ := aggregates_four a b c d ha hb hc hd
  have n1 := posChange_nonneg a b
  have n2 := posChange_nonneg b c
  have n3 := posChange_nonneg c d
  have key : ∀ (pc sc : Int), ∃ z m l : Int,
      (if classify pc sc = PairClass.zero then 1 else 0 : Int) = z ∧
      (if classify pc sc = PairClass.micro then 1 else 0 : Int) = m ∧
      (if classify pc sc = PairClass.large then 1 else 0 : Int) = l ∧
      0 ≤ z ∧ 0 ≤ m ∧ 0 ≤ l ∧ z + m + l ≤ 1 ∧ (m = 1 → pc ≤ 20) := by
    intro pc sc
    rcases classify_cases pc sc with ⟨x1, x2⟩ | ⟨x1, x3, x2⟩ | ⟨x1, x3, x2⟩ | ⟨x1, x3, x2⟩
    · exact ⟨1, 0, 0, by rw [x2]; rfl, by rw [x2]; rfl, by rw [x2]; rfl, by omega⟩
    · exact ⟨0, 1, 0, by rw [x2]; rfl, by rw [x2]; rfl, by rw [x2]; rfl, by omega⟩
    · exact ⟨0, 0, 1, by rw [x2]; rfl, by rw [x2]; rfl, by rw [x2]; rfl, by omega⟩
    · exact ⟨0, 0, 0, by rw [x2]; rfl, by rw [x2]; rfl, by rw [x2]; rfl, by omega⟩
  obtain ⟨z1, m1, l1, a1, a2, a3, a4⟩ := key (posChange a b) (sizeChange a b)
  obtain ⟨z2, m2, l2, b1, b2, b3, b4⟩ := key (posChange b c) (sizeChange b c)
  obtain ⟨z3, m3, l3, c1, c2, c3, c4⟩ := key (posChange c d) (sizeChange c d)
  rw [a1, b1, c1] at g2
  rw [a2, b2, c2] at g3
  rw [a3, b3, c3] at g4
  have r1 : (aggregates s.faceHistory).zeroMovementCount
        ≥ (aggregates s.faceHistory).validComparisons - 1 →
      (aggregates s.faceHistory).microMovementCount < LIVENESS_CONSISTENCY_REQUIRED := by
    rw [hh, g1, g2, g3]
    unfold LIVENESS_CONSISTENCY_REQUIRED
    omega
  have r2 : (aggregates s.faceHistory).largeMovementCount ≥ 2 →
      (aggregates s.faceHistory).microMovementCount < LIVENESS_CONSISTENCY_REQUIRED := by
    rw [hh, g3, g4]
    unfold LIVENESS_CONSISTENCY_REQUIRED
    omega
  have r3 : (aggregates s.faceHistory).avgPosChange > LIVENESS_PHOTO_THRESHOLD ∧
        (aggregates s.faceHistory).posChangeVariance < 5 →
      (aggregates s.faceHistory).microMovementCount < LIVENESS_CONSISTENCY_REQUIRED := by
    rw [hh, g3, g5, g7]
    unfold LIVENESS_CONSISTENCY_REQUIRED LIVENESS_PHOTO_THRESHOLD
    have u1 : posChange a b ≤ max (max (max 0 (posChange a b)) (posChange b c)) (posChange c d) :=
      le_trans (le_trans (le_max_right _ _) (le_max_left _ _)) (le_max_left _ _)
    have u2 : posChange b c ≤ max (max (max 0 (posChange a b)) (posChange b c)) (posChange c d) :=
      le_trans (le_max_right _ _) (le_max_left _ _)
    have u3 : posChange c d ≤ max (max (max 0 (posChange a b)) (posChange b c)) (posChange c d) :=
      le_max_right _ _
    have l1 : min (min (min 999 (posChange a b)) (posChange b c)) (posChange c d) ≤ posChange a b :=
      le_trans (le_trans (min_le_left _ _) (min_le_left _ _)) (min_le_right _ _)
    have l2 : min (min (min 999 (posChange a b)) (posChange b c)) (posChange c d) ≤ posChange b c :=
      le_trans (min_le_left _ _) (min_le_right _ _)
    have l3 : min (min (min 999 (posChange a b)) (posChange b c)) (posChange c d) ≤ posChange c d :=
      min_le_right _ _
    generalize max (max (max 0 (posChange a b)) (posChange b c)) (posChange c d) = mx at u1 u2 u3 ⊢
    generalize min (min (min 999 (posChange a b)) (posChange b c)) (posChange c d) = mn
      at l1 l2 l3 ⊢
    clear g1 g2 g3 g4 g5 g6 g7 a1 a2 a3 b1 b2 b3 c1 c2 c3 r1 r2 hh
    obtain ⟨a5, a6, a7, a8, a9⟩ := a4
    obtain ⟨b5, b6, b7, b8, b9⟩ := b4
    obtain ⟨c5, c6, c7, c8, c9⟩ := c4
    intro hyp
    obtain ⟨y1, y2⟩ := hyp
    have t1 : 26 < posChange a b := by omega
    have t2 : 26 < posChange b c := by omega
    have t3 : 26 < posChange c d := by omega
    have w1 : m1 ≤ 0 := by omega
    have w2 : m2 ≤ 0 := by omega
    have w3 : m3 ≤ 0 := by omega
    omega
  refine ⟨?_, r1, r2, r3⟩
  unfold checkLiveness
  rw [decide_eq_true_iff, (fullWindow_verdict s h).2, specVerdict_eq]
  constructor
  · intro hp
    split_ifs at hp with d1 d2 d3 d4 d5
    exact ⟨not_lt.mp d5, d4⟩
  · rintro ⟨hm, hf⟩
    rw [if_neg (fun x => absurd (r1 x) (not_lt.mpr hm)),
      if_neg (fun x => absurd (r2 x) (not_lt.mpr hm)),
      if_neg (fun x => absurd (r3 x) (not_lt.mpr hm)), if_neg hf, if_neg (not_lt.mpr hm)]

theorem verdict_from_two_checks_witness :
    checkLiveness naturalState = true ∧
    (aggregates naturalState.faceHistory).microMovementCount = 3 :=
  have h := verdict_from_two_checks naturalState (by decide)
  ⟨h.1.mpr (by decide), by decide⟩

/-- C28: in a run of `handleRecognition` calls with a user enrolled, started with
no more samples counted than consecutive matches (as in the initial state), the
number of samples counted in the liveness window never exceeds
`consecutiveMatches` at the end of a call. Hence a call that ends in the grant
has compared a count of at least `LIVENESS_CHECK_COUNT` (4) with
`RECOGNITION_CONFIRM_COUNT` (3), and the third accepted match in a row of one
identity ends in the liveness denial with one `DENIED_LIVENESS_FAIL` record, which
is stored at the end of the log file or in the slot under the cursor of the
in-memory buffer. -/
theorem window_behind_streak (inputs : List CycleInput) (s0 : State) (inp : CycleInput)
    (husers : s0.totalUsers ≠ 0) (h0 : s0.faceHistoryCount ≤ s0.consecutiveMatches) :
    (runCycles inputs s0).faceHistoryCount ≤ (runCycles inputs s0).consecutiveMatches ∧
    ((handleRecognition inp (runCycles inputs s0)).2 = Outcome.accessGranted →
      inp.matchName = (runCycles inputs s0).lastConfirmedUser ∧
      LIVENESS_CHECK_COUNT ≤ (runCycles inputs s0).consecutiveMatches + 1 ∧
      ∃ p, LIVENESS_CHECK_COUNT ≤ ((runCycles inputs s0).counted inp p).consecutiveMatches) ∧
    (PollDue inp (runCycles inputs s0) → inp.captureOk = true → inp.detectOk = true →
      inp.recognizeOk = true → UsableName inp.matchName →
      RECOGNITION_THRESHOLD ≤ inp.similarity →
      inp.matchName = (runCycles inputs s0).lastConfirmedUser →
      (runCycles inputs s0).consecutiveMatches + 1 = RECOGNITION_CONFIRM_COUNT →
      (handleRecognition inp (runCycles inputs s0)).2 = Outcome.livenessFailed ∧
      (handleRecognition inp (runCycles inputs s0)).1.calls =
        (runCycles inputs s0).calls ++
          [Call.logActivity inp.matchName "DENIED_LIVENESS_FAIL" false inp.similarity] ∧
      RecordStored inp.sd
        ⟨inp.matchName, "DENIED_LIVENESS_FAIL", false, inp.similarity, inp.logTime⟩
        (runCycles inputs s0).log (handleRecognition inp (runCycles inputs s0)).1.log) := by
  obtain ⟨hu, hinv⟩ := runCycles_streak inputs s0 husers h0
  generalize runCycles inputs s0 = s at hu hinv ⊢
  have hr := recordFace_count_le inp.currentPos s
  refine ⟨hinv, ?_, ?_⟩
  · intro hg
    obtain ⟨p, -, hsame, -, hlive, -⟩ := granted_inv hg
    obtain ⟨-, -, -, h4, -, -, h7, -⟩ := counted_same_fields p hsame
    have hc := checkLiveness_true_count _ hlive
    rw [h7] at hc
    unfold LIVENESS_CHECK_COUNT at *
    refine ⟨hsame, by omega, p, ?_⟩
    rw [h4]
    omega
  · intro hdue hcap hdet hrec hname hconf hsame hthird
    obtain ⟨p, hp⟩ := handleRecognition_accepted hdue hcap hdet hu hrec hname hconf
    obtain ⟨h1, h2, -, h4, -, -, h7, -⟩ := counted_same_fields p hsame
    have hcount : ¬ (s.counted inp p).consecutiveMatches < RECOGNITION_CONFIRM_COUNT := by
      rw [h4, hthird]
      exact lt_irrefl _
    have hlive : checkLiveness (s.counted inp p) = false := by
      cases hl : checkLiveness (s.counted inp p)
      · rfl
      · have hc := checkLiveness_true_count _ hl
        rw [h7] at hc
        unfold LIVENESS_CHECK_COUNT RECOGNITION_CONFIRM_COUNT at *
        omega
    rw [hp, decideAccess_livenessFailed hcount hlive]
    refine ⟨rfl, ?_, ?_⟩
    · show (s.counted inp p).calls ++ _ = _
      rw [h1]
    · show RecordStored _ _ _ (logActivity _ _ _ _ _ _ (s.counted inp p).log)
      rw [h2]
      have hs := logActivity_stored inp.sd inp.logTime inp.matchName "DENIED_LIVENESS_FAIL" false inp.similarity s.log
      refine ⟨hs.1, hs.2.1, fun hno => ?_⟩
      unfold logActivity
      by_cases hr : s.log.sdCardReady = true
      · rw [if_pos hr, if_neg (fun hio => hno ⟨hr, hio⟩)]
        exact ⟨rfl, rfl, rfl, rfl⟩
      · rw [if_neg hr]
        exact ⟨rfl, rfl, rfl, rfl⟩

theorem window_behind_streak_witness :
    (runCycles [alice1, alice2] idleState).faceHistoryCount = 2 ∧
    (runCycles [alice1, alice2] idleState).consecutiveMatches = 2 ∧
    (handleRecognition alice3 (runCycles [alice1, alice2] idleState)).2
      = Outcome.livenessFailed ∧
    (handleRecognition alice3 (runCycles [alice1, alice2] idleState)).1.log.ramLogBuffer =
      [⟨"alice", "DENIED_LIVENESS_FAIL", false, 95 / 100, 3000⟩,
        ActivityLog.zero, ActivityLog.zero, ActivityLog.zero, ActivityLog.zero] ∧
    (handleRecognition alice3 (runCycles [alice1, alice2] idleState)).1.log.ramLogCount = 1 :=
  have h := window_behind_streak [alice1, alice2] idleState alice3 (by decide) (by decide)
  have t := h.2.2 (by decide!) rfl rfl rfl (by decide) (by decide!) (by decide!) (by decide!)
  have r := t.2.2.2.2 (by decide!)
  ⟨by decide!, by decide!, t.1, r.2.1.trans (by decide!), by decide!⟩

/-- C29: in every state reached from a state with the initial window by calls of
`handleRecognition` and of `resetLivenessTracking`, the window has four slots,
`faceHistoryCount ≤ 4`, `faceHistoryIndex < 4`, and slot `i` is valid exactly
when `i < faceHistoryCount`. So whenever `checkLiveness` gets past the test of
the count, all four slots and all three adjacent pairs are valid,
`validComparisons` is 3 (the divisor of the two averages), and the return "no
valid comparisons" is not taken. -/
theorem window_shape_reachable (events : List WindowEvent) (s0 : State)
    (hhist : s0.faceHistory = List.replicate LIVENESS_CHECK_COUNT FacePosition.zero)
    (hidx : s0.faceHistoryIndex = 0) (hcnt : s0.faceHistoryCount = 0) :
    WindowShape (runEvents events s0) ∧
    (¬ (runEvents events s0).faceHistoryCount < LIVENESS_CHECK_COUNT →
      FullWindow (runEvents events s0) ∧
      (∀ p ∈ adjacentPairs (runEvents events s0).faceHistory,
        p.1.valid = true ∧ p.2.valid = true) ∧
      (adjacentPairs (runEvents events s0).faceHistory).length = 3 ∧
      (aggregates (runEvents events s0).faceHistory).validComparisons = 3 ∧
      livenessVerdict (runEvents events s0) ≠ Liveness.noValidComparisons ∧
      livenessVerdict (runEvents events s0) ≠ Liveness.insufficientHistory) := by
  have h0 : WindowInv s0 := by
    unfold WindowInv WindowShape LIVENESS_CHECK_COUNT
    rw [hhist, hidx, hcnt]
    refine ⟨⟨rfl, Nat.zero_le _, by decide, ?_⟩, fun _ => rfl⟩
    intro i hi
    interval_cases i <;> decide
  have hinv := windowInv_events events s0 h0
  refine ⟨hinv.1, fun hc => ?_⟩
  have hfull := fullWindow_of_shape _ hinv.1 hc
  obtain ⟨a, b, c, d, hh, ha, hb, hc4, hd⟩ := fullWindow_slots _ hfull
  obtain ⟨hv, he⟩ := fullWindow_verdict _ hfull
  refine ⟨hfull, ?_, ?_, hv, ?_, ?_⟩
  · intro p hp
    rw [hh] at hp
    simp only [adjacentPairs, List.tail_cons, List.zip_cons_cons, List.zip_nil_right,
      List.mem_cons, List.mem_singleton, List.not_mem_nil, or_false] at hp
    rcases hp with e | e | e <;> rw [e] <;> simp [ha, hb, hc4, hd]
  · rw [hh]; rfl
  · rw [he, specVerdict_eq]
    split_ifs <;> simp
  · rw [he, specVerdict_eq]
    split_ifs <;> simp

theorem window_shape_reachable_witness :
    WindowShape (runEvents (wrapCycles.map WindowEvent.cycle) idleState) ∧
    FullWindow (runEvents (wrapCycles.map WindowEvent.cycle) idleState) ∧
    (aggregates (runEvents (wrapCycles.map WindowEvent.cycle) idleState).faceHistory
      ).validComparisons = 3 :=
  have h := window_shape_reachable (wrapCycles.map WindowEvent.cycle) idleState rfl rfl rfl
  ⟨h.1, (h.2 (by decide!)).1, (h.2 (by decide!)).2.2.2.1⟩

/-- C30, counterexample: on a ready card without a log file (what the clear
handler leaves when the file is removed and cannot be created again) a durable
`logActivity` puts the line of its record where the header belongs, and the log
query that follows, with limit 1, answers with no record. -/
theorem round_trip_counterexample :
    apiLogsClear ⟨true, false⟩ headerOnlyStore = noFileStore ∧
    noFileStore.sdCardReady = true ∧ sdOk.appendOpens = true ∧
    FieldText "bob" ∧ FieldText "ACCESS_GRANTED" ∧
    (logActivity sdOk 2000 "bob" "ACCESS_GRANTED" true (97 / 100) noFileStore).sdLogFile =
      some "2000,bob,ACCESS_GRANTED,1,0.97\n".data ∧
    apiLogs sdOk 1 (logActivity sdOk 2000 "bob" "ACCESS_GRANTED" true (97 / 100) noFileStore)
      = [] := by
  decide!

/-- C30, amended: let the log file exist and be a header line followed by lines of
entries, fewer than 500 of them unless `trimSDLogFile` can open the file for its
rewrite. After a durable `logActivity` (card ready, file open for appending) of a
record whose user name and action hold no comma and no line feed, a log query
that opens the file, with a limit from 1 up to the largest `int`, answers with
the fields of that record first: time stamp, user name, action and success flag
as written, and the similarity in the form `%.2f`. -/
theorem logged_record_round_trip (io qio : SdIo) (r : ActivityLog) (s : LogStore)
    (text hdr : List Char) (ents : List (List Char)) (limit : Int)
    (ha : io.appendOpens = true)
    (htrim : (io.readOpens = true ∧ io.writeOpens = true) ∨ ents.length < 500)
    (hq : qio.readOpens = true) (hready : s.sdCardReady = true)
    (hfile : s.sdLogFile = some text) (hrep : FileRep text hdr ents)
    (hu : FieldText r.username) (hact : FieldText r.action)
    (h1 : 1 ≤ limit) (h2 : limit < 2147483648) :
    ∃ j rest,
      apiLogs qio limit
        (logActivity io r.timestamp r.username r.action r.success r.confidence s) = j :: rest ∧
      j.timestamp = (toString r.timestamp).data ∧ j.username = r.username.data ∧
      j.status = r.action.data ∧ j.success = r.success ∧
      j.confidence = formatFixed2 r.confidence := by
  obtain ⟨text2, k, hf2, he, hshort, hle⟩ := logActivity_entries io r s text hdr ents ha hready
    hfile hrep ⟨hu.2, hact.2⟩
  have hlen : (ents.drop k ++ [r.csv]).length ≤ 500 := by
    rw [List.length_append, List.length_singleton]
    rcases htrim with ⟨hr, hw⟩ | hlt
    · have := hshort hr hw
      unfold MAX_SD_LOGS at this
      omega
    · omega
  have hdur : logActivity io r.timestamp r.username r.action r.success r.confidence s =
      trimSDLogFile io
        { s with
          sdLogFile := some (text ++
            csvLine r.timestamp r.username r.action r.success r.confidence) } := by
    unfold logActivity
    rw [if_pos hready, if_pos ha, hfile]
    rfl
  have hav : SdAvailable
      (logActivity io r.timestamp r.username r.action r.success r.confidence s) := by
    refine ⟨?_, ?_⟩
    · rw [hdur, (trimSDLogFile_ram io _).2.2.2]; exact hready
    · rw [hf2]; rfl
  obtain ⟨n, hn⟩ : ∃ n, limit.toNat = n + 1 := ⟨limit.toNat - 1, by omega⟩
  refine ⟨r.csvJson, (((ents.drop k).reverse).take n).filterMap parseLine, ?_, rfl, rfl, rfl,
    rfl, rfl⟩
  rw [apiLogs_sd qio limit _ text2 hav hf2, if_pos hq, sdQuery_eq text2 limit (by omega) h2, he,
    List.take_of_length_le hlen, List.reverse_append, List.reverse_singleton, hn,
    List.singleton_append, List.take_succ_cons, List.filterMap_cons,
    parseLine_csv r hu.1 hact.1]

theorem logged_record_round_trip_witness :
    (∃ j rest,
      apiLogs sdOk 1 (logActivity sdOk 2000 "bob" "ACCESS_GRANTED" true (97 / 100)
        headerOnlyStore) = j :: rest ∧
      j.timestamp = "2000".data ∧ j.username = "bob".data ∧
      j.status = "ACCESS_GRANTED".data ∧ j.success = true ∧ j.confidence = "0.97".data) ∧
    apiLogs sdOk 1 (logActivity sdOk 2000 "bob" "ACCESS_GRANTED" true (97 / 100)
      headerOnlyStore) =
      [⟨"bob".data, "ACCESS_GRANTED".data, true, "0.97".data, "2000".data⟩] :=
  let ⟨j, rest, h1, h2, h3, h4, h5, h6⟩ := logged_record_round_trip sdOk sdOk
    ⟨"bob", "ACCESS_GRANTED", true, 97 / 100, 2000⟩ headerOnlyStore
    (println logHeader) (logHeader ++ ['\r']) [] 1 rfl (Or.inl ⟨rfl, rfl⟩) rfl rfl rfl
    ⟨by decide, by simp, [], rfl, by simp, rfl⟩
    (by decide) (by decide) (by decide) (by decide)
  ⟨⟨j, rest, h1, h2, h3, h4, h5, h6.trans (by decide!)⟩, by decide!⟩

end DoorAccess
